import Mathlib

/-!
Health Tracker: session gate and per-user record store.

A shallow embedding of `server.js`: the route handlers are functions over an
explicit database state (`Db`) and the caller's session (`Session`).

Conventions of the model
* A request body is a finite map from field names to JavaScript values; the
  values are the JSON primitives (arrays and nested objects are not modelled).
* JavaScript numbers and SQLite reals are doubles. A double is carried by the
  exact finite decimal it stands for (`Dec`); wherever the program or a library
  turns a text or a JSON number into a double, the model rounds to the nearest
  double, ties to the even mantissa, subnormal numbers and underflow to zero
  included (`Dec.toDouble`). SQLite integers are whole numbers of 64 bits and
  are exact. The infinite numbers are not modelled: a number beyond the range
  of a double is carried with the exponent it has, and the sign of zero is
  dropped.
* `bcrypt` is a parameter (`Bcrypt`); the salt of a hash and the timestamp of
  an insert are explicit inputs.
* A failure of the database engine that the model cannot predict (I/O error,
  locked file) is an explicit input `fault : Option String` of each statement.
-/

namespace HealthTracker

/-! ## Exact decimals -/

/-- Finite decimal `m / 10^e`. -/
structure Dec where
  m : Int
  e : Nat
deriving DecidableEq, Repr

/-- Normal form: no trailing zero in the fraction digits. -/
def Dec.norm : Int → Nat → Dec
  | m, 0 => ⟨m, 0⟩
  | m, e + 1 => if m % 10 = 0 then Dec.norm (m / 10) e else ⟨m, e + 1⟩

def Dec.ofInt (i : Int) : Dec := ⟨i, 0⟩

/-- Value `m * 10^k / 10^e`, for a decimal exponent `k`. -/
def Dec.scale (m : Int) (e : Nat) (k : Int) : Dec :=
  if (e : Int) ≤ k then ⟨m * 10 ^ (k - e).toNat, 0⟩ else Dec.norm m ((e : Int) - k).toNat

def Dec.add (a b : Dec) : Dec :=
  Dec.norm (a.m * 10 ^ (max a.e b.e - a.e) + b.m * 10 ^ (max a.e b.e - b.e)) (max a.e b.e)

def Dec.lt (a b : Dec) : Bool := decide (a.m * 10 ^ b.e < b.m * 10 ^ a.e)

def Dec.isZero (a : Dec) : Bool := decide (a.m = 0)

/-- Integer part, rounding toward zero. -/
def Dec.trunc (a : Dec) : Int := Int.tdiv a.m (10 ^ a.e)

/-- Number of decimal digits of a natural number (`0` has none). -/
def numDigits (n : Nat) : Nat := (Nat.toDigits 10 n).length - (if n = 0 then 1 else 0)

/-- Leading decimal digit of a natural number. -/
def leadDigit (n : Nat) : Nat := n / 10 ^ (numDigits n - 1)

def applySign (neg : Bool) (n : Nat) : Int := if neg then -(n : Int) else (n : Int)

/-- Position of the decimal point relative to the first significant digit:
the value is `0.d₁d₂… × 10^n`. -/
def Dec.pointPos (d : Dec) : Int := (numDigits d.m.natAbs : Int) - d.e

/-! ## Doubles -/

/-- Least `j`, from `j` on, with `n < 2 ^ 2 ^ j`. -/
def log2Bound : Nat → Nat → Nat → Nat
  | 0, _, j => j
  | fuel + 1, n, j => if n < 2 ^ 2 ^ j then j else log2Bound fuel n (j + 1)

/-- Search for the largest `k` with `2 ^ k ≤ n`, bit by bit from bit `j` down. -/
def log2Search : Nat → Nat → Nat → Nat
  | 0, _, k => k
  | j + 1, n, k => if 2 ^ (k + 2 ^ j) ≤ n then log2Search j n (k + 2 ^ j) else log2Search j n k

/-- The largest `k` with `2 ^ k ≤ n`, for a positive `n`. -/
def floorLog2 (n : Nat) : Nat := log2Search (log2Bound n n 0) n 0

/-- The double nearest to the positive rational `num / den`, as a mantissa and
a binary exponent: the mantissa has 53 bits, fewer for a subnormal number whose
exponent is the least one, `-1074`; a tie goes to the even mantissa. -/
def roundBinary (num den : Nat) : Nat × Int :=
  let k : Int := (floorLog2 num : Int) - (floorLog2 den : Int)
  let l : Int := if den * 2 ^ k.toNat ≤ num * 2 ^ (-k).toNat then k else k - 1
  let e2 : Int := max (l - 52) (-1074)
  let n := num * 2 ^ (-e2).toNat
  let d := den * 2 ^ e2.toNat
  let up := decide (d < 2 * (n % d)) || (decide (2 * (n % d) = d) && decide (n / d % 2 = 1))
  (if up then n / d + 1 else n / d, e2)

/-- The double nearest to a decimal, as the decimal it stands for, in normal
form. A whole number below `2 ^ 53` is a double. -/
def Dec.toDouble (d : Dec) : Dec :=
  let n := Dec.norm d.m d.e
  if n.e = 0 ∧ n.m.natAbs < 2 ^ 53 then n
  else
    let r := roundBinary n.m.natAbs (10 ^ n.e)
    if 0 ≤ r.2 then ⟨applySign (decide (n.m < 0)) (r.1 * 2 ^ r.2.toNat), 0⟩
    else Dec.norm (applySign (decide (n.m < 0)) (r.1 * 5 ^ (-r.2).toNat)) (-r.2).toNat

/-- Search for the shortest decimal that rounds to the double `a / 10 ^ e`,
where `a` has `nd` digits: the decimals of `k` significant digits next to the
double, below and above, are tried for `k` from 1 on; of two that round to the
double the nearer one is taken, the even one on a tie. -/
def shortestFrom : Nat → Nat → Nat → Nat → Nat → Dec
  | 0, a, e, _, _ => Dec.norm a e
  | fuel + 1, a, e, nd, k =>
    if nd ≤ k then Dec.norm a e
    else
      let p := 10 ^ (nd - k)
      let lo := Dec.norm ((a / p * p : Nat) : Int) e
      let hi := Dec.norm (((a / p + 1) * p : Nat) : Int) e
      let okLo := decide (lo.toDouble = Dec.norm a e)
      let okHi := decide (hi.toDouble = Dec.norm a e)
      if okLo && okHi then
        (if 2 * (a % p) < p ∨ (2 * (a % p) = p ∧ a / p % 2 = 0) then lo else hi)
      else if okLo then lo
      else if okHi then hi
      else shortestFrom fuel a e nd (k + 1)

/-- The decimal whose digits `Number::toString` writes for a double: the one
with the fewest significant digits among those that round to the double. -/
def Dec.shortest (d : Dec) : Dec :=
  let n := Dec.norm d.m d.e
  let s := shortestFrom 17 n.m.natAbs n.e (numDigits n.m.natAbs) 1
  ⟨applySign (decide (n.m < 0)) s.m.natAbs, s.e⟩

/-! ## JavaScript values -/

/-- Result of a JavaScript numeric conversion. -/
inductive JsNum
  | nan
  | fin (d : Dec)
deriving DecidableEq, Repr

/-- Value of a request-body field; `undefined` is an absent field. A number
is a double. -/
inductive JsVal
  | undefined
  | null
  | bool (b : Bool)
  | num (d : Dec)
  | str (s : String)
deriving DecidableEq, Repr

/-- JavaScript truthiness (`!x` is its negation). -/
def JsVal.truthy : JsVal → Bool
  | .undefined => false
  | .null => false
  | .bool b => b
  | .num d => !d.isZero
  | .str s => decide (s ≠ "")

/-- The expression `x || 0`. -/
def JsVal.orZero (x : JsVal) : JsVal := if x.truthy then x else .num (Dec.ofInt 0)

/-- Length of a string in UTF-16 code units, as `.length` reports it. -/
def jsLength (s : String) : Nat :=
  (s.toList.map fun c => if c.toNat < 65536 then 1 else 2).sum

/-- The test `x.length < 6`: a value without a `length` property gives
`undefined < 6`, which is false. -/
def JsVal.lengthLt (x : JsVal) (n : Nat) : Bool :=
  match x with
  | .str s => decide (jsLength s < n)
  | _ => false

/-- White space skipped by `parseInt` and `parseFloat`. -/
def jsIsSpace (c : Char) : Bool :=
  let n := c.toNat
  (9 ≤ n && n ≤ 13) || n = 32 || n = 160 || n = 5760 || (8192 ≤ n && n ≤ 8202) ||
    n = 8232 || n = 8233 || n = 8239 || n = 8287 || n = 12288 || n = 65279

def digitVal (c : Char) : Nat := c.toNat - 48

def digitsVal (ds : List Char) : Nat := ds.foldl (fun a c => 10 * a + digitVal c) 0

def hexVal (c : Char) : Nat :=
  if c.isDigit then c.toNat - 48 else if c.toNat ≥ 97 then c.toNat - 87 else c.toNat - 55

def isHexDigit (c : Char) : Bool :=
  c.isDigit || (97 ≤ c.toNat && c.toNat ≤ 102) || (65 ≤ c.toNat && c.toNat ≤ 70)

/-- Strip one leading sign; the flag is true for a minus. -/
def takeSign : List Char → Bool × List Char
  | '-' :: cs => (true, cs)
  | '+' :: cs => (false, cs)
  | cs => (false, cs)

/-- The function `parseInt` on text, radix unspecified: the whole number
written at the head of the text, as a double. -/
def parseIntChars (cs : List Char) : JsNum :=
  let (neg, s) := takeSign (cs.dropWhile jsIsSpace)
  match s with
  | '0' :: 'x' :: t | '0' :: 'X' :: t =>
    let ds := t.takeWhile isHexDigit
    if ds.isEmpty then .nan
    else .fin (Dec.ofInt (applySign neg (ds.foldl (fun a c => 16 * a + hexVal c) 0))).toDouble
  | _ =>
    let ds := s.takeWhile Char.isDigit
    if ds.isEmpty then .nan else .fin (Dec.ofInt (applySign neg (digitsVal ds))).toDouble

/-- Exponent part `e[+-]digits` of a decimal literal, when complete. -/
def scanExponent : List Char → Int × List Char
  | c :: t =>
    if c = 'e' ∨ c = 'E' then
      let (neg, u) := takeSign t
      let ds := u.takeWhile Char.isDigit
      if ds.isEmpty then (0, c :: t) else (applySign neg (digitsVal ds), u.dropWhile Char.isDigit)
    else (0, c :: t)
  | [] => (0, [])

/-- Longest decimal literal `[+-]digits[.digits][e[+-]digits]` at the head of
the text (at least one digit in the mantissa), with the text after it. -/
def scanDecimal (cs : List Char) : Option (Dec × List Char) :=
  let (neg, s) := takeSign cs
  let ip := s.takeWhile Char.isDigit
  let r := s.dropWhile Char.isDigit
  let (fp, r2) :=
    match r with
    | '.' :: t =>
      if ip.isEmpty ∧ (t.takeWhile Char.isDigit).isEmpty then ([], r)
      else (t.takeWhile Char.isDigit, t.dropWhile Char.isDigit)
    | _ => ([], r)
  if ip.isEmpty ∧ fp.isEmpty then none
  else
    let (k, r3) := scanExponent r2
    some (Dec.scale (applySign neg (digitsVal (ip ++ fp))) fp.length k, r3)

/-- The function `parseFloat` on text: the decimal literal at the head of the
text, as a double. The texts `Infinity`, `+Infinity` and `-Infinity`, which
`parseFloat` reads as the infinite numbers, are outside the model. -/
def parseFloatChars (cs : List Char) : JsNum :=
  match scanDecimal (cs.dropWhile jsIsSpace) with
  | some (d, _) => .fin d.toDouble
  | none => .nan

/-- The function `parseInt` on a number. A whole number below `2 ^ 53` is
written with all its digits and read back as it is. Any other number is first
written as text, with the digits of `Dec.shortest`, in exponent form when it is
at least `10^21` or below `10^-6`; `parseInt` reads the digits in front of the
point. -/
def parseIntNum (d : Dec) : JsNum :=
  if (Dec.norm d.m d.e).e = 0 ∧ (Dec.norm d.m d.e).m.natAbs < 2 ^ 53 then
    .fin (Dec.norm d.m d.e)
  else
    let v := d.shortest
    let n := v.pointPos
    if 0 < n ∧ n ≤ 21 then .fin (Dec.ofInt v.trunc).toDouble
    else if -6 < n ∧ n ≤ 0 then .fin (Dec.ofInt 0)
    else .fin (Dec.ofInt (applySign (decide (v.m < 0)) (leadDigit v.m.natAbs)))

/-- The function `parseInt(x)`. -/
def parseInt : JsVal → JsNum
  | .num d => parseIntNum d
  | .str s => parseIntChars s.toList
  | _ => .nan

/-- The function `parseFloat(x)`: a number is written as text and read back,
which gives the number itself. -/
def parseFloat : JsVal → JsNum
  | .num d => .fin (Dec.norm d.m d.e)
  | .str s => parseFloatChars s.toList
  | _ => .nan

/-! ## SQLite values -/

/-- Value stored in a column or bound to a statement parameter. Integers and
reals are one numeric class, since they compare by value. -/
inductive SqlVal
  | null
  | num (d : Dec)
  | text (s : String)
deriving DecidableEq, Repr

def natText (n : Nat) : String := String.mk (Nat.toDigits 10 n)

def zeros (n : Nat) : List Char := List.replicate n '0'

/-- Drop trailing zeros of a natural number (zero stays zero). -/
def stripZeros : Nat → Nat → Nat
  | 0, a => a
  | fuel + 1, a => if a ≠ 0 ∧ a % 10 = 0 then stripZeros fuel (a / 10) else a

/-- Text of a real as SQLite writes it (`%!.15g`): fifteen significant digits,
at least one digit after the point, exponent form outside `1e-4 .. 1e15`. The
digits are those of the double, rounded half up at the sixteenth; SQLite, which
converts in extended precision, may end one unit lower when the digits dropped
begin with a 5. -/
def sqlRealText (d : Dec) : String :=
  let a := d.m.natAbs
  let sign := if d.m < 0 then "-" else ""
  if a = 0 then "0.0"
  else
    let k := numDigits a
    let r := if k > 15 then (a + 5 * 10 ^ (k - 16)) / 10 ^ (k - 15) else a
    let carry := decide (k > 15 ∧ r = 10 ^ 15)
    let x : Int := d.pointPos - 1 + (if carry then 1 else 0)
    let sig := stripZeros 16 r
    let ds := Nat.toDigits 10 sig
    if x < -4 ∨ 14 < x then
      let frac := if ds.tail.isEmpty then ['0'] else ds.tail
      let ex := Nat.toDigits 10 x.natAbs
      sign ++ String.mk (ds.head! :: '.' :: frac) ++ "e" ++ (if x < 0 then "-" else "+") ++
        String.mk (if ex.length < 2 then '0' :: ex else ex)
    else if x < 0 then
      sign ++ String.mk ('0' :: '.' :: (zeros (x.natAbs - 1) ++ ds))
    else
      let n := x.toNat + 1
      let ip := ds.take n ++ zeros (n - ds.length)
      let fp := if (ds.drop n).isEmpty then ['0'] else ds.drop n
      sign ++ String.mk (ip ++ '.' :: fp)

/-- A JavaScript number is bound as an INTEGER when it is a 32-bit integer. -/
def Dec.isInt32 (d : Dec) : Bool :=
  let n := Dec.norm d.m d.e
  decide (n.e = 0 ∧ -2147483648 ≤ n.m ∧ n.m ≤ 2147483647)

/-- Text that TEXT affinity gives a bound JavaScript number. -/
def sqlNumText (d : Dec) : String :=
  if d.isInt32 then
    (if (Dec.norm d.m d.e).m < 0 then "-" else "") ++ natText (Dec.norm d.m d.e).m.natAbs
  else sqlRealText d

/-- Binding of a JavaScript value to a statement parameter: `undefined`
leaves the parameter unbound, which reads as NULL; a boolean is 1 or 0. -/
def bind : JsVal → SqlVal
  | .undefined => .null
  | .null => .null
  | .bool b => .num (Dec.ofInt (if b then 1 else 0))
  | .num d => .num (Dec.norm d.m d.e)
  | .str s => .text s

/-- Binding of a conversion result: `NaN` is stored as NULL. -/
def bindNum : JsNum → SqlVal
  | .nan => .null
  | .fin d => .num (Dec.norm d.m d.e)

def sqlIsSpace (c : Char) : Bool := (9 ≤ c.toNat && c.toNat ≤ 13) || c.toNat = 32

/-- Whole-number literal `[+-]digits` at the head of the text, with the text
after it. -/
def scanInteger (cs : List Char) : Option (Int × List Char) :=
  if ((takeSign cs).2.takeWhile Char.isDigit).isEmpty then none
  else some (applySign (takeSign cs).1 (digitsVal ((takeSign cs).2.takeWhile Char.isDigit)),
    (takeSign cs).2.dropWhile Char.isDigit)

/-- Real number denoted by a text that is, as a whole, a well-formed numeric
literal (white space after it allowed): the double nearest to the literal. -/
def sqlRealOfChars (cs : List Char) : Option Dec :=
  match scanDecimal cs with
  | some (d, rest) => if (rest.dropWhile sqlIsSpace).isEmpty then some d.toDouble else none
  | none => none

/-- Number denoted by a text that is, as a whole, a well-formed numeric
literal (white space around it allowed): a whole-number literal of 64 bits is
an integer and exact, any other literal is a real. -/
def sqlNumericOfText (s : String) : Option Dec :=
  match scanInteger (s.toList.dropWhile sqlIsSpace) with
  | some (i, rest) =>
    if (rest.dropWhile sqlIsSpace).isEmpty ∧ -2 ^ 63 ≤ i ∧ i < 2 ^ 63 then some ⟨i, 0⟩
    else sqlRealOfChars (s.toList.dropWhile sqlIsSpace)
  | none => sqlRealOfChars (s.toList.dropWhile sqlIsSpace)

/-- NUMERIC (and INTEGER) affinity: a text that looks like a number becomes
that number. -/
def affNumeric : SqlVal → SqlVal
  | .text s =>
    match sqlNumericOfText s with
    | some d => .num d
    | none => .text s
  | v => v

/-- TEXT affinity of a bound JavaScript value: a number becomes its text. -/
def bindText : JsVal → SqlVal
  | .bool b => .text (if b then "1" else "0")
  | .num d => .text (sqlNumText d)
  | v => bind v

/-- Order of two texts under the BINARY collation. -/
def charsLt : List Char → List Char → Bool
  | [], [] => false
  | [], _ :: _ => true
  | _ :: _, [] => false
  | a :: s, b :: t => decide (a.toNat < b.toNat) || (decide (a = b) && charsLt s t)

/-- The comparison `a = b` of SQL, read as a condition: NULL satisfies none. -/
def sqlEq : SqlVal → SqlVal → Bool
  | .num a, .num b => decide (a.m * 10 ^ b.e = b.m * 10 ^ a.e)
  | .text a, .text b => decide (a = b)
  | _, _ => false

/-- Sort order of SQL values: NULL first, then numbers, then texts. -/
def sqlLt : SqlVal → SqlVal → Bool
  | .null, .null => false
  | .null, _ => true
  | .num _, .null => false
  | .num a, .num b => a.lt b
  | .num _, .text _ => true
  | .text a, .text b => charsLt a.toList b.toList
  | .text _, _ => false

/-- Reading a column value back into JavaScript. -/
def SqlVal.toJs : SqlVal → JsVal
  | .null => .null
  | .num d => .num d
  | .text s => .str s

/-! ## Database state -/

/-- Row of table `users`. -/
structure UserRow where
  id : Nat
  username : SqlVal
  password : SqlVal
  email : SqlVal
  age : SqlVal
  gender : SqlVal
  created_at : String
deriving DecidableEq, Repr

/-- Row of table `workouts`. -/
structure WorkoutRow where
  id : Nat
  user_id : Nat
  type : SqlVal
  duration : SqlVal
  intensity : SqlVal
  calories_burned : SqlVal
  notes : SqlVal
  date : SqlVal
  created_at : String
deriving DecidableEq, Repr

/-- Row of table `nutrition`. -/
structure NutritionRow where
  id : Nat
  user_id : Nat
  meal_type : SqlVal
  food_item : SqlVal
  calories : SqlVal
  protein : SqlVal
  carbs : SqlVal
  fats : SqlVal
  date : SqlVal
  created_at : String
deriving DecidableEq, Repr

/-- Row of table `health_metrics`. -/
structure MetricRow where
  id : Nat
  user_id : Nat
  weight : SqlVal
  height : SqlVal
  blood_pressure : SqlVal
  heart_rate : SqlVal
  sleep_hours : SqlVal
  water_intake : SqlVal
  mood : SqlVal
  notes : SqlVal
  date : SqlVal
  created_at : String
deriving DecidableEq, Repr

/-- Row of table `medications`. -/
structure MedicationRow where
  id : Nat
  user_id : Nat
  name : SqlVal
  dosage : SqlVal
  frequency : SqlVal
  purpose : SqlVal
  start_date : SqlVal
  end_date : SqlVal
  is_active : SqlVal
  created_at : String
deriving DecidableEq, Repr

/-- The five tables, each with the counter of its AUTOINCREMENT key (the
largest key ever given out). Rows are listed in scan order. -/
structure Db where
  users : List UserRow
  usersSeq : Nat
  workouts : List WorkoutRow
  workoutsSeq : Nat
  nutrition : List NutritionRow
  nutritionSeq : Nat
  health_metrics : List MetricRow
  health_metricsSeq : Nat
  medications : List MedicationRow
  medicationsSeq : Nat
deriving DecidableEq, Repr

def Db.empty : Db := ⟨[], 0, [], 0, [], 0, [], 0, [], 0⟩

/-- Key given to the next row of an AUTOINCREMENT table. -/
def nextId (ids : List Nat) (seq : Nat) : Nat := max seq (ids.foldl max 0) + 1

/-- A CHECK constraint `col IN (...)`: NULL passes. -/
def checkIn (v : SqlVal) (allowed : List String) : Bool :=
  match v with
  | .null => true
  | .text s => allowed.contains s
  | .num _ => false

def checkFailed (expr : String) : String := "SQLITE_CONSTRAINT: CHECK constraint failed: " ++ expr

def uniqueFailed : String := "SQLITE_CONSTRAINT: UNIQUE constraint failed: users.username"

/-- The method `includes` of a string. -/
def includes (s sub : String) : Bool := s.toList.tails.any fun t => sub.toList.isPrefixOf t

/-- The condition `id = ?` on a key column, the parameter being the text of
the route: the key's INTEGER affinity is applied to the text. -/
def idMatches (param : String) (id : Nat) : Bool :=
  sqlEq (.num (Dec.ofInt id)) (affNumeric (.text param))

/-- The condition `date = ?` on a DATE column, the parameter being a text. -/
def dateIs (date : SqlVal) (today : String) : Bool := sqlEq date (affNumeric (.text today))

/-- Insertion into a list sorted by `before`, in front of the rows that tie. -/
def insertSorted {α : Type} (before : α → α → Bool) (a : α) : List α → List α
  | [] => [a]
  | b :: l => if before b a then b :: insertSorted before a l else a :: b :: l

/-- Sort by `before`; rows that tie keep their scan order. -/
def sortBy {α : Type} (before : α → α → Bool) (l : List α) : List α :=
  l.foldr (insertSorted before) []

/-- The order `ORDER BY k1 DESC, k2 DESC` on two pairs of keys. -/
def descDesc (a1 b1 a2 b2 : SqlVal) : Bool :=
  sqlLt b1 a1 || (!sqlLt a1 b1 && sqlLt b2 a2)

/-- The whole number of a value that SQLite holds as an INTEGER: a number
without fraction within 64 bits. -/
def SqlVal.integer? : SqlVal → Option Int
  | .num d =>
    if (Dec.norm d.m d.e).e = 0 ∧ -2 ^ 63 ≤ (Dec.norm d.m d.e).m ∧ (Dec.norm d.m d.e).m < 2 ^ 63
    then some (Dec.norm d.m d.e).m
    else none
  | _ => none

/-- The real a value counts for where a real is asked: a text counts for the
number at its head, or for zero. -/
def SqlVal.real : SqlVal → Dec
  | .null => Dec.ofInt 0
  | .num d => d.toDouble
  | .text s =>
    match scanDecimal (s.toList.dropWhile sqlIsSpace) with
    | some (d, _) => d.toDouble
    | none => Dec.ofInt 0

/-- Sum of 64-bit integers in the order given; no sum when a running total
leaves the 64 bits. -/
def sumInt64 : Int → List Int → Option Int
  | acc, [] => some acc
  | acc, v :: rest =>
    if -2 ^ 63 ≤ acc + v ∧ acc + v < 2 ^ 63 then sumInt64 (acc + v) rest else none

/-- The values `SUM` adds up: NULL is skipped, and a text that is a numeric
literal counts as that number. -/
def sumTerms (vals : List SqlVal) : List SqlVal :=
  (vals.filter fun v => decide (v ≠ .null)).map affNumeric

/-- The aggregate `COALESCE(SUM(col), 0)` over the values in scan order. When
every value to add is an INTEGER the sum is the exact integer, and the
statement fails with `integer overflow` if a running total leaves the 64 bits.
Otherwise the sum is a real, an approximation of the sum in which the versions
of SQLite differ in the last bits; here it is the running total in doubles. -/
def sumOrZero (vals : List SqlVal) : Except String Dec :=
  if (sumTerms vals).all fun v => v.integer?.isSome then
    match sumInt64 0 ((sumTerms vals).filterMap SqlVal.integer?) with
    | some total => .ok ⟨total, 0⟩
    | none => .error "SQLITE_ERROR: integer overflow"
  else .ok ((sumTerms vals).foldl (fun acc v => (acc.add v.real).toDouble) (Dec.ofInt 0))

/-! ## Requests, sessions and responses -/

/-- Request body: the field names of the JSON object with their values as
written. -/
abbrev Body := List (String × JsVal)

/-- The value `JSON.parse` gives a value written in the body: a number is the
nearest double. -/
def JsVal.parsed : JsVal → JsVal
  | .num d => .num d.toDouble
  | v => v

/-- Value of a field of the body as the handler reads it, `undefined` when
absent. -/
def Body.get (b : Body) (k : String) : JsVal :=
  match b.lookup k with
  | some v => v.parsed
  | none => .undefined

/-- The object `req.session`: the fields the server sets. -/
structure Session where
  userId : Option Nat
  username : JsVal
deriving DecidableEq, Repr

/-- Session of a caller who has not logged in. -/
def Session.empty : Session := ⟨none, .undefined⟩

/-- Truthiness of `req.session.userId`. -/
def Session.authenticated (s : Session) : Bool :=
  match s.userId with
  | some uid => decide (uid ≠ 0)
  | none => false

/-- Columns selected by the profile query. -/
structure Profile where
  username : SqlVal
  email : SqlVal
  age : SqlVal
  gender : SqlVal
deriving DecidableEq, Repr

/-- JSON body of a response. -/
inductive Reply
  | error (error : String)
  | message (message : String)
  | user (message : String) (id : Nat) (username : JsVal)
  | saved (id : Nat) (message : String)
  | status (authenticated : Bool) (user : Option (Nat × JsVal))
  | workouts (rows : List WorkoutRow)
  | nutrition (rows : List NutritionRow)
  | metrics (rows : List MetricRow)
  | medications (rows : List MedicationRow)
  | summary (workoutsCount : Nat) (workoutsCalories : Dec) (nutritionCalories : Dec)
      (activeMedications : Nat)
  | profile (row : Option Profile)
deriving DecidableEq, Repr

structure Response where
  status : Nat
  body : Reply
deriving DecidableEq, Repr

/-- What a handler leaves behind: the response, the database and the session. -/
structure Outcome where
  resp : Response
  db : Db
  sess : Session
deriving DecidableEq, Repr

/-- The library `bcrypt`: hashing with a cost and a salt, and comparison of a
password with a hash. -/
structure Bcrypt where
  hash : String → Nat → String → String
  compare : String → String → Bool

/-- The call `bcrypt.hash(data, rounds)`: it throws unless the data is a string. -/
def bcryptHash (bc : Bcrypt) (data : JsVal) (rounds : Nat) (salt : String) : Option String :=
  match data with
  | .str s => some (bc.hash s rounds salt)
  | _ => none

/-- The call `bcrypt.compare(data, hash)`: it throws unless both are strings. -/
def bcryptCompare (bc : Bcrypt) (data hash : JsVal) : Option Bool :=
  match data, hash with
  | .str p, .str h => some (bc.compare p h)
  | _, _ => none

/-- What a request meets outside the program: the salt drawn for a hash, the
clock, and the failure, if any, of each database statement it runs. -/
structure Env where
  salt : String
  now : String
  today : String
  fault : Option String
  fault2 : Option String
  fault3 : Option String

/-! ## Handlers of `server.js` -/

/-- The statement `INSERT INTO users (username, password, email, age, gender)`. -/
def insertUser (db : Db) (fault : Option String) (username : JsVal) (hashed : String)
    (email age gender : JsVal) (now : String) : Except String (Db × Nat) :=
  match fault with
  | some msg => .error msg
  | none =>
    if db.users.any (fun u => sqlEq u.username (bindText username)) then .error uniqueFailed
    else
      let id := nextId (db.users.map (·.id)) db.usersSeq
      .ok ({ db with
              users := db.users ++ [⟨id, bindText username, .text hashed, bindText email,
                affNumeric (bind age), bindText gender, now⟩],
              usersSeq := id }, id)

/-- Handler of `POST /api/auth/register`. -/
def register (bc : Bcrypt) (env : Env) (db : Db) (sess : Session) (body : Body) : Outcome :=
  let username := body.get "username"
  let password := body.get "password"
  let email := body.get "email"
  let age := body.get "age"
  let gender := body.get "gender"
  if !username.truthy || !password.truthy || !email.truthy then
    ⟨⟨400, .error "Username, password, and email are required"⟩, db, sess⟩
  else if password.lengthLt 6 then
    ⟨⟨400, .error "Password must be at least 6 characters long"⟩, db, sess⟩
  else
    match bcryptHash bc password 12 env.salt with
    | none => ⟨⟨500, .error "Internal server error"⟩, db, sess⟩
    | some hashedPassword =>
      match insertUser db env.fault username hashedPassword email age gender env.now with
      | .error msg =>
        if includes msg "UNIQUE constraint failed" then
          ⟨⟨400, .error "Username already exists"⟩, db, sess⟩
        else ⟨⟨500, .error "Database error"⟩, db, sess⟩
      | .ok (db1, lastID) =>
        ⟨⟨200, .user "Account created successfully!" lastID username⟩, db1,
          { userId := some lastID, username := username }⟩

/-- The query `SELECT * FROM users WHERE username = ?`, first row. -/
def findUser (db : Db) (username : JsVal) : Option UserRow :=
  db.users.find? fun u => sqlEq u.username (bindText username)

/-- Handler of `POST /api/auth/login`. -/
def login (bc : Bcrypt) (env : Env) (db : Db) (sess : Session) (body : Body) : Outcome :=
  let username := body.get "username"
  let password := body.get "password"
  if !username.truthy || !password.truthy then
    ⟨⟨400, .error "Username and password are required"⟩, db, sess⟩
  else
    match env.fault with
    | some _ => ⟨⟨500, .error "Database error"⟩, db, sess⟩
    | none =>
      match findUser db username with
      | none => ⟨⟨400, .error "Invalid username or password"⟩, db, sess⟩
      | some user =>
        match bcryptCompare bc password user.password.toJs with
        | none => ⟨⟨500, .error "Internal server error"⟩, db, sess⟩
        | some true =>
          ⟨⟨200, .user "Login successful!" user.id user.username.toJs⟩, db,
            { userId := some user.id, username := user.username.toJs }⟩
        | some false => ⟨⟨400, .error "Invalid username or password"⟩, db, sess⟩

/-- Handler of `POST /api/auth/logout`: the session is destroyed. -/
def logout (env : Env) (db : Db) (sess : Session) : Outcome :=
  match env.fault with
  | some _ => ⟨⟨500, .error "Could not log out"⟩, db, sess⟩
  | none => ⟨⟨200, .message "Logout successful"⟩, db, Session.empty⟩

/-- Handler of `GET /api/auth/status`. -/
def status (db : Db) (sess : Session) : Outcome :=
  if sess.authenticated then
    ⟨⟨200, .status true (some (sess.userId.getD 0, sess.username))⟩, db, sess⟩
  else ⟨⟨200, .status false none⟩, db, sess⟩

/-- The middleware `requireAuth`: the handler `next` runs, with the session's
user id, only when `req.session.userId` is truthy. -/
def requireAuth (db : Db) (sess : Session) (next : Nat → Outcome) : Outcome :=
  match sess.userId with
  | some uid =>
    if uid ≠ 0 then next uid else ⟨⟨401, .error "Authentication required"⟩, db, sess⟩
  | none => ⟨⟨401, .error "Authentication required"⟩, db, sess⟩

/-! ### Workouts -/

/-- Order `date DESC, created_at DESC` of the workout list. -/
def WorkoutRow.before (a b : WorkoutRow) : Bool :=
  descDesc a.date b.date (.text a.created_at) (.text b.created_at)

/-- Handler of `GET /api/health/workouts`. -/
def listWorkouts (env : Env) (db : Db) (userId : Nat) : Response :=
  match env.fault with
  | some msg => ⟨500, .error msg⟩
  | none =>
    ⟨200, .workouts
      ((sortBy WorkoutRow.before (db.workouts.filter fun r => r.user_id = userId)).take 50)⟩

/-- The statement `INSERT INTO workouts (...)`. -/
def insertWorkout (db : Db) (fault : Option String) (userId : Nat)
    (type : JsVal) (duration : JsNum) (intensity : JsVal) (calories_burned : JsNum)
    (notes date : JsVal) (now : String) : Except String (Db × Nat) :=
  match fault with
  | some msg => .error msg
  | none =>
    if !checkIn (bindText intensity) ["low", "medium", "high"] then
      .error (checkFailed "intensity IN ('low', 'medium', 'high')")
    else
      let id := nextId (db.workouts.map (·.id)) db.workoutsSeq
      .ok ({ db with
              workouts := db.workouts ++ [⟨id, userId, bindText type,
                affNumeric (bindNum duration), bindText intensity,
                affNumeric (bindNum calories_burned), bindText notes,
                affNumeric (bind date), now⟩],
              workoutsSeq := id }, id)

/-- Handler of `POST /api/health/workouts`. -/
def createWorkout (env : Env) (db : Db) (userId : Nat) (body : Body) : Response × Db :=
  let type := body.get "type"
  let duration := body.get "duration"
  let intensity := body.get "intensity"
  let calories_burned := body.get "calories_burned"
  let notes := body.get "notes"
  let date := body.get "date"
  if !type.truthy || !duration.truthy || !intensity.truthy || !date.truthy then
    (⟨400, .error
      "Missing required fields: type, duration, intensity, and date are required"⟩, db)
  else
    match insertWorkout db env.fault userId type (parseInt duration) intensity
        (parseInt calories_burned.orZero) notes date env.now with
    | .error msg => (⟨500, .error ("Failed to save workout: " ++ msg)⟩, db)
    | .ok (db1, lastID) => (⟨200, .saved lastID "Workout saved successfully!"⟩, db1)

/-- Handler of `DELETE /api/health/workouts/:id`. -/
def deleteWorkout (env : Env) (db : Db) (userId : Nat) (id : String) : Response × Db :=
  match env.fault with
  | some msg => (⟨500, .error msg⟩, db)
  | none =>
    (⟨200, .message "Workout deleted successfully"⟩,
      { db with workouts := db.workouts.filter fun r => !(idMatches id r.id && r.user_id = userId) })

/-! ### Nutrition -/

/-- Order `date DESC, created_at DESC` of the nutrition list. -/
def NutritionRow.before (a b : NutritionRow) : Bool :=
  descDesc a.date b.date (.text a.created_at) (.text b.created_at)

/-- Handler of `GET /api/health/nutrition`. -/
def listNutrition (env : Env) (db : Db) (userId : Nat) : Response :=
  match env.fault with
  | some msg => ⟨500, .error msg⟩
  | none =>
    ⟨200, .nutrition
      ((sortBy NutritionRow.before (db.nutrition.filter fun r => r.user_id = userId)).take 50)⟩

/-- The statement `INSERT INTO nutrition (...)`. -/
def insertNutrition (db : Db) (fault : Option String) (userId : Nat)
    (meal_type food_item : JsVal) (calories protein carbs fats : JsNum) (date : JsVal)
    (now : String) : Except String (Db × Nat) :=
  match fault with
  | some msg => .error msg
  | none =>
    if !checkIn (bindText meal_type) ["breakfast", "lunch", "dinner", "snack"] then
      .error (checkFailed "meal_type IN ('breakfast', 'lunch', 'dinner', 'snack')")
    else
      let id := nextId (db.nutrition.map (·.id)) db.nutritionSeq
      .ok ({ db with
              nutrition := db.nutrition ++ [⟨id, userId, bindText meal_type, bindText food_item,
                affNumeric (bindNum calories), affNumeric (bindNum protein),
                affNumeric (bindNum carbs), affNumeric (bindNum fats),
                affNumeric (bind date), now⟩],
              nutritionSeq := id }, id)

/-- Handler of `POST /api/health/nutrition`. -/
def createNutrition (env : Env) (db : Db) (userId : Nat) (body : Body) : Response × Db :=
  let meal_type := body.get "meal_type"
  let food_item := body.get "food_item"
  let calories := body.get "calories"
  let protein := body.get "protein"
  let carbs := body.get "carbs"
  let fats := body.get "fats"
  let date := body.get "date"
  if !meal_type.truthy || !food_item.truthy || !calories.truthy || !date.truthy then
    (⟨400, .error
      "Missing required fields: meal_type, food_item, calories, and date are required"⟩, db)
  else
    match insertNutrition db env.fault userId meal_type food_item (parseInt calories)
        (parseFloat protein.orZero) (parseFloat carbs.orZero) (parseFloat fats.orZero)
        date env.now with
    | .error msg => (⟨500, .error ("Failed to save nutrition entry: " ++ msg)⟩, db)
    | .ok (db1, lastID) => (⟨200, .saved lastID "Nutrition entry saved successfully!"⟩, db1)

/-- Handler of `DELETE /api/health/nutrition/:id`. -/
def deleteNutrition (env : Env) (db : Db) (userId : Nat) (id : String) : Response × Db :=
  match env.fault with
  | some msg => (⟨500, .error msg⟩, db)
  | none =>
    (⟨200, .message "Nutrition entry deleted successfully"⟩,
      { db with
        nutrition := db.nutrition.filter fun r => !(idMatches id r.id && r.user_id = userId) })

/-! ### Health metrics -/

/-- Order `date DESC, created_at DESC` of the metrics list. -/
def MetricRow.before (a b : MetricRow) : Bool :=
  descDesc a.date b.date (.text a.created_at) (.text b.created_at)

/-- Handler of `GET /api/health/metrics`. -/
def listMetrics (env : Env) (db : Db) (userId : Nat) : Response :=
  match env.fault with
  | some msg => ⟨500, .error msg⟩
  | none =>
    ⟨200, .metrics
      ((sortBy MetricRow.before (db.health_metrics.filter fun r => r.user_id = userId)).take 50)⟩

/-- The statement `INSERT INTO health_metrics (...)`. -/
def insertMetric (db : Db) (fault : Option String) (userId : Nat)
    (weight height : JsNum) (blood_pressure : JsVal) (heart_rate sleep_hours water_intake : JsNum)
    (mood notes date : JsVal) (now : String) : Except String (Db × Nat) :=
  match fault with
  | some msg => .error msg
  | none =>
    if !checkIn (bindText mood) ["excellent", "good", "fair", "poor", "terrible"] then
      .error (checkFailed "mood IN ('excellent', 'good', 'fair', 'poor', 'terrible')")
    else
      let id := nextId (db.health_metrics.map (·.id)) db.health_metricsSeq
      .ok ({ db with
              health_metrics := db.health_metrics ++ [⟨id, userId, affNumeric (bindNum weight),
                affNumeric (bindNum height), bindText blood_pressure,
                affNumeric (bindNum heart_rate), affNumeric (bindNum sleep_hours),
                affNumeric (bindNum water_intake), bindText mood, bindText notes,
                affNumeric (bind date), now⟩],
              health_metricsSeq := id }, id)

/-- Handler of `POST /api/health/metrics`. -/
def createMetric (env : Env) (db : Db) (userId : Nat) (body : Body) : Response × Db :=
  let weight := body.get "weight"
  let height := body.get "height"
  let blood_pressure := body.get "blood_pressure"
  let heart_rate := body.get "heart_rate"
  let sleep_hours := body.get "sleep_hours"
  let water_intake := body.get "water_intake"
  let mood := body.get "mood"
  let notes := body.get "notes"
  let date := body.get "date"
  if !date.truthy then (⟨400, .error "Date is required"⟩, db)
  else
    match insertMetric db env.fault userId (parseFloat weight.orZero) (parseFloat height.orZero)
        blood_pressure (parseInt heart_rate.orZero) (parseFloat sleep_hours.orZero)
        (parseInt water_intake.orZero) mood notes date env.now with
    | .error msg => (⟨500, .error ("Failed to save health metrics: " ++ msg)⟩, db)
    | .ok (db1, lastID) => (⟨200, .saved lastID "Health metrics saved successfully!"⟩, db1)

/-- Handler of `DELETE /api/health/metrics/:id`. -/
def deleteMetric (env : Env) (db : Db) (userId : Nat) (id : String) : Response × Db :=
  match env.fault with
  | some msg => (⟨500, .error msg⟩, db)
  | none =>
    (⟨200, .message "Health metrics deleted successfully"⟩,
      { db with
        health_metrics :=
          db.health_metrics.filter fun r => !(idMatches id r.id && r.user_id = userId) })

/-! ### Medications -/

/-- Order `is_active DESC, start_date DESC` of the medication list. -/
def MedicationRow.before (a b : MedicationRow) : Bool :=
  descDesc a.is_active b.is_active a.start_date b.start_date

/-- Handler of `GET /api/health/medications`. -/
def listMedications (env : Env) (db : Db) (userId : Nat) : Response :=
  match env.fault with
  | some msg => ⟨500, .error msg⟩
  | none =>
    ⟨200, .medications
      ((sortBy MedicationRow.before (db.medications.filter fun r => r.user_id = userId)).take 50)⟩

/-- The statement `INSERT INTO medications (...)`. -/
def insertMedication (db : Db) (fault : Option String) (userId : Nat)
    (name dosage frequency purpose start_date end_date : JsVal) (is_active : Nat)
    (now : String) : Except String (Db × Nat) :=
  match fault with
  | some msg => .error msg
  | none =>
    let id := nextId (db.medications.map (·.id)) db.medicationsSeq
    .ok ({ db with
            medications := db.medications ++ [⟨id, userId, bindText name, bindText dosage,
              bindText frequency, bindText purpose, affNumeric (bind start_date),
              affNumeric (bind end_date), .num (Dec.ofInt is_active), now⟩],
            medicationsSeq := id }, id)

/-- Handler of `POST /api/health/medications`. -/
def createMedication (env : Env) (db : Db) (userId : Nat) (body : Body) : Response × Db :=
  let name := body.get "name"
  let dosage := body.get "dosage"
  let frequency := body.get "frequency"
  let purpose := body.get "purpose"
  let start_date := body.get "start_date"
  let end_date := body.get "end_date"
  let is_active := body.get "is_active"
  if !name.truthy || !dosage.truthy || !frequency.truthy || !start_date.truthy then
    (⟨400, .error
      "Missing required fields: name, dosage, frequency, and start_date are required"⟩, db)
  else
    match insertMedication db env.fault userId name dosage frequency purpose start_date end_date
        (if is_active.truthy then 1 else 0) env.now with
    | .error msg => (⟨500, .error ("Failed to save medication: " ++ msg)⟩, db)
    | .ok (db1, lastID) => (⟨200, .saved lastID "Medication added successfully!"⟩, db1)

/-- Handler of `DELETE /api/health/medications/:id`. -/
def deleteMedication (env : Env) (db : Db) (userId : Nat) (id : String) : Response × Db :=
  match env.fault with
  | some msg => (⟨500, .error msg⟩, db)
  | none =>
    (⟨200, .message "Medication deleted successfully"⟩,
      { db with
        medications := db.medications.filter fun r => !(idMatches id r.id && r.user_id = userId) })

/-! ### Summary and profile -/

/-- Rows of the first summary query: the user's workouts dated today. -/
def workoutsToday (db : Db) (userId : Nat) (today : String) : List WorkoutRow :=
  db.workouts.filter fun r => r.user_id = userId && dateIs r.date today

/-- Rows of the second summary query: the user's nutrition entries dated today. -/
def nutritionToday (db : Db) (userId : Nat) (today : String) : List NutritionRow :=
  db.nutrition.filter fun r => r.user_id = userId && dateIs r.date today

/-- Rows of the third summary query: the user's medications with `is_active = 1`. -/
def activeMedications (db : Db) (userId : Nat) : List MedicationRow :=
  db.medications.filter fun r => r.user_id = userId && sqlEq r.is_active (.num (Dec.ofInt 1))

/-- Handler of `GET /api/health/summary`: three queries in turn, each of which
may fail; the first two fail, the store apart, when their `SUM` overflows. -/
def summary (env : Env) (db : Db) (userId : Nat) : Response :=
  match env.fault with
  | some msg => ⟨500, .error msg⟩
  | none =>
    match sumOrZero ((workoutsToday db userId env.today).map (·.calories_burned)) with
    | .error msg => ⟨500, .error msg⟩
    | .ok workoutCalories =>
      match env.fault2 with
      | some msg => ⟨500, .error msg⟩
      | none =>
        match sumOrZero ((nutritionToday db userId env.today).map (·.calories)) with
        | .error msg => ⟨500, .error msg⟩
        | .ok nutritionCalories =>
          match env.fault3 with
          | some msg => ⟨500, .error msg⟩
          | none =>
            ⟨200, .summary (workoutsToday db userId env.today).length workoutCalories
              nutritionCalories (activeMedications db userId).length⟩

/-- Handler of `GET /api/user/profile`. -/
def profile (env : Env) (db : Db) (userId : Nat) : Response :=
  match env.fault with
  | some msg => ⟨500, .error msg⟩
  | none =>
    ⟨200, .profile ((db.users.find? fun u => u.id = userId).map fun u =>
      ⟨u.username, u.email, u.age, u.gender⟩)⟩

/-! ### Routing -/

/-- Record kinds, one table each. -/
inductive Kind
  | workouts
  | nutrition
  | metrics
  | medications
deriving DecidableEq, Repr

/-- The API routes of the server. -/
inductive Route
  | register
  | login
  | logout
  | status
  | list (k : Kind)
  | create (k : Kind)
  | delete (k : Kind) (id : String)
  | summary
  | profile
deriving DecidableEq, Repr

/-- Routes registered with the middleware `requireAuth`. -/
def Route.protected : Route → Bool
  | .register | .login | .logout | .status => false
  | _ => true

structure Request where
  route : Route
  body : Body

def listOf (k : Kind) (env : Env) (db : Db) (userId : Nat) : Response :=
  match k with
  | .workouts => listWorkouts env db userId
  | .nutrition => listNutrition env db userId
  | .metrics => listMetrics env db userId
  | .medications => listMedications env db userId

def createOf (k : Kind) (env : Env) (db : Db) (userId : Nat) (body : Body) : Response × Db :=
  match k with
  | .workouts => createWorkout env db userId body
  | .nutrition => createNutrition env db userId body
  | .metrics => createMetric env db userId body
  | .medications => createMedication env db userId body

def deleteOf (k : Kind) (env : Env) (db : Db) (userId : Nat) (id : String) : Response × Db :=
  match k with
  | .workouts => deleteWorkout env db userId id
  | .nutrition => deleteNutrition env db userId id
  | .metrics => deleteMetric env db userId id
  | .medications => deleteMedication env db userId id

/-- The server on one request: the route's handler, behind `requireAuth` where
the route is registered with it. -/
def handle (bc : Bcrypt) (env : Env) (db : Db) (sess : Session) (req : Request) : Outcome :=
  match req.route with
  | .register => register bc env db sess req.body
  | .login => login bc env db sess req.body
  | .logout => logout env db sess
  | .status => status db sess
  | .list k => requireAuth db sess fun uid => ⟨listOf k env db uid, db, sess⟩
  | .create k =>
    requireAuth db sess fun uid => ⟨(createOf k env db uid req.body).1,
      (createOf k env db uid req.body).2, sess⟩
  | .delete k id =>
    requireAuth db sess fun uid => ⟨(deleteOf k env db uid id).1, (deleteOf k env db uid id).2, sess⟩
  | .summary => requireAuth db sess fun uid => ⟨summary env db uid, db, sess⟩
  | .profile => requireAuth db sess fun uid => ⟨profile env db uid, db, sess⟩

/-! ## The session middleware

The server mounts `express-session` with `resave: false`,
`saveUninitialized: false`, the cookie's `maxAge` set to 24 hours, no `rolling`
and no `store`, hence the in-memory store of the library. A session lives in
the store under its id together with the expiry of its cookie; the id reaches
the caller in a cookie. On each request the middleware loads the session the
cookie names, unless the store has none or its expiry has passed, in which case
the request runs on a new, empty session; when the response ends, a session
whose data changed is saved, a loaded session whose data did not change is
touched, and both set the expiry to `maxAge` after the time of the request. A
new session that was not changed is not saved. A session the handler destroyed
is deleted from the store and is neither saved nor touched. -/

/-- The option `cookie.maxAge`, in milliseconds. -/
def maxAge : Nat := 24 * 60 * 60 * 1000

/-- Entry of the session store: the session's data and the expiry of its
cookie, in milliseconds of the clock. -/
structure StoredSession where
  sess : Session
  expires : Nat
deriving DecidableEq, Repr

/-- The session store: session ids with their entries. -/
abbrev SessionStore := List (String × StoredSession)

/-- Entry stored under a session id. -/
def SessionStore.find (st : SessionStore) (sid : String) : Option StoredSession :=
  (st.find? fun p => p.1 = sid).map (·.2)

/-- The method `store.destroy(sid)`. -/
def SessionStore.erase (st : SessionStore) (sid : String) : SessionStore :=
  st.filter fun p => p.1 ≠ sid

/-- The methods `store.set(sid, session)` and `store.touch(sid, session)`. -/
def SessionStore.set (st : SessionStore) (sid : String) (v : StoredSession) : SessionStore :=
  (sid, v) :: st.erase sid

/-- The method `store.get(sid)` at time `now`: no session when the id is
unknown or the expiry is not after `now`. -/
def SessionStore.get (st : SessionStore) (sid : String) (now : Nat) : Option Session :=
  match st.find sid with
  | some v => if v.expires ≤ now then none else some v.sess
  | none => none

/-- State of the server: the database and the session store. -/
structure Server where
  db : Db
  sessions : SessionStore
deriving DecidableEq, Repr

/-- What one request leaves: the response, the state of the server, and the
session id of the `Set-Cookie` header, if the response sets the cookie. -/
structure Served where
  resp : Response
  srv : Server
  setCookie : Option String
deriving DecidableEq, Repr

/-- The session the middleware loads for a request: the id and data of the
live session the cookie names, if any. -/
def loadSession (srv : Server) (cookie : Option String) (now : Nat) : Option (String × Session) :=
  match cookie with
  | some sid => (srv.sessions.get sid now).map fun s => (sid, s)
  | none => none

/-- The store after the lookup of a request: an entry found expired is deleted. -/
def afterGet (st : SessionStore) (cookie : Option String) (now : Nat) : SessionStore :=
  match cookie with
  | some sid =>
    match st.find sid with
    | some v => if v.expires ≤ now then st.erase sid else st
    | none => st
  | none => st

/-- The server on one request, session middleware included. The request comes
at time `now` with the session id of its cookie, if it has one; `freshSid` is
the id the middleware draws for a new session. What becomes of the session is
read from the outcome of the handler. After logout, the one handler that calls
`req.session.destroy`, the request has no session any more, so nothing is
saved or touched, and the entry is deleted from the store when the outcome
carries the empty session, that is, when the destruction was carried out. After
any other handler a session whose data changed is saved, and a loaded session
left as it was is touched. -/
def serve (bc : Bcrypt) (env : Env) (now : Nat) (freshSid : String) (srv : Server)
    (cookie : Option String) (req : Request) : Served :=
  match loadSession srv cookie now with
  | some (sid, sess) =>
    let out := handle bc env srv.db sess req
    if req.route = .logout then
      ⟨out.resp, ⟨out.db,
        if out.sess = Session.empty then srv.sessions.erase sid else srv.sessions⟩, none⟩
    else if out.sess ≠ sess then
      ⟨out.resp, ⟨out.db, srv.sessions.set sid ⟨out.sess, now + maxAge⟩⟩, some sid⟩
    else ⟨out.resp, ⟨out.db, srv.sessions.set sid ⟨sess, now + maxAge⟩⟩, none⟩
  | none =>
    let out := handle bc env srv.db Session.empty req
    if out.sess ≠ Session.empty then
      ⟨out.resp, ⟨out.db, (afterGet srv.sessions cookie now).set freshSid
        ⟨out.sess, now + maxAge⟩⟩, some freshSid⟩
    else ⟨out.resp, ⟨out.db, afterGet srv.sessions cookie now⟩, none⟩

/-- A visit: one request with its surroundings. -/
structure Visit where
  env : Env
  now : Nat
  freshSid : String
  cookie : Option String
  req : Request

/-- The server after a sequence of visits. -/
def serveAll (bc : Bcrypt) (srv : Server) (visits : List Visit) : Server :=
  visits.foldl (fun s v => (serve bc v.env v.now v.freshSid s v.cookie v.req).srv) srv

/-! ## Observations used by the statements -/

/-- Owners of the rows a list response carries. -/
def Reply.owners : Reply → List Nat
  | .workouts rows => rows.map (·.user_id)
  | .nutrition rows => rows.map (·.user_id)
  | .metrics rows => rows.map (·.user_id)
  | .medications rows => rows.map (·.user_id)
  | _ => []

/-- Key and owner of each row of the table of a kind, in scan order. -/
def Db.keys (db : Db) : Kind → List (Nat × Nat)
  | .workouts => db.workouts.map fun r => (r.id, r.user_id)
  | .nutrition => db.nutrition.map fun r => (r.id, r.user_id)
  | .metrics => db.health_metrics.map fun r => (r.id, r.user_id)
  | .medications => db.medications.map fun r => (r.id, r.user_id)

/-- The records of a user: the rows of the four record tables it owns. -/
def Db.ownedBy (db : Db) (u : Nat) :
    List WorkoutRow × List NutritionRow × List MetricRow × List MedicationRow :=
  (db.workouts.filter fun r => r.user_id = u, db.nutrition.filter fun r => r.user_id = u,
    db.health_metrics.filter fun r => r.user_id = u, db.medications.filter fun r => r.user_id = u)

/-- The rational number a decimal stands for. -/
def Dec.value (d : Dec) : ℚ := (d.m : ℚ) / 10 ^ d.e

/-- The text of a route names the key `k`: the text is, as a whole, a numeric
literal, and the number SQLite reads from it is `k`. -/
def idNames (idText : String) (k : Nat) : Prop :=
  ∃ d, sqlNumericOfText idText = some d ∧ d.value = k

/-- What a delete by user `uid` may do to a table, `names` telling the keys
the delete names: no row is added or moved, a row goes only if `uid` owns it
and its key is named, and the rows of other users and the rows of other keys
stay as they were, each as often as it was there. -/
def OnlyOwnRemoved {α : Type} [DecidableEq α] (owner key : α → Nat) (uid : Nat)
    (names : Nat → Prop) (old new : List α) : Prop :=
  new.Sublist old ∧
    (∀ r ∈ old, r ∉ new → owner r = uid ∧ names (key r)) ∧
    (∀ r, owner r ≠ uid → new.count r = old.count r) ∧
    ∀ r, ¬names (key r) → new.count r = old.count r

/-- Effect of a delete on the whole database: `OnlyOwnRemoved` on the table of
the kind, every other table as it was. -/
def Db.deleteFrame (db db1 : Db) (k : Kind) (uid : Nat) (names : Nat → Prop) : Prop :=
  db1.users = db.users ∧
    (if k = .workouts then
        OnlyOwnRemoved WorkoutRow.user_id WorkoutRow.id uid names db.workouts db1.workouts
      else db1.workouts = db.workouts) ∧
    (if k = .nutrition then
        OnlyOwnRemoved NutritionRow.user_id NutritionRow.id uid names db.nutrition db1.nutrition
      else db1.nutrition = db.nutrition) ∧
    (if k = .metrics then
        OnlyOwnRemoved MetricRow.user_id MetricRow.id uid names db.health_metrics
          db1.health_metrics
      else db1.health_metrics = db.health_metrics) ∧
    (if k = .medications then
        OnlyOwnRemoved MedicationRow.user_id MedicationRow.id uid names db.medications
          db1.medications
      else db1.medications = db.medications)

/-- No two rows of `users` carry the same username. -/
def Db.uniqueUsernames (db : Db) : Prop :=
  db.users.Pairwise fun a b => sqlEq a.username b.username = false

/-- Required fields of an insert, per kind. -/
def requiredFields : Kind → List String
  | .workouts => ["type", "duration", "intensity", "date"]
  | .nutrition => ["meal_type", "food_item", "calories", "date"]
  | .metrics => ["date"]
  | .medications => ["name", "dosage", "frequency", "start_date"]

/-- Code of a character with the capital letters A to Z folded to small ones. -/
def lowerCode (c : Char) : Nat := if 65 ≤ c.toNat ∧ c.toNat ≤ 90 then c.toNat + 32 else c.toNat

/-- The message names the field: the field's name occurs in it, the case of
letters apart. -/
def namesField (msg field : String) : Bool :=
  (msg.toList.map lowerCode).tails.any fun t => (field.toList.map lowerCode).isPrefixOf t

/-- Rows a workout list response carries. -/
def Reply.workoutRows : Reply → List WorkoutRow
  | .workouts rows => rows
  | _ => []

/-- The column value is NULL or a whole number written without fraction
digits. -/
def SqlVal.isWhole : SqlVal → Bool
  | .null => true
  | .num d => decide (d.e = 0)
  | .text _ => false

/-- The whole number a column value counts for in a sum; NULL, like any value
that is not a whole number, counts for nothing. -/
def SqlVal.whole : SqlVal → Int
  | .num d => if d.e = 0 then d.m else 0
  | _ => 0

/-- The column value is a number equal to `q`. -/
def SqlVal.isNumber (v : SqlVal) (q : ℚ) : Bool :=
  match v with
  | .num d => decide (d.value = q)
  | _ => false

/-- Two rows in descending order of a first key, ties broken by descending
order of a second key: the row with keys `a1`, `a2` may stand in front of the
row with keys `b1`, `b2`. -/
def orderedDesc (a1 b1 a2 b2 : SqlVal) : Prop :=
  sqlLt b1 a1 = true ∨ (sqlLt a1 b1 = false ∧ sqlLt b1 a1 = false ∧ sqlLt a2 b2 = false)

/-- The rows are the first 50, at most, of the user's own rows put in order. -/
def IsFirst50 {α : Type} (ordered : α → α → Prop) (own rows : List α) : Prop :=
  ∃ sorted : List α, sorted.Perm own ∧ sorted.Pairwise ordered ∧ rows = sorted.take 50

/-- The four columns the profile shows. -/
def UserRow.shown (u : UserRow) : Profile := ⟨u.username, u.email, u.age, u.gender⟩

/-- Fixed text put in front of the store's message when an insert fails. -/
def savePrefix : Kind → String
  | .workouts => "Failed to save workout: "
  | .nutrition => "Failed to save nutrition entry: "
  | .metrics => "Failed to save health metrics: "
  | .medications => "Failed to save medication: "

/-- Record of a medication insert that succeeded: the key it returned, the
user of the session, and whether the `is_active` of the request was truthy. -/
structure MedInsert where
  id : Nat
  owner : Nat
  truthy : Bool
deriving DecidableEq, Repr

/-- The record of a request, when the request is a medication insert that
succeeds. -/
def medInsertOf (bc : Bcrypt) (env : Env) (db : Db) (sess : Session) (req : Request) :
    Option MedInsert :=
  match req.route, (handle bc env db sess req).resp with
  | .create .medications, ⟨200, .saved i _⟩ =>
    some ⟨i, sess.userId.getD 0, (req.body.get "is_active").truthy⟩
  | _, _ => none

/-- A request with its surroundings and the session it runs on. -/
structure Step where
  env : Env
  sess : Session
  req : Request

/-- The database after a sequence of requests, with the records of the
medication inserts that succeeded along the way, the earliest first. -/
def runSteps (bc : Bcrypt) : Db → List Step → Db × List MedInsert
  | db, [] => (db, [])
  | db, s :: rest =>
    ((runSteps bc (handle bc s.env db s.sess s.req).db rest).1,
      (medInsertOf bc s.env db s.sess s.req).toList ++
        (runSteps bc (handle bc s.env db s.sess s.req).db rest).2)

/-- What a medication row shows of its insert: key, owner, and whether its
is_active is 1. -/
def medKey (r : MedicationRow) : MedInsert :=
  ⟨r.id, r.user_id, decide (r.is_active = .num ⟨1, 0⟩)⟩

/-- The medication rows are those of the recorded inserts whose key is still
in the table, no recorded key exceeds the counter of the table, no key is
recorded twice, and every is_active is 1 or 0. -/
def MedInv (db : Db) (log : List MedInsert) : Prop :=
  db.medications.map medKey =
      log.filter (fun e => decide (e.id ∈ db.medications.map (·.id))) ∧
    (∀ e ∈ log, e.id ≤ db.medicationsSeq) ∧
    (log.map (·.id)).Nodup ∧
    ∀ r ∈ db.medications, r.is_active = .num ⟨1, 0⟩ ∨ r.is_active = .num ⟨0, 0⟩

/-- The text does not go on a numeral: it is empty, or its first character is
neither a digit nor the letter x. -/
def endsNumeral (rest : String) : Bool :=
  match rest.toList with
  | [] => true
  | c :: _ => !c.isDigit && decide (c ≠ 'x') && decide (c ≠ 'X')

/-- The text has no number at its head: it is not empty, and its first
character is neither white space, nor a sign, nor a digit. -/
def startsNoNumber (s : String) : Bool :=
  match s.toList with
  | [] => false
  | c :: _ => !jsIsSpace c && !c.isDigit && decide (c ≠ '+') && decide (c ≠ '-')

/-- The value a numeric field of an insert is to be stored as, for the inputs
whose reading is plain: a whole number below `2 ^ 53` in magnitude, given as a
number, is stored as it is; a text that begins with the numeral of a natural
number below `2 ^ 53` is stored as that number; a text with no number at its
head is stored as NULL. -/
def CoercesTo (x : JsVal) (v : SqlVal) : Prop :=
  (∃ n : Int, n.natAbs < 2 ^ 53 ∧ x = .num ⟨n, 0⟩ ∧ v = .num ⟨n, 0⟩) ∨
    (∃ (n : Nat) (rest : String), n < 2 ^ 53 ∧ endsNumeral rest = true ∧
      x = .str (natText n ++ rest) ∧ v = .num ⟨n, 0⟩) ∨
    ∃ s, startsNoNumber s = true ∧ x = .str s ∧ v = .null

/-! ## Sample data -/

/-- A toy instance of the hashing library, for concrete runs. -/
def toyBcrypt : Bcrypt where
  hash := fun p rounds salt => "$" ++ natText rounds ++ "$" ++ salt ++ "$" ++ p
  compare := fun p h => decide (h.toList.drop (h.length - p.length) = p.toList)

def sampleEnv : Env := ⟨"s", "2024-01-01 10:00:00", "2024-01-01", none, none, none⟩

def sampleWorkout (id userId : Nat) (kcal : Int) (date : String) : WorkoutRow :=
  ⟨id, userId, .text "run", .num ⟨30, 0⟩, .text "high", .num ⟨kcal, 0⟩, .null, .text date,
    "2024-01-01 09:00:00"⟩

def sampleMeal (id userId : Nat) (kcal : Int) (date : String) : NutritionRow :=
  ⟨id, userId, .text "lunch", .text "rice", .num ⟨kcal, 0⟩, .num ⟨0, 0⟩, .num ⟨0, 0⟩,
    .num ⟨0, 0⟩, .text date, "2024-01-01 09:00:00"⟩

def sampleMetric (id userId : Nat) (date : String) : MetricRow :=
  ⟨id, userId, .num ⟨70, 0⟩, .num ⟨0, 0⟩, .null, .num ⟨0, 0⟩, .num ⟨0, 0⟩, .num ⟨0, 0⟩, .null,
    .null, .text date, "2024-01-01 09:00:00"⟩

def sampleMedication (id userId : Nat) (active : Int) : MedicationRow :=
  ⟨id, userId, .text "aspirin", .text "100mg", .text "daily", .null, .text "2024-01-01", .null,
    .num ⟨active, 0⟩, "2024-01-01 09:00:00"⟩

def sampleUser (id : Nat) (name hash : String) : UserRow :=
  ⟨id, .text name, .text hash, .text "a@example.com", .null, .null, "2024-01-01 08:00:00"⟩

/-- Two users, each with records of every kind. -/
def sampleDb : Db where
  users := [sampleUser 1 "alice" "$12$s$secret1", sampleUser 2 "bob" "$12$s$secret2"]
  usersSeq := 2
  workouts := [sampleWorkout 1 1 200 "2024-01-01", sampleWorkout 2 2 999 "2024-01-01",
    sampleWorkout 3 1 300 "2024-01-01", sampleWorkout 4 1 50 "2023-12-31"]
  workoutsSeq := 4
  nutrition := [sampleMeal 1 2 700 "2024-01-01", sampleMeal 2 1 450 "2024-01-01"]
  nutritionSeq := 2
  health_metrics := [sampleMetric 1 1 "2024-01-01", sampleMetric 2 2 "2024-01-01"]
  health_metricsSeq := 2
  medications := [sampleMedication 1 1 1, sampleMedication 2 2 1, sampleMedication 3 1 0]
  medicationsSeq := 3

def aliceSession : Session := ⟨some 1, .str "alice"⟩

def bobSession : Session := ⟨some 2, .str "bob"⟩

/-- A second toy instance of the hashing library: the hash is the password
behind a mark, and only that hash is accepted. -/
def markBcrypt : Bcrypt where
  hash := fun p _ _ => "#" ++ p
  compare := fun p h => decide (h = "#" ++ p)

/-- The body of the example: a run of 30 minutes, no calories given. -/
def runBody : Body :=
  [("type", .str "run"), ("duration", .num ⟨30, 0⟩), ("intensity", .str "high"),
    ("date", .str "2024-01-01")]

/-- A store in which user 1 already has 50 workouts, all dated 2024-02-01. -/
def crowdedDb : Db :=
  { Db.empty with
    users := [sampleUser 1 "alice" "$12$s$secret1"]
    usersSeq := 1
    workouts := (List.range 50).map fun n => sampleWorkout (n + 1) 1 100 "2024-02-01"
    workoutsSeq := 50 }

/-- The sample surroundings with a failure of the first statement. -/
def failingEnv (msg : String) : Env := { sampleEnv with fault := some msg }

/-- A server on which user 1 holds a session under the id `sid1`, expiring 24
hours after time 0. -/
def aliceServer : Server := ⟨sampleDb, [("sid1", ⟨aliceSession, maxAge⟩)]⟩

/-- The login request of user alice. -/
def aliceLogin : Request :=
  ⟨.login, [("username", .str "alice"), ("password", .str "secret1")]⟩

/-- Hours in milliseconds. -/
def hours (n : Nat) : Nat := n * 60 * 60 * 1000

/-- A medication insert of alice with the given `is_active`. -/
def medStep (active : JsVal) : Step :=
  ⟨sampleEnv, aliceSession, ⟨.create .medications,
    [("name", .str "aspirin"), ("dosage", .str "100mg"), ("frequency", .str "daily"),
      ("start_date", .str "2024-01-01"), ("is_active", active)]⟩⟩

/-- Three medication inserts of alice, with `is_active` the texts `false` and
`0` and the boolean false, then the delete of the first. -/
def medSteps : List Step :=
  [medStep (.str "false"), medStep (.bool false), medStep (.str "0"),
    ⟨sampleEnv, aliceSession, ⟨.delete .medications "1", []⟩⟩]

/-- The run of the example with calories_burned the text `9000000000000000000`. -/
def heavyBody : Body :=
  [("type", .str "run"), ("duration", .num ⟨30, 0⟩), ("intensity", .str "high"),
    ("calories_burned", .str "9000000000000000000"), ("date", .str "2024-01-01")]

/-- The login of user bob, two hours in, without a cookie; the middleware
draws the id `sid9`. -/
def bobLoginVisit : Visit :=
  ⟨sampleEnv, hours 2, "sid9", none,
    ⟨.login, [("username", .str "bob"), ("password", .str "secret2")]⟩⟩

/-! ## Lemmas on the list operations -/

theorem mem_insertSorted {α : Type} (before : α → α → Bool) (a x : α) (l : List α) :
    x ∈ insertSorted before a l ↔ x = a ∨ x ∈ l := by
  induction l with
  | nil => simp [insertSorted]
  | cons b l ih =>
    unfold insertSorted
    split
    · simp only [List.mem_cons, ih]
      tauto
    · simp only [List.mem_cons]

theorem mem_sortBy {α : Type} (before : α → α → Bool) (x : α) (l : List α) :
    x ∈ sortBy before l ↔ x ∈ l := by
  induction l with
  | nil => simp [sortBy]
  | cons b l ih =>
    have h : sortBy before (b :: l) = insertSorted before b (sortBy before l) := rfl
    rw [h, mem_insertSorted, ih, List.mem_cons]

theorem mem_listed {α : Type} (before : α → α → Bool) (p : α → Bool) (n : Nat) (x : α)
    (l : List α) (h : x ∈ (sortBy before (l.filter p)).take n) : x ∈ l ∧ p x = true := by
  have h1 := List.mem_of_mem_take h
  rw [mem_sortBy, List.mem_filter] at h1
  exact h1

/-! ## Decimals as rational numbers -/

theorem Dec.value_norm (m : Int) (e : Nat) : (Dec.norm m e).value = (m : ℚ) / 10 ^ e := by
  induction e generalizing m with
  | zero => rfl
  | succ e ih =>
    unfold Dec.norm
    split
    · rename_i h
      rw [ih]
      obtain ⟨k, rfl⟩ := Int.dvd_of_emod_eq_zero h
      rw [Int.mul_ediv_cancel_left k (by decide)]
      push_cast
      rw [pow_succ]
      field_simp
      ring
    · rfl

theorem Dec.value_ofInt (i : Int) : (Dec.ofInt i).value = i := by
  simp [Dec.value, Dec.ofInt]

theorem Dec.value_add (a b : Dec) : (a.add b).value = a.value + b.value := by
  unfold Dec.add
  rw [Dec.value_norm]
  have ha : (10 : ℚ) ^ max a.e b.e = 10 ^ (max a.e b.e - a.e) * 10 ^ a.e := by
    rw [← pow_add, Nat.sub_add_cancel (le_max_left _ _)]
  have hb : (10 : ℚ) ^ max a.e b.e = 10 ^ (max a.e b.e - b.e) * 10 ^ b.e := by
    rw [← pow_add, Nat.sub_add_cancel (le_max_right _ _)]
  have hx : (10 : ℚ) ^ (max a.e b.e - a.e) ≠ 0 := pow_ne_zero _ (by norm_num)
  have hy : (10 : ℚ) ^ (max a.e b.e - b.e) ≠ 0 := pow_ne_zero _ (by norm_num)
  push_cast
  rw [add_div]
  congr 1
  · rw [ha, Dec.value]
    field_simp
    ring
  · rw [hb, Dec.value]
    field_simp
    ring

theorem Dec.lt_iff (a b : Dec) : a.lt b = true ↔ a.value < b.value := by
  have ha : (0 : ℚ) < 10 ^ a.e := pow_pos (by norm_num) _
  have hb : (0 : ℚ) < 10 ^ b.e := pow_pos (by norm_num) _
  simp only [Dec.lt, decide_eq_true_eq, Dec.value]
  rw [div_lt_div_iff₀ ha hb, ← Int.cast_lt (R := ℚ)]
  push_cast
  rfl

theorem sqlEq_num_iff (a b : Dec) : sqlEq (.num a) (.num b) = true ↔ a.value = b.value := by
  have ha : (10 : ℚ) ^ a.e ≠ 0 := pow_ne_zero _ (by norm_num)
  have hb : (10 : ℚ) ^ b.e ≠ 0 := pow_ne_zero _ (by norm_num)
  simp only [sqlEq, decide_eq_true_eq, Dec.value]
  rw [div_eq_div_iff ha hb, ← Int.cast_inj (α := ℚ)]
  push_cast
  rfl

/-! ## Decimal numerals -/

theorem isDigit_iff (c : Char) : c.isDigit = true ↔ 48 ≤ c.toNat ∧ c.toNat ≤ 57 := by
  simp [Char.isDigit, Char.toNat, UInt32.le_def, UInt32.toNat, BitVec.le_def]

theorem digitChar_digit (k : Nat) (h : k < 10) :
    (Nat.digitChar k).isDigit = true ∧ digitVal (Nat.digitChar k) = k := by
  interval_cases k <;> decide

theorem digitsVal_append (l : List Char) (c : Char) :
    digitsVal (l ++ [c]) = 10 * digitsVal l + digitVal c := by
  simp [digitsVal, List.foldl_append]

/-- The digits `Nat.toDigits` writes in front of the digits it was given are
decimal digits, at least one, and they spell the number. -/
theorem toDigitsCore_spec (fuel n : Nat) (ds : List Char) (h : n < fuel) :
    ∃ l, Nat.toDigitsCore 10 fuel n ds = l ++ ds ∧ l ≠ [] ∧ (∀ c ∈ l, c.isDigit = true) ∧
      digitsVal l = n := by
  induction fuel generalizing n ds with
  | zero => omega
  | succ fuel ih =>
    unfold Nat.toDigitsCore
    dsimp only
    have hd := digitChar_digit (n % 10) (Nat.mod_lt _ (by decide))
    by_cases h0 : n / 10 = 0
    · rw [if_pos h0]
      refine ⟨[Nat.digitChar (n % 10)], rfl, by simp, ?_, ?_⟩
      · intro c hc
        rw [List.mem_singleton] at hc
        rw [hc]
        exact hd.1
      · have : digitsVal [Nat.digitChar (n % 10)] = digitVal (Nat.digitChar (n % 10)) := by
          simp [digitsVal]
        rw [this, hd.2]
        omega
    · rw [if_neg h0]
      obtain ⟨l, hl, _, hall, hval⟩ := ih (n / 10) (Nat.digitChar (n % 10) :: ds) (by omega)
      refine ⟨l ++ [Nat.digitChar (n % 10)], by rw [hl]; simp, by simp, ?_, ?_⟩
      · intro c hc
        rw [List.mem_append, List.mem_singleton] at hc
        rcases hc with hc | hc
        · exact hall c hc
        · rw [hc]
          exact hd.1
      · rw [digitsVal_append, hval, hd.2]
        omega

theorem natText_spec (n : Nat) :
    (natText n).toList ≠ [] ∧ (∀ c ∈ (natText n).toList, c.isDigit = true) ∧
      digitsVal (natText n).toList = n := by
  obtain ⟨l, hl, hne, hall, hval⟩ := toDigitsCore_spec (n + 1) n [] (by omega)
  have : (natText n).toList = l := by
    simp only [natText, Nat.toDigits, hl, List.append_nil]
    rfl
  rw [this]
  exact ⟨hne, hall, hval⟩

theorem not_space_of_digit (c : Char) (h : c.isDigit = true) :
    sqlIsSpace c = false ∧ jsIsSpace c = false := by
  rw [isDigit_iff] at h
  constructor
  · simp only [sqlIsSpace, Bool.or_eq_false_iff, Bool.and_eq_false_iff, decide_eq_false_iff_not]
    omega
  · simp only [jsIsSpace, Bool.or_eq_false_iff, Bool.and_eq_false_iff, decide_eq_false_iff_not]
    omega

theorem takeSign_digits (l : List Char) (h : ∀ c ∈ l, c.isDigit = true) :
    takeSign l = (false, l) := by
  unfold takeSign
  split
  · exact absurd (h '-' (List.mem_cons_self _ _)) (by decide)
  · exact absurd (h '+' (List.mem_cons_self _ _)) (by decide)
  · rfl

theorem dropWhile_digits (p : Char → Bool) (l : List Char)
    (hp : ∀ c, c.isDigit = true → p c = false) (h : ∀ c ∈ l, c.isDigit = true) :
    l.dropWhile p = l := by
  cases l with
  | nil => rfl
  | cons c t => simp [List.dropWhile, hp c (h c (List.mem_cons_self _ _))]

theorem takeWhile_digits (l : List Char) (h : ∀ c ∈ l, c.isDigit = true) :
    l.takeWhile Char.isDigit = l ∧ l.dropWhile Char.isDigit = [] := by
  constructor
  · rw [List.takeWhile_eq_self_iff]
    exact h
  · rw [List.dropWhile_eq_nil_iff]
    exact h

theorem scanInteger_digits (l : List Char) (hne : l ≠ []) (h : ∀ c ∈ l, c.isDigit = true) :
    scanInteger l = some ((digitsVal l : Int), []) := by
  unfold scanInteger
  rw [takeSign_digits l h]
  dsimp only
  rw [(takeWhile_digits l h).1, (takeWhile_digits l h).2]
  cases l with
  | nil => exact absurd rfl hne
  | cons c t => simp [applySign]

/-- The numeral of a key is read back as the key. -/
theorem sqlNumericOfText_natText (i : Nat) (h : i < 2 ^ 63) :
    sqlNumericOfText (natText i) = some ⟨(i : Int), 0⟩ := by
  obtain ⟨hne, hall, hval⟩ := natText_spec i
  unfold sqlNumericOfText
  rw [dropWhile_digits sqlIsSpace _ (fun c hc => (not_space_of_digit c hc).1) hall,
    scanInteger_digits _ hne hall, hval]
  dsimp only
  rw [if_pos]
  refine ⟨by simp, by omega, by omega⟩

theorem toDouble_small (n : Int) (h : n.natAbs < 2 ^ 53) : Dec.toDouble ⟨n, 0⟩ = ⟨n, 0⟩ := by
  unfold Dec.toDouble
  simp only [Dec.norm]
  rw [if_pos ⟨trivial, h⟩]

/-- The function `parseInt` reads a text of decimal digits as the number they
spell, rounded to a double. -/
theorem parseIntChars_digits (l : List Char) (hne : l ≠ []) (h : ∀ c ∈ l, c.isDigit = true) :
    parseIntChars l = .fin (Dec.toDouble ⟨(digitsVal l : Int), 0⟩) := by
  unfold parseIntChars
  rw [dropWhile_digits jsIsSpace _ (fun c hc => (not_space_of_digit c hc).2) h,
    takeSign_digits l h]
  dsimp only
  split
  · rename_i t heq
    exact absurd (h 'x' (by simp)) (by decide)
  · rename_i t heq
    exact absurd (h 'X' (by simp)) (by decide)
  · rw [(takeWhile_digits l h).1]
    cases l with
    | nil => exact absurd rfl hne
    | cons c t => simp [applySign, Dec.ofInt]

theorem parseInt_natText (n : Nat) (h : n < 2 ^ 53) :
    parseInt (.str (natText n)) = .fin ⟨(n : Int), 0⟩ := by
  obtain ⟨hne, hall, hval⟩ := natText_spec n
  simp only [parseInt]
  rw [parseIntChars_digits _ hne hall, hval, toDouble_small _ (by simpa using h)]

theorem parseInt_whole (n : Int) (h : n.natAbs < 2 ^ 53) :
    parseInt (.num ⟨n, 0⟩) = .fin ⟨n, 0⟩ := by
  simp only [parseInt, parseIntNum, Dec.norm]
  rw [if_pos ⟨trivial, h⟩]

theorem toList_append (a b : String) : (a ++ b).toList = a.toList ++ b.toList := by
  simp [String.toList]

/-- The function `parseInt` reads a text that begins with decimal digits, and
goes on with neither a digit nor the letter x, as the number the digits spell,
rounded to a double. -/
theorem parseIntChars_numeral (l rest : List Char) (hne : l ≠ [])
    (h : ∀ c ∈ l, c.isDigit = true)
    (hrest : ∀ c ∈ rest.head?, c.isDigit = false ∧ c ≠ 'x' ∧ c ≠ 'X') :
    parseIntChars (l ++ rest) = .fin (Dec.toDouble ⟨(digitsVal l : Int), 0⟩) := by
  obtain ⟨c, t, rfl⟩ := List.exists_cons_of_ne_nil hne
  have hc := h c (List.mem_cons_self _ _)
  have htake : (c :: t ++ rest).takeWhile Char.isDigit = c :: t := by
    rw [List.takeWhile_append_of_pos h]
    cases rest with
    | nil => simp
    | cons r rest =>
      have := (hrest r (by simp)).1
      simp [List.takeWhile_cons, this]
  have hsign : takeSign (c :: t ++ rest) = (false, c :: t ++ rest) := by
    simp only [takeSign, List.cons_append]
    split
    · rename_i heq
      rw [(List.cons.inj heq).1] at hc
      exact absurd hc (by decide)
    · rename_i heq
      rw [(List.cons.inj heq).1] at hc
      exact absurd hc (by decide)
    · rfl
  have hsecond : ∀ x u, c :: t ++ rest = '0' :: x :: u → x ≠ 'x' ∧ x ≠ 'X' := by
    intro x u heq
    cases t with
    | nil =>
      cases rest with
      | nil => simp at heq
      | cons r rest =>
        simp only [List.cons_append, List.nil_append, List.cons.injEq] at heq
        rw [← heq.2.1]
        exact (hrest r (by simp)).2
    | cons d t =>
      simp only [List.cons_append, List.cons.injEq] at heq
      have hd := h d (by simp)
      rw [heq.2.1] at hd
      constructor <;> intro e <;> rw [e] at hd <;> exact absurd hd (by decide)
  unfold parseIntChars
  have hdrop : (c :: t ++ rest).dropWhile jsIsSpace = c :: t ++ rest := by
    simp [List.dropWhile, (not_space_of_digit c hc).2]
  rw [hdrop, hsign]
  dsimp only
  split
  · rename_i u heq
    exact absurd rfl (hsecond 'x' u heq).1
  · rename_i u heq
    exact absurd rfl (hsecond 'X' u heq).2
  · rw [htake]
    simp [applySign, Dec.ofInt]

/-- The function `parseInt` gives `NaN` for a text with no number at its
head. -/
theorem parseIntChars_noNumber (s : String) (h : startsNoNumber s = true) :
    parseIntChars s.toList = .nan := by
  unfold startsNoNumber at h
  cases hs : s.toList with
  | nil =>
    rw [hs] at h
    exact absurd h (by decide)
  | cons c t =>
    rw [hs] at h
    simp only [Bool.and_eq_true, Bool.not_eq_true', decide_eq_true_eq] at h
    obtain ⟨⟨⟨hsp, hdig⟩, hplus⟩, hminus⟩ := h
    have hdrop : (c :: t).dropWhile jsIsSpace = c :: t := by
      simp [List.dropWhile, hsp]
    have hsign : takeSign (c :: t) = (false, c :: t) := by
      unfold takeSign
      split
      · rename_i heq
        exact absurd (List.cons.inj heq).1 hminus
      · rename_i heq
        exact absurd (List.cons.inj heq).1 hplus
      · rfl
    unfold parseIntChars
    rw [hdrop, hsign]
    dsimp only
    split
    · rename_i u heq
      rw [(List.cons.inj heq).1] at hdig
      exact absurd hdig (by decide)
    · rename_i u heq
      rw [(List.cons.inj heq).1] at hdig
      exact absurd hdig (by decide)
    · simp [List.takeWhile_cons, hdig]

/-- What `parseInt` makes of an input whose reading is plain is what the input
is to be stored as. -/
theorem bindNum_parseInt_of_coerces (x : JsVal) (v : SqlVal) (h : CoercesTo x v) :
    bindNum (parseInt x) = v := by
  rcases h with ⟨n, hn, rfl, rfl⟩ | ⟨n, rest, hn, hrest, rfl, rfl⟩ | ⟨s, hs, rfl, rfl⟩
  · rw [parseInt_whole n hn]
    rfl
  · obtain ⟨hne, hall, hval⟩ := natText_spec n
    have hr : ∀ c ∈ rest.toList.head?, c.isDigit = false ∧ c ≠ 'x' ∧ c ≠ 'X' := by
      intro c hc
      unfold endsNumeral at hrest
      cases hl : rest.toList with
      | nil =>
        rw [hl] at hc
        exact absurd hc (by simp)
      | cons r t =>
        rw [hl] at hc hrest
        simp only [List.head?_cons, Option.mem_def, Option.some.injEq] at hc
        subst hc
        simp only [Bool.and_eq_true, Bool.not_eq_true', decide_eq_true_eq] at hrest
        exact ⟨hrest.1.1, hrest.1.2, hrest.2⟩
    simp only [parseInt]
    rw [toList_append, parseIntChars_numeral _ _ hne hall hr, hval,
      toDouble_small _ (by simpa using hn)]
    rfl
  · simp only [parseInt]
    rw [parseIntChars_noNumber s hs]
    rfl

theorem truthy_of_coerces (x : JsVal) (v : SqlVal) (h : CoercesTo x v) (hv : v ≠ .num ⟨0, 0⟩) :
    x.truthy = true := by
  rcases h with ⟨n, hn, rfl, rfl⟩ | ⟨n, rest, hn, hrest, rfl, rfl⟩ | ⟨s, hs, rfl, rfl⟩
  · simp only [JsVal.truthy, Dec.isZero, Bool.not_eq_true', decide_eq_false_iff_not]
    intro h0
    exact hv (by rw [h0])
  · simp only [JsVal.truthy, decide_eq_true_eq]
    intro h0
    have := congrArg String.toList h0
    rw [toList_append] at this
    exact (natText_spec n).1 (List.append_eq_nil.mp this).1
  · simp only [JsVal.truthy, decide_eq_true_eq]
    intro h0
    rw [h0] at hs
    exact absurd hs (by decide)

/-- The calories of an insert: `parseInt(x || 0)` of an input whose reading is
plain is what the input is to be stored as, and 0 for an input that is
falsy. -/
theorem bindNum_parseInt_orZero (x : JsVal) :
    (x.truthy = false → bindNum (parseInt x.orZero) = .num ⟨0, 0⟩) ∧
      ∀ v, CoercesTo x v → bindNum (parseInt x.orZero) = v := by
  constructor
  · intro h
    simp only [JsVal.orZero, h]
    rfl
  · intro v h
    by_cases hv : v = .num ⟨0, 0⟩
    · by_cases ht : x.truthy = true
      · simp only [JsVal.orZero, ht, if_true]
        exact bindNum_parseInt_of_coerces x v h
      · simp only [JsVal.orZero, ht]
        rw [hv]
        rfl
    · simp only [JsVal.orZero, truthy_of_coerces x v h hv, if_true]
      exact bindNum_parseInt_of_coerces x v h

/-! ## Ownership scoping of the lists -/

/-- Claim C1: whatever the store holds and whatever the request carries, the
rows of a list response, of any of the four kinds, all belong to the user of the
caller's session; a row of a different user never appears. -/
theorem list_returns_only_own_rows (bc : Bcrypt) (env : Env) (db : Db) (sess : Session)
    (body : Body) (k : Kind) (U1 U2 : Nat) (hsess : sess.userId = some U1) (hne : U1 ≠ U2) :
    (∀ u ∈ (handle bc env db sess ⟨.list k, body⟩).resp.body.owners, u = U1) ∧
      U2 ∉ (handle bc env db sess ⟨.list k, body⟩).resp.body.owners := by
  have key : ∀ u ∈ (handle bc env db sess ⟨.list k, body⟩).resp.body.owners, u = U1 := by
    intro u hu
    simp only [handle, requireAuth, hsess] at hu
    split at hu
    · cases k <;>
        simp only [listOf, listWorkouts, listNutrition, listMetrics, listMedications] at hu <;>
        cases hf : env.fault <;> simp only [hf, Reply.owners, List.mem_map, List.not_mem_nil] at hu
      all_goals
        obtain ⟨r, hr, rfl⟩ := hu
        have := (mem_listed _ _ _ _ _ hr).2
        simpa using this
    · simp [Reply.owners] at hu
  exact ⟨key, fun h => hne (key U2 h).symm⟩

theorem list_returns_only_own_rows_witness :
    (handle toyBcrypt sampleEnv sampleDb aliceSession
        ⟨.list .workouts, [("user_id", .num ⟨2, 0⟩)]⟩).resp.body.owners = [1, 1, 1] ∧
      ((∀ u ∈ (handle toyBcrypt sampleEnv sampleDb aliceSession
          ⟨.list .workouts, [("user_id", .num ⟨2, 0⟩)]⟩).resp.body.owners, u = 1) ∧
        2 ∉ (handle toyBcrypt sampleEnv sampleDb aliceSession
          ⟨.list .workouts, [("user_id", .num ⟨2, 0⟩)]⟩).resp.body.owners) :=
  ⟨by decide, list_returns_only_own_rows toyBcrypt sampleEnv sampleDb aliceSession
    [("user_id", .num ⟨2, 0⟩)] .workouts 1 2 rfl (by decide)⟩

/-! ## Non-interference between users -/

theorem filter_owner_append_other {α : Type} (owner : α → Nat) (l : List α) (r : α) (u : Nat)
    (h : owner r ≠ u) :
    (l ++ [r]).filter (fun x => decide (owner x = u)) = l.filter fun x => decide (owner x = u) := by
  simp [List.filter_append, h]

theorem filter_owner_delete_other {α : Type} (owner key : α → Nat) (l : List α) (id : String)
    (u v : Nat) (h : v ≠ u) :
    (l.filter fun x => !(idMatches id (key x) && decide (owner x = v))).filter
        (fun x => decide (owner x = u)) = l.filter fun x => decide (owner x = u) := by
  rw [List.filter_filter]
  apply List.filter_congr
  intro x _
  by_cases hx : owner x = u
  · have hv : ¬u = v := fun e => h e.symm
    simp [hx, hv]
  · simp [hx]

theorem createWorkout_cases (env : Env) (db : Db) (v : Nat) (body : Body) :
    ((createWorkout env db v body).2 = db ∧ (createWorkout env db v body).1.status ≠ 200) ∨
      ∃ r : WorkoutRow, r.user_id = v ∧
        (createWorkout env db v body).1 = ⟨200, .saved r.id "Workout saved successfully!"⟩ ∧
        (createWorkout env db v body).2 =
          { db with workouts := db.workouts ++ [r], workoutsSeq := r.id } := by
  unfold createWorkout insertWorkout
  dsimp only
  split
  · exact Or.inl ⟨rfl, by simp⟩
  · cases env.fault with
    | some msg => exact Or.inl ⟨rfl, by simp⟩
    | none =>
      dsimp only
      by_cases hc : (!checkIn (bindText (body.get "intensity")) ["low", "medium", "high"]) = true
      · rw [if_pos hc]
        exact Or.inl ⟨rfl, by simp⟩
      · rw [if_neg hc]
        exact Or.inr ⟨_, rfl, rfl, rfl⟩

theorem createNutrition_cases (env : Env) (db : Db) (v : Nat) (body : Body) :
    ((createNutrition env db v body).2 = db ∧ (createNutrition env db v body).1.status ≠ 200) ∨
      ∃ r : NutritionRow, r.user_id = v ∧
        (createNutrition env db v body).1 =
          ⟨200, .saved r.id "Nutrition entry saved successfully!"⟩ ∧
        (createNutrition env db v body).2 =
          { db with nutrition := db.nutrition ++ [r], nutritionSeq := r.id } := by
  unfold createNutrition insertNutrition
  dsimp only
  split
  · exact Or.inl ⟨rfl, by simp⟩
  · cases env.fault with
    | some msg => exact Or.inl ⟨rfl, by simp⟩
    | none =>
      dsimp only
      by_cases hc : (!checkIn (bindText (body.get "meal_type")) ["breakfast", "lunch", "dinner", "snack"]) = true
      · rw [if_pos hc]
        exact Or.inl ⟨rfl, by simp⟩
      · rw [if_neg hc]
        exact Or.inr ⟨_, rfl, rfl, rfl⟩

theorem createMetric_cases (env : Env) (db : Db) (v : Nat) (body : Body) :
    ((createMetric env db v body).2 = db ∧ (createMetric env db v body).1.status ≠ 200) ∨
      ∃ r : MetricRow, r.user_id = v ∧
        (createMetric env db v body).1 =
          ⟨200, .saved r.id "Health metrics saved successfully!"⟩ ∧
        (createMetric env db v body).2 =
          { db with health_metrics := db.health_metrics ++ [r], health_metricsSeq := r.id } := by
  unfold createMetric insertMetric
  dsimp only
  split
  · exact Or.inl ⟨rfl, by simp⟩
  · cases env.fault with
    | some msg => exact Or.inl ⟨rfl, by simp⟩
    | none =>
      dsimp only
      by_cases hc : (!checkIn (bindText (body.get "mood")) ["excellent", "good", "fair", "poor", "terrible"]) = true
      · rw [if_pos hc]
        exact Or.inl ⟨rfl, by simp⟩
      · rw [if_neg hc]
        exact Or.inr ⟨_, rfl, rfl, rfl⟩

theorem createMedication_cases (env : Env) (db : Db) (v : Nat) (body : Body) :
    ((createMedication env db v body).2 = db ∧ (createMedication env db v body).1.status ≠ 200) ∨
      ∃ r : MedicationRow, r.user_id = v ∧
        (createMedication env db v body).1 =
          ⟨200, .saved r.id "Medication added successfully!"⟩ ∧
        (createMedication env db v body).2 =
          { db with medications := db.medications ++ [r], medicationsSeq := r.id } := by
  unfold createMedication insertMedication
  dsimp only
  split
  · exact Or.inl ⟨rfl, by simp⟩
  · cases env.fault with
    | some msg => exact Or.inl ⟨rfl, by simp⟩
    | none => exact Or.inr ⟨_, rfl, rfl, rfl⟩

theorem create_keeps_others (k : Kind) (env : Env) (db : Db) (v u : Nat) (body : Body)
    (h : v ≠ u) : (createOf k env db v body).2.ownedBy u = db.ownedBy u := by
  cases k <;> simp only [createOf]
  · rcases createWorkout_cases env db v body with ⟨h1, _⟩ | ⟨r, hr, _, h2⟩
    · rw [h1]
    · rw [h2]
      simp only [Db.ownedBy]
      rw [filter_owner_append_other WorkoutRow.user_id _ _ _ (hr ▸ h)]
  · rcases createNutrition_cases env db v body with ⟨h1, _⟩ | ⟨r, hr, _, h2⟩
    · rw [h1]
    · rw [h2]
      simp only [Db.ownedBy]
      rw [filter_owner_append_other NutritionRow.user_id _ _ _ (hr ▸ h)]
  · rcases createMetric_cases env db v body with ⟨h1, _⟩ | ⟨r, hr, _, h2⟩
    · rw [h1]
    · rw [h2]
      simp only [Db.ownedBy]
      rw [filter_owner_append_other MetricRow.user_id _ _ _ (hr ▸ h)]
  · rcases createMedication_cases env db v body with ⟨h1, _⟩ | ⟨r, hr, _, h2⟩
    · rw [h1]
    · rw [h2]
      simp only [Db.ownedBy]
      rw [filter_owner_append_other MedicationRow.user_id _ _ _ (hr ▸ h)]

theorem delete_keeps_others (k : Kind) (env : Env) (db : Db) (v u : Nat) (id : String)
    (h : v ≠ u) : (deleteOf k env db v id).2.ownedBy u = db.ownedBy u := by
  cases k <;>
    simp only [deleteOf, deleteWorkout, deleteNutrition, deleteMetric, deleteMedication] <;>
    cases env.fault <;> simp only [Db.ownedBy]
  · rw [filter_owner_delete_other WorkoutRow.user_id WorkoutRow.id _ _ _ _ h]
  · rw [filter_owner_delete_other NutritionRow.user_id NutritionRow.id _ _ _ _ h]
  · rw [filter_owner_delete_other MetricRow.user_id MetricRow.id _ _ _ _ h]
  · rw [filter_owner_delete_other MedicationRow.user_id MedicationRow.id _ _ _ _ h]

theorem workoutsToday_eq (db : Db) (u : Nat) (today : String) :
    workoutsToday db u today = (db.ownedBy u).1.filter fun r => dateIs r.date today := by
  simp only [workoutsToday, Db.ownedBy, List.filter_filter]
  apply List.filter_congr
  intro x _
  exact Bool.and_comm _ _

theorem nutritionToday_eq (db : Db) (u : Nat) (today : String) :
    nutritionToday db u today = (db.ownedBy u).2.1.filter fun r => dateIs r.date today := by
  simp only [nutritionToday, Db.ownedBy, List.filter_filter]
  apply List.filter_congr
  intro x _
  exact Bool.and_comm _ _

theorem activeMedications_eq (db : Db) (u : Nat) :
    activeMedications db u =
      (db.ownedBy u).2.2.2.filter fun r => sqlEq r.is_active (.num (Dec.ofInt 1)) := by
  simp only [activeMedications, Db.ownedBy, List.filter_filter]
  apply List.filter_congr
  intro x _
  exact Bool.and_comm _ _

theorem summary_of_owned (env : Env) (db db2 : Db) (u : Nat)
    (h : db.ownedBy u = db2.ownedBy u) : summary env db u = summary env db2 u := by
  simp only [summary, workoutsToday_eq, nutritionToday_eq, activeMedications_eq, h]

/-- The database a request leaves keeps the records of every user other than
the caller. -/
theorem handle_keeps_others (bc : Bcrypt) (env : Env) (db : Db) (sess : Session) (req : Request)
    (u : Nat) (h : sess.userId ≠ some u) : (handle bc env db sess req).db.ownedBy u = db.ownedBy u := by
  obtain ⟨route, body⟩ := req
  have hreq : ∀ next : Nat → Outcome, (∀ v, v ≠ u → (next v).db.ownedBy u = db.ownedBy u) →
      (requireAuth db sess next).db.ownedBy u = db.ownedBy u := by
    intro next hnext
    unfold requireAuth
    cases hs : sess.userId with
    | none => rfl
    | some v =>
      dsimp only
      split
      · exact hnext v fun e => h (by rw [hs, e])
      · rfl
  cases route with
  | register =>
    simp only [handle, register, insertUser]
    split
    · rfl
    · split
      · rfl
      · split
        · rfl
        · split
          · split <;> rfl
          · rename_i heq
            cases hf : env.fault with
            | some msg => simp [hf] at heq
            | none =>
              simp only [hf] at heq
              split at heq
              · simp at heq
              · simp only [Except.ok.injEq, Prod.mk.injEq] at heq
                rw [← heq.1]
                rfl
  | login =>
    simp only [handle, login]
    split
    · rfl
    · split
      · rfl
      · split
        · rfl
        · split <;> rfl
  | logout =>
    simp only [handle, logout]
    split <;> rfl
  | status =>
    simp only [handle, status]
    split <;> rfl
  | list k => exact hreq _ fun _ _ => rfl
  | create k => exact hreq _ fun v hv => create_keeps_others k env db v u body hv
  | delete k id => exact hreq _ fun v hv => delete_keeps_others k env db v u id hv
  | summary => exact hreq _ fun _ _ => rfl
  | profile => exact hreq _ fun _ _ => rfl

/-- Claim C2: the summary of user U1 is the same in two stores that hold the
same records of U1, and no request made under the session of another user U2,
an insert or a delete of any kind included, changes it. -/
theorem summary_depends_only_on_own_records (bc : Bcrypt) (env : Env) (db db2 : Db)
    (sess : Session) (body : Body) (U1 U2 : Nat) (hsess : sess.userId = some U1)
    (hne : U1 ≠ U2) :
    (db.ownedBy U1 = db2.ownedBy U1 →
        (handle bc env db sess ⟨.summary, body⟩).resp =
          (handle bc env db2 sess ⟨.summary, body⟩).resp) ∧
      ∀ (env2 : Env) (sess2 : Session) (req2 : Request), sess2.userId = some U2 →
        (handle bc env (handle bc env2 db sess2 req2).db sess ⟨.summary, body⟩).resp =
          (handle bc env db sess ⟨.summary, body⟩).resp := by
  have congr : ∀ d1 d2 : Db, d1.ownedBy U1 = d2.ownedBy U1 →
      (handle bc env d1 sess ⟨.summary, body⟩).resp =
        (handle bc env d2 sess ⟨.summary, body⟩).resp := by
    intro d1 d2 h
    simp only [handle, requireAuth, hsess]
    split
    · exact summary_of_owned env d1 d2 U1 h
    · rfl
  refine ⟨congr db db2, fun env2 sess2 req2 h2 => congr _ _ ?_⟩
  apply handle_keeps_others
  rw [h2]
  exact fun e => hne (Option.some.inj e).symm

theorem summary_depends_only_on_own_records_witness :
    (handle toyBcrypt sampleEnv sampleDb aliceSession ⟨.summary, []⟩).resp =
        ⟨200, .summary 2 ⟨500, 0⟩ ⟨450, 0⟩ 1⟩ ∧
      (handle toyBcrypt sampleEnv sampleDb bobSession ⟨.delete .workouts "2", []⟩).db ≠ sampleDb ∧
      (handle toyBcrypt sampleEnv
          (handle toyBcrypt sampleEnv sampleDb bobSession ⟨.delete .workouts "2", []⟩).db
          aliceSession ⟨.summary, []⟩).resp =
        (handle toyBcrypt sampleEnv sampleDb aliceSession ⟨.summary, []⟩).resp :=
  ⟨by decide, by decide,
    (summary_depends_only_on_own_records toyBcrypt sampleEnv sampleDb sampleDb aliceSession []
      1 2 rfl (by decide)).2 sampleEnv bobSession ⟨.delete .workouts "2", []⟩ rfl⟩

/-! ## Owner-scoped delete -/

/-- The condition `id = ?` of the delete statements holds for a key exactly
when the text of the route names the key. -/
theorem idMatches_iff (idText : String) (k : Nat) : idMatches idText k = true ↔ idNames idText k := by
  unfold idMatches idNames
  cases h : sqlNumericOfText idText with
  | none => simp [affNumeric, h, sqlEq]
  | some d =>
    simp only [affNumeric, h, sqlEq_num_iff, Dec.value_ofInt, Option.some.injEq, exists_eq_left',
      Int.cast_natCast]
    exact eq_comm

theorem idNames_unique (idText : String) (a b : Nat) (ha : idNames idText a)
    (hb : idNames idText b) : a = b := by
  obtain ⟨d, hd, hda⟩ := ha
  obtain ⟨d2, hd2, hdb⟩ := hb
  rw [hd] at hd2
  cases hd2
  rw [hda] at hdb
  exact_mod_cast hdb

theorem idNames_natText (i k : Nat) (h : i < 2 ^ 63) : idNames (natText i) k ↔ k = i := by
  unfold idNames
  rw [sqlNumericOfText_natText i h]
  simp only [Option.some.injEq, exists_eq_left', Dec.value, Int.cast_natCast, pow_zero, div_one,
    Nat.cast_inj]
  exact eq_comm

theorem onlyOwnRemoved_refl {α : Type} [DecidableEq α] (owner key : α → Nat) (uid : Nat)
    (names : Nat → Prop) (l : List α) : OnlyOwnRemoved owner key uid names l l :=
  ⟨List.Sublist.refl l, fun _ hr hn => absurd hr hn, fun _ _ => rfl, fun _ _ => rfl⟩

theorem onlyOwnRemoved_filter {α : Type} [DecidableEq α] (owner key : α → Nat) (uid : Nat)
    (id : String) (names : Nat → Prop) (hn : ∀ k, idMatches id k = true → names k)
    (l : List α) :
    OnlyOwnRemoved owner key uid names l
      (l.filter fun r => !(idMatches id (key r) && decide (owner r = uid))) := by
  refine ⟨List.filter_sublist l, ?_, ?_, ?_⟩
  · intro r hr hnot
    rw [List.mem_filter] at hnot
    by_cases h1 : owner r = uid
    · by_cases h2 : idMatches id (key r) = true
      · exact ⟨h1, hn _ h2⟩
      · exact absurd ⟨hr, by simp [h2]⟩ hnot
    · exact absurd ⟨hr, by simp [h1]⟩ hnot
  · intro r hr
    exact List.count_filter (by simp [hr])
  · intro r hr
    have h2 : idMatches id (key r) ≠ true := fun h => hr (hn _ h)
    exact List.count_filter (by simp [h2])

theorem deleteOf_frame (k : Kind) (env : Env) (db : Db) (uid : Nat) (id : String)
    (names : Nat → Prop) (hn : ∀ key, idMatches id key = true → names key) :
    db.deleteFrame (deleteOf k env db uid id).2 k uid names := by
  cases k <;>
    simp only [deleteOf, deleteWorkout, deleteNutrition, deleteMetric, deleteMedication] <;>
    cases env.fault <;>
    simp only [Db.deleteFrame, if_true, reduceCtorEq, if_false, true_and, and_true] <;>
    first
      | exact onlyOwnRemoved_refl _ _ _ _ _
      | exact onlyOwnRemoved_filter _ _ _ _ _ hn _

theorem deleteFrame_refl (db : Db) (k : Kind) (uid : Nat) (names : Nat → Prop) :
    db.deleteFrame db k uid names := by
  cases k <;>
    simp only [Db.deleteFrame, if_true, reduceCtorEq, if_false, true_and, and_true] <;>
    exact onlyOwnRemoved_refl _ _ _ _ _

theorem handle_delete_frame (bc : Bcrypt) (env : Env) (db : Db) (sess : Session)
    (body : Body) (k : Kind) (id : String) (U : Nat) (hsess : sess.userId = some U)
    (names : Nat → Prop) (hn : ∀ key, idMatches id key = true → names key) :
    db.deleteFrame (handle bc env db sess ⟨.delete k id, body⟩).db k U names := by
  simp only [handle, requireAuth, hsess]
  split
  · exact deleteOf_frame k env db U id names hn
  · exact deleteFrame_refl db k U names

/-- Claim C3: a delete issued by user U on a kind with a record id removes a
record of that kind only if U owns it and the id names its key; the records of
other users, the other records of U and the tables of the other kinds stay as
they were. The id of the route is a text: it names the key `k` when SQLite
reads it, as a whole, as the number `k`, and it names at most one key; the
numeral of a key `i` names `i` and no other key, so a delete of the record id
`i` leaves every record whose key is not `i` as it was. -/
theorem delete_removes_only_own_record (bc : Bcrypt) (env : Env) (db : Db) (sess : Session)
    (body : Body) (k : Kind) (id : String) (U : Nat) (hsess : sess.userId = some U) :
    db.deleteFrame (handle bc env db sess ⟨.delete k id, body⟩).db k U (idNames id) ∧
      (∀ i, i < 2 ^ 63 → id = natText i →
        db.deleteFrame (handle bc env db sess ⟨.delete k id, body⟩).db k U fun key => key = i) ∧
      ∀ a b, idNames id a → idNames id b → a = b := by
  refine ⟨handle_delete_frame bc env db sess body k id U hsess _
    fun key h => (idMatches_iff id key).mp h, ?_, idNames_unique id⟩
  intro i hi hid
  apply handle_delete_frame bc env db sess body k id U hsess
  intro key h
  rw [idMatches_iff, hid, idNames_natText i key hi] at h
  exact h

/-- Alice deletes among the workouts: the id `3` removes her workout 3 and
nothing else; the id `2`, a workout of bob, and the id `3.7`, which names no
key, remove nothing; the id `3.0000000000000001`, which SQLite reads as the
number 3, removes her workout 3. -/
theorem delete_removes_only_own_record_witness :
    (handle toyBcrypt sampleEnv sampleDb aliceSession ⟨.delete .workouts "3", []⟩).db.workouts =
        [sampleWorkout 1 1 200 "2024-01-01", sampleWorkout 2 2 999 "2024-01-01",
          sampleWorkout 4 1 50 "2023-12-31"] ∧
      (handle toyBcrypt sampleEnv sampleDb aliceSession ⟨.delete .workouts "2", []⟩).db =
        sampleDb ∧
      (handle toyBcrypt sampleEnv sampleDb aliceSession ⟨.delete .workouts "3.7", []⟩).db =
        sampleDb ∧
      (handle toyBcrypt sampleEnv sampleDb aliceSession
          ⟨.delete .workouts "3.0000000000000001", []⟩).db.workouts =
        [sampleWorkout 1 1 200 "2024-01-01", sampleWorkout 2 2 999 "2024-01-01",
          sampleWorkout 4 1 50 "2023-12-31"] ∧
      (sampleDb.deleteFrame
          (handle toyBcrypt sampleEnv sampleDb aliceSession ⟨.delete .workouts "3", []⟩).db
          .workouts 1 (idNames "3") ∧
        (∀ i, i < 2 ^ 63 → "3" = natText i →
          sampleDb.deleteFrame
            (handle toyBcrypt sampleEnv sampleDb aliceSession ⟨.delete .workouts "3", []⟩).db
            .workouts 1 fun key => key = i) ∧
        ∀ a b, idNames "3" a → idNames "3" b → a = b) :=
  ⟨by decide, by decide, by decide, by decide,
    delete_removes_only_own_record toyBcrypt sampleEnv sampleDb aliceSession []
      .workouts "3" 1 rfl⟩

theorem filter_delete_none {α : Type} (owner key : α → Nat) (l : List α) (id : String) (u : Nat)
    (h : ∀ r ∈ l, idMatches id (key r) = true → owner r ≠ u) :
    (l.filter fun x => !(idMatches id (key x) && decide (owner x = u))) = l := by
  rw [List.filter_eq_self]
  intro r hr
  by_cases h2 : idMatches id (key r) = true
  · simp [h r hr h2]
  · simp [h2]

theorem deleteOf_none (k : Kind) (env : Env) (db : Db) (u : Nat) (id : String)
    (h : ∀ p ∈ db.keys k, idMatches id p.1 = true → p.2 ≠ u) :
    (deleteOf k env db u id).2 = db := by
  cases k <;>
    simp only [deleteOf, deleteWorkout, deleteNutrition, deleteMetric, deleteMedication] <;>
    cases env.fault <;> try rfl
  · dsimp only
    rw [filter_delete_none WorkoutRow.user_id WorkoutRow.id]
    exact fun r hr => h (r.id, r.user_id) (List.mem_map_of_mem _ hr)
  · dsimp only
    rw [filter_delete_none NutritionRow.user_id NutritionRow.id]
    exact fun r hr => h (r.id, r.user_id) (List.mem_map_of_mem _ hr)
  · dsimp only
    rw [filter_delete_none MetricRow.user_id MetricRow.id]
    exact fun r hr => h (r.id, r.user_id) (List.mem_map_of_mem _ hr)
  · dsimp only
    rw [filter_delete_none MedicationRow.user_id MedicationRow.id]
    exact fun r hr => h (r.id, r.user_id) (List.mem_map_of_mem _ hr)

theorem deleteOf_resp (k : Kind) (env : Env) (db : Db) (u : Nat) (hf : env.fault = none) :
    ∃ m, ∀ id2, (deleteOf k env db u id2).1 = ⟨200, .message m⟩ := by
  cases k <;>
    simp only [deleteOf, deleteWorkout, deleteNutrition, deleteMetric, deleteMedication, hf] <;>
    exact ⟨_, fun _ => rfl⟩

/-- Claim C4: for an authenticated caller and a store that does not fail,
deleting an id that names the key of no record of the kind and deleting an id
that names the key of records of other users only give the same response, a
success message with status 200, and both leave the database as it was. -/
theorem delete_absent_same_as_foreign (bc : Bcrypt) (env : Env) (db : Db) (sess : Session)
    (body1 body2 : Body) (k : Kind) (id1 id2 : String) (U : Nat)
    (hsess : sess.userId = some U) (hU : U ≠ 0) (hf : env.fault = none)
    (h1 : ∀ p ∈ db.keys k, ¬idNames id1 p.1)
    (h2 : ∀ p ∈ db.keys k, idNames id2 p.1 → p.2 ≠ U) :
    (handle bc env db sess ⟨.delete k id1, body1⟩).resp =
        (handle bc env db sess ⟨.delete k id2, body2⟩).resp ∧
      (∃ m, (handle bc env db sess ⟨.delete k id1, body1⟩).resp = ⟨200, .message m⟩) ∧
      (handle bc env db sess ⟨.delete k id1, body1⟩).db = db ∧
      (handle bc env db sess ⟨.delete k id2, body2⟩).db = db := by
  simp only [handle, requireAuth, hsess, hU, ne_eq, not_false_eq_true, if_true]
  obtain ⟨m, hm⟩ := deleteOf_resp k env db U hf
  refine ⟨by rw [hm id1, hm id2], ⟨m, hm id1⟩, ?_, ?_⟩
  · apply deleteOf_none
    intro p hp hp1
    exact absurd ((idMatches_iff id1 p.1).mp hp1) (h1 p hp)
  · apply deleteOf_none
    intro p hp hp2
    exact h2 p hp ((idMatches_iff id2 p.1).mp hp2)

/-- Alice deletes among the nutrition entries, of which she owns entry 2 and
bob entry 1: the id `77` of no entry, the id `1` of the entry of bob and the id
`2.5`, which names no key, get the same answer and leave the store as it was,
while the id `2.0`, which SQLite reads as the number 2, removes her entry 2. -/
theorem delete_absent_same_as_foreign_witness :
    (handle toyBcrypt sampleEnv sampleDb aliceSession ⟨.delete .nutrition "77", []⟩).resp =
        ⟨200, .message "Nutrition entry deleted successfully"⟩ ∧
      (handle toyBcrypt sampleEnv sampleDb aliceSession ⟨.delete .nutrition "2.5", []⟩) =
        ⟨⟨200, .message "Nutrition entry deleted successfully"⟩, sampleDb, aliceSession⟩ ∧
      (handle toyBcrypt sampleEnv sampleDb aliceSession ⟨.delete .nutrition "2.0", []⟩).db ≠
        sampleDb ∧
      ((handle toyBcrypt sampleEnv sampleDb aliceSession ⟨.delete .nutrition "77", []⟩).resp =
          (handle toyBcrypt sampleEnv sampleDb aliceSession ⟨.delete .nutrition "1", []⟩).resp ∧
        (∃ m, (handle toyBcrypt sampleEnv sampleDb aliceSession
          ⟨.delete .nutrition "77", []⟩).resp = ⟨200, .message m⟩) ∧
        (handle toyBcrypt sampleEnv sampleDb aliceSession ⟨.delete .nutrition "77", []⟩).db =
          sampleDb ∧
        (handle toyBcrypt sampleEnv sampleDb aliceSession ⟨.delete .nutrition "1", []⟩).db =
          sampleDb) :=
  ⟨by decide, by decide, by decide,
    delete_absent_same_as_foreign toyBcrypt sampleEnv sampleDb aliceSession [] [] .nutrition
      "77" "1" 1 rfl (by decide) rfl
      (fun p hp h => absurd ((idMatches_iff "77" p.1).mpr h)
        ((by decide : ∀ q ∈ sampleDb.keys .nutrition, ¬idMatches "77" q.1 = true) p hp))
      (fun p hp h => (by decide : ∀ q ∈ sampleDb.keys .nutrition,
        idMatches "1" q.1 = true → q.2 ≠ 1) p hp ((idMatches_iff "1" p.1).mpr h))⟩

/-! ## Owner of an inserted record -/

theorem createOf_saved (k : Kind) (env : Env) (db : Db) (u : Nat) (body : Body)
    (h : (createOf k env db u body).1.status = 200) :
    ∃ i m, (createOf k env db u body).1.body = .saved i m ∧
      (createOf k env db u body).2.keys k = db.keys k ++ [(i, u)] := by
  cases k <;> simp only [createOf] at h ⊢
  · rcases createWorkout_cases env db u body with ⟨_, h1⟩ | ⟨r, hr, h1, h2⟩
    · exact absurd h h1
    · exact ⟨r.id, _, by rw [h1], by rw [h2]; simp [Db.keys, hr]⟩
  · rcases createNutrition_cases env db u body with ⟨_, h1⟩ | ⟨r, hr, h1, h2⟩
    · exact absurd h h1
    · exact ⟨r.id, _, by rw [h1], by rw [h2]; simp [Db.keys, hr]⟩
  · rcases createMetric_cases env db u body with ⟨_, h1⟩ | ⟨r, hr, h1, h2⟩
    · exact absurd h h1
    · exact ⟨r.id, _, by rw [h1], by rw [h2]; simp [Db.keys, hr]⟩
  · rcases createMedication_cases env db u body with ⟨_, h1⟩ | ⟨r, hr, h1, h2⟩
    · exact absurd h h1
    · exact ⟨r.id, _, by rw [h1], by rw [h2]; simp [Db.keys, hr]⟩

/-- Claim C5: when an insert of any kind succeeds, the table of that kind gains
exactly one row, and its owner is the user id of the caller's session, whatever
fields the request body carries. -/
theorem insert_owner_is_session_user (bc : Bcrypt) (env : Env) (db : Db) (sess : Session)
    (body : Body) (k : Kind)
    (hok : (handle bc env db sess ⟨.create k, body⟩).resp.status = 200) :
    ∃ U i m, sess.userId = some U ∧
      (handle bc env db sess ⟨.create k, body⟩).resp.body = .saved i m ∧
      (handle bc env db sess ⟨.create k, body⟩).db.keys k = db.keys k ++ [(i, U)] := by
  simp only [handle, requireAuth] at hok ⊢
  cases hs : sess.userId with
  | none => simp [hs] at hok
  | some U =>
    simp only [hs] at hok ⊢
    split at hok
    · rename_i hU
      simp only [hU, if_true, ne_eq, not_false_eq_true]
      obtain ⟨i, m, h1, h2⟩ := createOf_saved k env db U body hok
      exact ⟨U, i, m, rfl, h1, h2⟩
    · simp at hok

theorem insert_owner_is_session_user_witness :
    (handle toyBcrypt sampleEnv sampleDb aliceSession ⟨.create .medications,
        [("user_id", .num ⟨2, 0⟩), ("owner_user_id", .num ⟨2, 0⟩), ("name", .str "ibuprofen"),
          ("dosage", .str "200mg"), ("frequency", .str "daily"),
          ("start_date", .str "2024-01-01")]⟩).db.keys .medications =
        [(1, 1), (2, 2), (3, 1), (4, 1)] ∧
      ∃ U i m, aliceSession.userId = some U ∧
        (handle toyBcrypt sampleEnv sampleDb aliceSession ⟨.create .medications,
          [("user_id", .num ⟨2, 0⟩), ("owner_user_id", .num ⟨2, 0⟩), ("name", .str "ibuprofen"),
            ("dosage", .str "200mg"), ("frequency", .str "daily"),
            ("start_date", .str "2024-01-01")]⟩).resp.body = .saved i m ∧
        (handle toyBcrypt sampleEnv sampleDb aliceSession ⟨.create .medications,
          [("user_id", .num ⟨2, 0⟩), ("owner_user_id", .num ⟨2, 0⟩), ("name", .str "ibuprofen"),
            ("dosage", .str "200mg"), ("frequency", .str "daily"),
            ("start_date", .str "2024-01-01")]⟩).db.keys .medications =
          sampleDb.keys .medications ++ [(i, U)] :=
  ⟨by decide, insert_owner_is_session_user toyBcrypt sampleEnv sampleDb aliceSession _
    .medications (by decide)⟩

/-! ## The authentication gate -/

/-- Claim C6: on every route registered with `requireAuth` (profile, summary,
list, create and delete of the four kinds), a request whose session has no
truthy `userId` gets status 401 with the error `Authentication required`; the
handler behind the gate is not run, whatever it is, and the database and the
session stay as they were. -/
theorem unauthenticated_request_rejected (bc : Bcrypt) (env : Env) (db : Db) (sess : Session)
    (req : Request) (hroute : req.route.protected = true) (hs : sess.authenticated = false) :
    handle bc env db sess req = ⟨⟨401, .error "Authentication required"⟩, db, sess⟩ ∧
      ∀ next : Nat → Outcome,
        requireAuth db sess next = ⟨⟨401, .error "Authentication required"⟩, db, sess⟩ := by
  have gate : ∀ next : Nat → Outcome,
      requireAuth db sess next = ⟨⟨401, .error "Authentication required"⟩, db, sess⟩ := by
    intro next
    unfold requireAuth
    cases hu : sess.userId with
    | none => rfl
    | some uid =>
      have : uid = 0 := by simpa [Session.authenticated, hu] using hs
      simp [this]
  obtain ⟨route, body⟩ := req
  cases route <;> first
    | exact ⟨gate _, gate⟩
    | simp [Route.protected] at hroute

theorem unauthenticated_request_rejected_witness :
    handle toyBcrypt sampleEnv sampleDb Session.empty ⟨.delete .workouts "1", []⟩ =
        ⟨⟨401, .error "Authentication required"⟩, sampleDb, Session.empty⟩ ∧
      ∀ next : Nat → Outcome, requireAuth sampleDb Session.empty next =
        ⟨⟨401, .error "Authentication required"⟩, sampleDb, Session.empty⟩ :=
  unauthenticated_request_rejected toyBcrypt sampleEnv sampleDb Session.empty
    ⟨.delete .workouts "1", []⟩ rfl rfl

/-! ## Login and registration -/

/-- With a store that does not fail, a login naming a user that does not exist
and a login naming an existing user with a password the hash comparison
rejects get the same response, status 400 with the error
`Invalid username or password`; neither changes the session or the database.
The comparison rejects a password only when the password is a text: on any
other value it throws. -/
theorem login_failures_indistinguishable (bc : Bcrypt) (env : Env) (db : Db) (sess : Session)
    (body1 body2 : Body) (user : UserRow)
    (hu1 : (body1.get "username").truthy = true) (hp1 : (body1.get "password").truthy = true)
    (hu2 : (body2.get "username").truthy = true) (hp2 : (body2.get "password").truthy = true)
    (hf : env.fault = none)
    (hunknown : findUser db (body1.get "username") = none)
    (hknown : findUser db (body2.get "username") = some user)
    (hwrong : bcryptCompare bc (body2.get "password") user.password.toJs = some false) :
    handle bc env db sess ⟨.login, body1⟩ =
        ⟨⟨400, .error "Invalid username or password"⟩, db, sess⟩ ∧
      handle bc env db sess ⟨.login, body2⟩ =
        ⟨⟨400, .error "Invalid username or password"⟩, db, sess⟩ := by
  constructor
  · simp only [handle, login, hu1, hp1, hf, hunknown]
    rfl
  · simp only [handle, login, hu2, hp2, hf, hknown, hwrong]
    rfl

theorem login_failures_indistinguishable_witness :
    handle toyBcrypt sampleEnv sampleDb Session.empty
        ⟨.login, [("username", .str "carol"), ("password", .str "secret1")]⟩ =
        ⟨⟨400, .error "Invalid username or password"⟩, sampleDb, Session.empty⟩ ∧
      handle toyBcrypt sampleEnv sampleDb Session.empty
        ⟨.login, [("username", .str "alice"), ("password", .str "secret2")]⟩ =
        ⟨⟨400, .error "Invalid username or password"⟩, sampleDb, Session.empty⟩ :=
  login_failures_indistinguishable toyBcrypt sampleEnv sampleDb Session.empty
    [("username", .str "carol"), ("password", .str "secret1")]
    [("username", .str "alice"), ("password", .str "secret2")]
    (sampleUser 1 "alice" "$12$s$secret1") rfl rfl rfl rfl rfl (by decide) (by decide) (by decide)

/-- Claim C7, the code at the failing input: with the password the number
123456, a login naming the existing user alice is answered 500 with
`Internal server error`, the comparison of the hashing library throwing on a
password that is not a text, while the same login naming the unknown user carol
is answered 400 with `Invalid username or password`; the two responses differ,
so the response tells whether the username exists. Neither login changes the
session or the database. With the same password given as a text the two logins
get one response. -/
theorem login_number_password_reveals_username :
    handle toyBcrypt sampleEnv sampleDb Session.empty
        ⟨.login, [("username", .str "alice"), ("password", .num ⟨123456, 0⟩)]⟩ =
        ⟨⟨500, .error "Internal server error"⟩, sampleDb, Session.empty⟩ ∧
      handle toyBcrypt sampleEnv sampleDb Session.empty
        ⟨.login, [("username", .str "carol"), ("password", .num ⟨123456, 0⟩)]⟩ =
        ⟨⟨400, .error "Invalid username or password"⟩, sampleDb, Session.empty⟩ ∧
      (handle toyBcrypt sampleEnv sampleDb Session.empty
        ⟨.login, [("username", .str "alice"), ("password", .num ⟨123456, 0⟩)]⟩).resp ≠
        (handle toyBcrypt sampleEnv sampleDb Session.empty
          ⟨.login, [("username", .str "carol"), ("password", .num ⟨123456, 0⟩)]⟩).resp ∧
      (handle toyBcrypt sampleEnv sampleDb Session.empty
        ⟨.login, [("username", .str "alice"), ("password", .str "123456")]⟩).resp =
        (handle toyBcrypt sampleEnv sampleDb Session.empty
          ⟨.login, [("username", .str "carol"), ("password", .str "123456")]⟩).resp := by
  decide

theorem bindText_truthy (v : JsVal) (h : v.truthy = true) : ∃ t, bindText v = .text t := by
  cases v with
  | undefined => simp [JsVal.truthy] at h
  | null => simp [JsVal.truthy] at h
  | bool b => exact ⟨_, rfl⟩
  | num d => exact ⟨_, rfl⟩
  | str s => exact ⟨_, rfl⟩

theorem sqlEq_bindText_self (v : JsVal) (h : v.truthy = true) :
    sqlEq (bindText v) (bindText v) = true := by
  obtain ⟨t, ht⟩ := bindText_truthy v h
  simp [ht, sqlEq]

/-- The two ways a registration ends: refused, with database and session as
they were, or a new row appended to `users` and the session bound to its key. -/
theorem register_cases (bc : Bcrypt) (env : Env) (db : Db) (sess : Session) (body : Body) :
    ((register bc env db sess body).db = db ∧ (register bc env db sess body).sess = sess ∧
        (register bc env db sess body).resp.status ≠ 200) ∨
      ∃ (p : String) (row : UserRow), body.get "password" = .str p ∧
        (body.get "username").truthy = true ∧ (JsVal.str p).truthy = true ∧
        (db.users.any fun u => sqlEq u.username (bindText (body.get "username"))) = false ∧
        row.username = bindText (body.get "username") ∧
        row.password = .text (bc.hash p 12 env.salt) ∧
        register bc env db sess body =
          ⟨⟨200, .user "Account created successfully!" row.id (body.get "username")⟩,
            { db with users := db.users ++ [row], usersSeq := row.id },
            ⟨some row.id, body.get "username"⟩⟩ := by
  unfold register
  dsimp only
  by_cases hreq : (!(body.get "username").truthy || !(body.get "password").truthy ||
      !(body.get "email").truthy) = true
  · rw [if_pos hreq]
    exact Or.inl ⟨rfl, rfl, by simp⟩
  · rw [if_neg hreq]
    by_cases hlen : (body.get "password").lengthLt 6 = true
    · rw [if_pos hlen]
      exact Or.inl ⟨rfl, rfl, by simp⟩
    · rw [if_neg hlen]
      cases hpw : body.get "password" with
      | undefined => exact Or.inl ⟨rfl, rfl, by simp [bcryptHash]⟩
      | null => exact Or.inl ⟨rfl, rfl, by simp [bcryptHash]⟩
      | bool b => exact Or.inl ⟨rfl, rfl, by simp [bcryptHash]⟩
      | num d => exact Or.inl ⟨rfl, rfl, by simp [bcryptHash]⟩
      | str p =>
        simp only [bcryptHash, insertUser]
        cases hf : env.fault with
        | some msg =>
          dsimp only
          split <;> exact Or.inl ⟨rfl, rfl, by simp⟩
        | none =>
          dsimp only
          by_cases hdup :
              (db.users.any fun u => sqlEq u.username (bindText (body.get "username"))) = true
          · rw [if_pos hdup]
            dsimp only
            split <;> exact Or.inl ⟨rfl, rfl, by simp⟩
          · rw [if_neg hdup]
            have hu : (body.get "username").truthy = true := by
              cases h : (body.get "username").truthy
              · simp [h] at hreq
              · rfl
            have hpt : (JsVal.str p).truthy = true := by
              cases h : (JsVal.str p).truthy
              · simp [hpw, h] at hreq
              · rfl
            exact Or.inr ⟨p, ⟨nextId (db.users.map (·.id)) db.usersSeq,
              bindText (body.get "username"), .text (bc.hash p 12 env.salt),
              bindText (body.get "email"), affNumeric (bind (body.get "age")),
              bindText (body.get "gender"), env.now⟩, rfl, hu, hpt, by simpa using hdup, rfl, rfl, rfl⟩

theorem findUser_after_insert (db : Db) (row : UserRow) (seq : Nat) (u : JsVal)
    (hu : u.truthy = true) (hrow : row.username = bindText u)
    (hnew : (db.users.any fun r => sqlEq r.username (bindText u)) = false) :
    findUser { db with users := db.users ++ [row], usersSeq := seq } u = some row := by
  have hnone : (db.users.find? fun r => sqlEq r.username (bindText u)) = none := by
    rw [List.find?_eq_none]
    intro x hx
    rw [List.any_eq_false] at hnew
    exact hnew x hx
  simp only [findUser, List.find?_append, hnone, Option.none_or]
  simp [List.find?, hrow, sqlEq_bindText_self u hu]

/-- Claim C8: when a registration succeeds with user id `i`, a login on the
resulting database with the same username and password succeeds and binds the
session to `i`, provided the hash comparison accepts the password against the
hash stored for it and the store does not fail. -/
theorem register_then_login_same_user (bc : Bcrypt) (env env2 : Env) (db : Db)
    (sess sess2 : Session) (body body2 : Body) (i : Nat) (m : String) (name : JsVal)
    (hreg : (handle bc env db sess ⟨.register, body⟩).resp = ⟨200, .user m i name⟩)
    (hbc : ∀ p, body.get "password" = .str p → bc.compare p (bc.hash p 12 env.salt) = true)
    (hf : env2.fault = none)
    (hu : body2.get "username" = body.get "username")
    (hp : body2.get "password" = body.get "password") :
    ∃ name2, handle bc env2 (handle bc env db sess ⟨.register, body⟩).db sess2 ⟨.login, body2⟩ =
      ⟨⟨200, .user "Login successful!" i name2⟩, (handle bc env db sess ⟨.register, body⟩).db,
        ⟨some i, name2⟩⟩ := by
  simp only [handle] at hreg ⊢
  rcases register_cases bc env db sess body with
    ⟨_, _, hno⟩ | ⟨p, row, hpw, hname, hpt, hnew, hrn, hrp, hout⟩
  · rw [hreg] at hno
    exact absurd rfl hno
  · rw [hout] at hreg ⊢
    have hi : row.id = i := by
      simp only [Response.mk.injEq, Reply.user.injEq] at hreg
      exact hreg.2.2.1
    subst hi
    have hfind := findUser_after_insert db row row.id (body.get "username") hname hrn hnew
    have hcmp : bcryptCompare bc (.str p) row.password.toJs = some true := by
      rw [hrp]
      simp only [SqlVal.toJs, bcryptCompare, hbc p hpw]
    refine ⟨row.username.toJs, ?_⟩
    simp only [login, hu, hp, hname, hf, hfind]
    rw [hpw]
    simp only [hpt, hcmp]
    rfl

theorem register_then_login_same_user_witness :
    ∃ name2, handle toyBcrypt sampleEnv
        (handle toyBcrypt sampleEnv sampleDb Session.empty
          ⟨.register, [("username", .str "carol"), ("password", .str "secret3"),
            ("email", .str "c@example.com")]⟩).db Session.empty
        ⟨.login, [("username", .str "carol"), ("password", .str "secret3")]⟩ =
      ⟨⟨200, .user "Login successful!" 3 name2⟩,
        (handle toyBcrypt sampleEnv sampleDb Session.empty
          ⟨.register, [("username", .str "carol"), ("password", .str "secret3"),
            ("email", .str "c@example.com")]⟩).db, ⟨some 3, name2⟩⟩ :=
  register_then_login_same_user toyBcrypt sampleEnv sampleEnv sampleDb Session.empty Session.empty
    [("username", .str "carol"), ("password", .str "secret3"), ("email", .str "c@example.com")]
    [("username", .str "carol"), ("password", .str "secret3")] 3
    "Account created successfully!" (.str "carol") (by decide)
    (by intro p hp; cases hp; decide) rfl rfl rfl

/-- Claim C9: a registration in which username, password or email is missing
(absent, null or empty), or whose password is a string of fewer than 6 UTF-16
code units, is answered with status 400 and one of the two validation messages;
no user row is created and the session is left as it was. -/
theorem register_rejects_invalid_input (bc : Bcrypt) (env : Env) (db : Db) (sess : Session)
    (body : Body)
    (h : (body.get "username").truthy = false ∨ (body.get "password").truthy = false ∨
      (body.get "email").truthy = false ∨
      ∃ p, body.get "password" = .str p ∧ jsLength p < 6) :
    ((handle bc env db sess ⟨.register, body⟩).resp =
          ⟨400, .error "Username, password, and email are required"⟩ ∨
        (handle bc env db sess ⟨.register, body⟩).resp =
          ⟨400, .error "Password must be at least 6 characters long"⟩) ∧
      (handle bc env db sess ⟨.register, body⟩).db = db ∧
      (handle bc env db sess ⟨.register, body⟩).sess = sess := by
  simp only [handle, register]
  by_cases hreq : (!(body.get "username").truthy || !(body.get "password").truthy ||
      !(body.get "email").truthy) = true
  · rw [if_pos hreq]
    exact ⟨Or.inl rfl, rfl, rfl⟩
  · rw [if_neg hreq]
    rcases h with h | h | h | ⟨p, hp, hlen⟩
    · simp [h] at hreq
    · simp [h] at hreq
    · simp [h] at hreq
    · have hlt : (body.get "password").lengthLt 6 = true := by
        simp [hp, JsVal.lengthLt, hlen]
      rw [if_pos hlt]
      exact ⟨Or.inr rfl, rfl, rfl⟩

theorem register_rejects_invalid_input_witness :
    ((handle toyBcrypt sampleEnv sampleDb Session.empty
          ⟨.register, [("username", .str "carol"), ("password", .str "abc"),
            ("email", .str "c@example.com")]⟩).resp =
          ⟨400, .error "Username, password, and email are required"⟩ ∨
        (handle toyBcrypt sampleEnv sampleDb Session.empty
          ⟨.register, [("username", .str "carol"), ("password", .str "abc"),
            ("email", .str "c@example.com")]⟩).resp =
          ⟨400, .error "Password must be at least 6 characters long"⟩) ∧
      (handle toyBcrypt sampleEnv sampleDb Session.empty
        ⟨.register, [("username", .str "carol"), ("password", .str "abc"),
          ("email", .str "c@example.com")]⟩).db = sampleDb ∧
      (handle toyBcrypt sampleEnv sampleDb Session.empty
        ⟨.register, [("username", .str "carol"), ("password", .str "abc"),
          ("email", .str "c@example.com")]⟩).sess = Session.empty :=
  register_rejects_invalid_input toyBcrypt sampleEnv sampleDb Session.empty
    [("username", .str "carol"), ("password", .str "abc"), ("email", .str "c@example.com")]
    (Or.inr (Or.inr (Or.inr ⟨"abc", rfl, by decide⟩)))

theorem register_keeps_usernames_unique (bc : Bcrypt) (env : Env) (db : Db) (sess : Session)
    (body : Body) (h : db.uniqueUsernames) : (register bc env db sess body).db.uniqueUsernames := by
  rcases register_cases bc env db sess body with
    ⟨hdb, _, _⟩ | ⟨p, row, _, _, _, hnew, hrn, _, hout⟩
  · rw [hdb]
    exact h
  · rw [hout]
    simp only [Db.uniqueUsernames, List.pairwise_append, List.pairwise_singleton, true_and,
      List.mem_singleton]
    refine ⟨h, fun a ha b hb => ?_⟩
    rw [List.any_eq_false] at hnew
    rw [hb, hrn]
    simpa using hnew a ha

/-- Claim C10: when the store holds a user whose username is the one requested
and the other fields are valid (email present, password a string of at least 6
code units), registration answers status 400 `Username already exists` and
leaves the database and the session as they were; and no registration, of any
body, makes two rows of `users` share a username. -/
theorem register_duplicate_username_rejected (bc : Bcrypt) (env : Env) (db : Db)
    (sess : Session) (body : Body) (p : String)
    (hu : (body.get "username").truthy = true) (he : (body.get "email").truthy = true)
    (hp : body.get "password" = .str p) (hlen : 6 ≤ jsLength p) (hf : env.fault = none)
    (hex : ∃ r ∈ db.users, r.username = bindText (body.get "username")) :
    handle bc env db sess ⟨.register, body⟩ =
        ⟨⟨400, .error "Username already exists"⟩, db, sess⟩ ∧
      ∀ body2 : Body, db.uniqueUsernames →
        (handle bc env db sess ⟨.register, body2⟩).db.uniqueUsernames := by
  refine ⟨?_, fun body2 h => register_keeps_usernames_unique bc env db sess body2 h⟩
  obtain ⟨r, hr, hname⟩ := hex
  have hpt : (JsVal.str p).truthy = true := by
    have : p ≠ "" := by
      intro h0
      rw [h0] at hlen
      exact absurd hlen (by decide)
    simp [JsVal.truthy, this]
  have hdup : (db.users.any fun u => sqlEq u.username (bindText (body.get "username"))) = true := by
    rw [List.any_eq_true]
    exact ⟨r, hr, by rw [hname]; exact sqlEq_bindText_self _ hu⟩
  have hlt : (JsVal.str p).lengthLt 6 = false := by
    simp [JsVal.lengthLt, hlen]
  have hinc : includes uniqueFailed "UNIQUE constraint failed" = true := by decide
  simp only [handle, register, hp, hu, he, hpt, hlt, bcryptHash, insertUser, hf, hdup, hinc]
  rfl

theorem register_duplicate_username_rejected_witness :
    handle toyBcrypt sampleEnv sampleDb Session.empty
        ⟨.register, [("username", .str "alice"), ("password", .str "secret9"),
          ("email", .str "x@example.com")]⟩ =
        ⟨⟨400, .error "Username already exists"⟩, sampleDb, Session.empty⟩ ∧
      ∀ body2 : Body, sampleDb.uniqueUsernames →
        (handle toyBcrypt sampleEnv sampleDb Session.empty
          ⟨.register, body2⟩).db.uniqueUsernames :=
  register_duplicate_username_rejected toyBcrypt sampleEnv sampleDb Session.empty
    [("username", .str "alice"), ("password", .str "secret9"), ("email", .str "x@example.com")]
    "secret9" rfl rfl rfl (by decide) rfl ⟨sampleUser 1 "alice" "$12$s$secret1", by decide, rfl⟩

/-! ## Password storage -/

/-- Claim C11: a successful registration with password `p` appends a user row
whose password column is the hash `bcrypt.hash(p, 12)`, which is not `p` unless
the hash of `p` were `p` itself; and a login succeeds exactly when the user is
found and `bcrypt.compare` accepts the supplied password against the stored
value, so plain equality of the two plays no part. -/
theorem password_stored_hashed_and_checked_by_compare (bc : Bcrypt) (env : Env) (db : Db)
    (sess : Session) (body : Body) :
    (∀ m i name, (handle bc env db sess ⟨.register, body⟩).resp = ⟨200, .user m i name⟩ →
        ∃ p row, body.get "password" = .str p ∧
          (handle bc env db sess ⟨.register, body⟩).db.users = db.users ++ [row] ∧
          row.id = i ∧ row.password = .text (bc.hash p 12 env.salt) ∧
          (bc.hash p 12 env.salt ≠ p → row.password ≠ .text p)) ∧
      ((handle bc env db sess ⟨.login, body⟩).resp.status = 200 ↔
        (body.get "username").truthy = true ∧ (body.get "password").truthy = true ∧
          env.fault = none ∧
          ∃ user, findUser db (body.get "username") = some user ∧
            bcryptCompare bc (body.get "password") user.password.toJs = some true) := by
  constructor
  · intro m i name hreg
    simp only [handle] at hreg ⊢
    rcases register_cases bc env db sess body with
      ⟨_, _, hno⟩ | ⟨p, row, hpw, _, _, _, _, hrp, hout⟩
    · rw [hreg] at hno
      exact absurd rfl hno
    · rw [hout] at hreg ⊢
      simp only [Response.mk.injEq, Reply.user.injEq] at hreg
      refine ⟨p, row, hpw, rfl, hreg.2.2.1, hrp, fun hne heq => ?_⟩
      rw [hrp] at heq
      exact hne (SqlVal.text.inj heq)
  · simp only [handle, login]
    cases hu : (body.get "username").truthy
    · simp
    · cases hp : (body.get "password").truthy
      · simp
      · cases hf : env.fault with
        | some msg => simp
        | none =>
          cases hfind : findUser db (body.get "username") with
          | none => simp
          | some user =>
            cases hc : bcryptCompare bc (body.get "password") user.password.toJs with
            | none => simp [hc]
            | some b => cases b <;> simp [hc]

/-- With `markBcrypt`, a login whose password equals the stored column value
is refused, and the password whose hash is stored is accepted. -/
theorem login_plain_equality_example :
    (handle markBcrypt sampleEnv { sampleDb with users := [sampleUser 1 "alice" "#secret1"] }
        Session.empty ⟨.login, [("username", .str "alice"), ("password", .str "#secret1")]⟩).resp =
        ⟨400, .error "Invalid username or password"⟩ ∧
      (handle markBcrypt sampleEnv { sampleDb with users := [sampleUser 1 "alice" "#secret1"] }
        Session.empty ⟨.login, [("username", .str "alice"), ("password", .str "secret1")]⟩).resp =
        ⟨200, .user "Login successful!" 1 (.str "alice")⟩ := by
  decide

/-! ## Validation and coercion of inserts -/

theorem affNumeric_bindNum (x : JsNum) : affNumeric (bindNum x) = bindNum x := by
  cases x <;> rfl

/-- A workout insert that passes the presence check and the CHECK constraint,
on a store that does not fail, appends the row the statement binds. -/
theorem createWorkout_ok (env : Env) (db : Db) (U : Nat) (body : Body) (hf : env.fault = none)
    (ht : (body.get "type").truthy = true) (hd : (body.get "duration").truthy = true)
    (hi : (body.get "intensity").truthy = true) (hdate : (body.get "date").truthy = true)
    (hchk : checkIn (bindText (body.get "intensity")) ["low", "medium", "high"] = true) :
    createWorkout env db U body =
      (⟨200, .saved (nextId (db.workouts.map (·.id)) db.workoutsSeq)
          "Workout saved successfully!"⟩,
        { db with
          workouts := db.workouts ++ [⟨nextId (db.workouts.map (·.id)) db.workoutsSeq, U,
            bindText (body.get "type"), bindNum (parseInt (body.get "duration")),
            bindText (body.get "intensity"),
            bindNum (parseInt (body.get "calories_burned").orZero),
            bindText (body.get "notes"), affNumeric (bind (body.get "date")), env.now⟩],
          workoutsSeq := nextId (db.workouts.map (·.id)) db.workoutsSeq }) := by
  simp only [createWorkout, insertWorkout, ht, hd, hi, hdate, hf, hchk, affNumeric_bindNum]
  rfl

/-- A workout insert whose intensity fails the CHECK constraint is answered
with status 500 and stores nothing. -/
theorem createWorkout_check_fails (env : Env) (db : Db) (U : Nat) (body : Body)
    (hchk : checkIn (bindText (body.get "intensity")) ["low", "medium", "high"] = false) :
    (createWorkout env db U body).1.status ≠ 200 ∧ (createWorkout env db U body).2 = db := by
  rcases createWorkout_cases env db U body with h | ⟨r, _, h1, _⟩
  · exact ⟨h.2, h.1⟩
  · exfalso
    unfold createWorkout insertWorkout at h1
    dsimp only at h1
    split at h1
    · simp at h1
    · cases hf : env.fault with
      | some msg => simp [hf] at h1
      | none => simp [hf, hchk] at h1

theorem authed_create (bc : Bcrypt) (env : Env) (db : Db) (sess : Session) (body : Body)
    (k : Kind) (U : Nat) (hsess : sess.userId = some U) (hU : U ≠ 0) :
    handle bc env db sess ⟨.create k, body⟩ =
      ⟨(createOf k env db U body).1, (createOf k env db U body).2, sess⟩ := by
  simp [handle, requireAuth, hsess, hU]

/-- Claim C15: a workout insert that supplies type, duration, intensity and
date and no calories_burned, made by an authenticated user on a store that does
not fail, stores a row whose calories_burned is 0, unless the intensity is not
one of low, medium, high, in which case the CHECK constraint refuses the row
and nothing is stored. -/
theorem workout_without_calories_stores_zero (bc : Bcrypt) (env : Env) (db : Db)
    (sess : Session) (body : Body) (U : Nat) (hsess : sess.userId = some U) (hU : U ≠ 0)
    (hf : env.fault = none)
    (ht : (body.get "type").truthy = true) (hd : (body.get "duration").truthy = true)
    (hi : (body.get "intensity").truthy = true) (hdate : (body.get "date").truthy = true)
    (hcal : body.get "calories_burned" = .undefined) :
    (checkIn (bindText (body.get "intensity")) ["low", "medium", "high"] = false ∧
        (handle bc env db sess ⟨.create .workouts, body⟩).resp.status ≠ 200 ∧
        (handle bc env db sess ⟨.create .workouts, body⟩).db = db) ∨
      (checkIn (bindText (body.get "intensity")) ["low", "medium", "high"] = true ∧
        ∃ i row, (handle bc env db sess ⟨.create .workouts, body⟩).resp =
            ⟨200, .saved i "Workout saved successfully!"⟩ ∧
          (handle bc env db sess ⟨.create .workouts, body⟩).db.workouts = db.workouts ++ [row] ∧
          row.id = i ∧ row.user_id = U ∧ row.calories_burned = .num ⟨0, 0⟩) := by
  rw [authed_create bc env db sess body .workouts U hsess hU]
  simp only [createOf]
  cases hchk : checkIn (bindText (body.get "intensity")) ["low", "medium", "high"]
  · exact Or.inl ⟨rfl, createWorkout_check_fails env db U body hchk⟩
  · refine Or.inr ⟨rfl, ?_⟩
    rw [createWorkout_ok env db U body hf ht hd hi hdate hchk]
    refine ⟨_, _, rfl, rfl, rfl, rfl, ?_⟩
    simp only [hcal]
    decide

theorem workout_without_calories_stores_zero_witness :
    (checkIn (bindText (runBody.get "intensity")) ["low", "medium", "high"] = false ∧
        (handle toyBcrypt sampleEnv sampleDb aliceSession
          ⟨.create .workouts, runBody⟩).resp.status ≠ 200 ∧
        (handle toyBcrypt sampleEnv sampleDb aliceSession ⟨.create .workouts, runBody⟩).db =
          sampleDb) ∨
      (checkIn (bindText (runBody.get "intensity")) ["low", "medium", "high"] = true ∧
        ∃ i row, (handle toyBcrypt sampleEnv sampleDb aliceSession
            ⟨.create .workouts, runBody⟩).resp = ⟨200, .saved i "Workout saved successfully!"⟩ ∧
          (handle toyBcrypt sampleEnv sampleDb aliceSession
            ⟨.create .workouts, runBody⟩).db.workouts = sampleDb.workouts ++ [row] ∧
          row.id = i ∧ row.user_id = 1 ∧ row.calories_burned = .num ⟨0, 0⟩) :=
  workout_without_calories_stores_zero toyBcrypt sampleEnv sampleDb aliceSession runBody 1 rfl
    (by decide) rfl rfl rfl rfl rfl rfl

/-- The row the example insert stores. -/
theorem workout_example_row :
    (handle toyBcrypt sampleEnv sampleDb aliceSession ⟨.create .workouts, runBody⟩).db.workouts =
      sampleDb.workouts ++ [⟨5, 1, .text "run", .num ⟨30, 0⟩, .text "high", .num ⟨0, 0⟩, .null,
        .text "2024-01-01", "2024-01-01 10:00:00"⟩] := by
  decide

/-- Claim C16: for each kind, an insert by an authenticated user in which a
required field of the kind is missing (absent, null, empty, zero or false) is
answered with status 400 and a message that names every required field of the
kind; the database and the session are left as they were. -/
theorem missing_required_field_rejected (bc : Bcrypt) (env : Env) (db : Db) (sess : Session)
    (body : Body) (k : Kind) (U : Nat) (hsess : sess.userId = some U) (hU : U ≠ 0)
    (hmiss : ∃ f ∈ requiredFields k, (body.get f).truthy = false) :
    ∃ msg, handle bc env db sess ⟨.create k, body⟩ = ⟨⟨400, .error msg⟩, db, sess⟩ ∧
      ∀ f ∈ requiredFields k, namesField msg f = true := by
  rw [authed_create bc env db sess body k U hsess hU]
  obtain ⟨f, hf, hfalse⟩ := hmiss
  cases k
  · refine ⟨"Missing required fields: type, duration, intensity, and date are required",
      ?_, by decide⟩
    simp only [requiredFields, List.mem_cons, List.mem_singleton, List.not_mem_nil,
      or_false] at hf
    rcases hf with rfl | rfl | rfl | rfl <;> simp [createOf, createWorkout, hfalse]
  · refine ⟨"Missing required fields: meal_type, food_item, calories, and date are required",
      ?_, by decide⟩
    simp only [requiredFields, List.mem_cons, List.mem_singleton, List.not_mem_nil,
      or_false] at hf
    rcases hf with rfl | rfl | rfl | rfl <;> simp [createOf, createNutrition, hfalse]
  · refine ⟨"Date is required", ?_, by decide⟩
    simp only [requiredFields, List.mem_cons, List.mem_singleton, List.not_mem_nil,
      or_false] at hf
    subst hf
    simp [createOf, createMetric, hfalse]
  · refine ⟨"Missing required fields: name, dosage, frequency, and start_date are required",
      ?_, by decide⟩
    simp only [requiredFields, List.mem_cons, List.mem_singleton, List.not_mem_nil,
      or_false] at hf
    rcases hf with rfl | rfl | rfl | rfl <;> simp [createOf, createMedication, hfalse]

theorem missing_required_field_rejected_witness :
    ∃ msg, handle toyBcrypt sampleEnv sampleDb aliceSession
        ⟨.create .medications, [("name", .str "aspirin"), ("dosage", .str ""),
          ("frequency", .str "daily"), ("start_date", .str "2024-01-01")]⟩ =
        ⟨⟨400, .error msg⟩, sampleDb, aliceSession⟩ ∧
      ∀ f ∈ requiredFields .medications, namesField msg f = true :=
  missing_required_field_rejected toyBcrypt sampleEnv sampleDb aliceSession
    [("name", .str "aspirin"), ("dosage", .str ""), ("frequency", .str "daily"),
      ("start_date", .str "2024-01-01")] .medications 1 rfl (by decide)
    ⟨"dosage", by decide, by decide⟩

/-- Counterexample to claim C17 as stated: a workout whose duration is the text
`abc` is accepted and stored with a NULL duration, and a workout whose duration
is `-5` is accepted and stored with duration `-5`. -/
theorem workout_duration_not_validated :
    (handle toyBcrypt sampleEnv sampleDb aliceSession ⟨.create .workouts,
        [("type", .str "run"), ("duration", .str "abc"), ("intensity", .str "high"),
          ("date", .str "2024-01-01")]⟩).resp = ⟨200, .saved 5 "Workout saved successfully!"⟩ ∧
      (handle toyBcrypt sampleEnv sampleDb aliceSession ⟨.create .workouts,
        [("type", .str "run"), ("duration", .str "abc"), ("intensity", .str "high"),
          ("date", .str "2024-01-01")]⟩).db.workouts =
        sampleDb.workouts ++ [⟨5, 1, .text "run", .null, .text "high", .num ⟨0, 0⟩, .null,
          .text "2024-01-01", "2024-01-01 10:00:00"⟩] ∧
      (handle toyBcrypt sampleEnv sampleDb aliceSession ⟨.create .workouts,
        [("type", .str "run"), ("duration", .num ⟨-5, 0⟩), ("intensity", .str "high"),
          ("calories_burned", .str "-20"), ("date", .str "2024-01-01")]⟩).db.workouts =
        sampleDb.workouts ++ [⟨5, 1, .text "run", .num ⟨-5, 0⟩, .text "high", .num ⟨-20, 0⟩,
          .null, .text "2024-01-01", "2024-01-01 10:00:00"⟩] := by
  decide

/-- A duration beyond `2 ^ 53` is stored as the nearest double: the text
`9007199254740993` is stored as 9007199254740992. -/
theorem workout_duration_rounded :
    (handle toyBcrypt sampleEnv sampleDb aliceSession ⟨.create .workouts,
        [("type", .str "run"), ("duration", .str "9007199254740993"), ("intensity", .str "high"),
          ("date", .str "2024-01-01")]⟩).db.workouts =
      sampleDb.workouts ++ [⟨5, 1, .text "run", .num ⟨9007199254740992, 0⟩, .text "high",
        .num ⟨0, 0⟩, .null, .text "2024-01-01", "2024-01-01 10:00:00"⟩] := by
  decide

/-- Claim C17, amended: a workout insert whose duration is missing (absent,
null, empty or zero) is answered with status 400 and stores nothing; any other
duration is not validated but coerced: with type, intensity and date present,
an intensity among low, medium, high and a store that does not fail, the insert
succeeds and stores one row of the caller. Its duration is the whole number
given, negative or not, or the whole number at the head of the text given, or
NULL when the text has no number at its head; its calories_burned follows the
same reading, and is 0 when the calories_burned given is missing. -/
theorem workout_duration_coerced_not_validated (bc : Bcrypt) (env : Env) (db : Db)
    (sess : Session) (body : Body) (U : Nat) (hsess : sess.userId = some U) (hU : U ≠ 0) :
    ((body.get "duration").truthy = false →
        handle bc env db sess ⟨.create .workouts, body⟩ =
          ⟨⟨400, .error
            "Missing required fields: type, duration, intensity, and date are required"⟩,
            db, sess⟩) ∧
      ((body.get "duration").truthy = true → (body.get "type").truthy = true →
        (body.get "intensity").truthy = true → (body.get "date").truthy = true →
        checkIn (bindText (body.get "intensity")) ["low", "medium", "high"] = true →
        env.fault = none →
        ∃ i row, (handle bc env db sess ⟨.create .workouts, body⟩).resp =
            ⟨200, .saved i "Workout saved successfully!"⟩ ∧
          (handle bc env db sess ⟨.create .workouts, body⟩).db.workouts = db.workouts ++ [row] ∧
          row.id = i ∧ row.user_id = U ∧
          (∀ v, CoercesTo (body.get "duration") v → row.duration = v) ∧
          ((body.get "calories_burned").truthy = false → row.calories_burned = .num ⟨0, 0⟩) ∧
          ∀ v, CoercesTo (body.get "calories_burned") v → row.calories_burned = v) := by
  rw [authed_create bc env db sess body .workouts U hsess hU]
  simp only [createOf]
  constructor
  · intro hd
    simp [createWorkout, hd]
  · intro hd ht hi hdate hchk hf
    rw [createWorkout_ok env db U body hf ht hd hi hdate hchk]
    exact ⟨_, _, rfl, rfl, rfl, rfl,
      fun v hv => bindNum_parseInt_of_coerces _ v hv,
      (bindNum_parseInt_orZero _).1, (bindNum_parseInt_orZero _).2⟩

/-- Alice posts a workout with the duration `45min` and the calories_burned
`abc`: it is stored with the duration 45 and NULL for calories_burned. -/
theorem workout_duration_coerced_not_validated_witness :
    (handle toyBcrypt sampleEnv sampleDb aliceSession ⟨.create .workouts,
        [("type", .str "run"), ("duration", .str "45min"), ("intensity", .str "low"),
          ("calories_burned", .str "abc"), ("date", .str "2024-01-01")]⟩).db.workouts =
        sampleDb.workouts ++ [⟨5, 1, .text "run", .num ⟨45, 0⟩, .text "low", .null, .null,
          .text "2024-01-01", "2024-01-01 10:00:00"⟩] ∧
      CoercesTo (.str "45min") (.num ⟨45, 0⟩) ∧ CoercesTo (.str "abc") .null ∧
      ∃ i row, (handle toyBcrypt sampleEnv sampleDb aliceSession ⟨.create .workouts,
          [("type", .str "run"), ("duration", .str "45min"), ("intensity", .str "low"),
            ("calories_burned", .str "abc"), ("date", .str "2024-01-01")]⟩).resp =
          ⟨200, .saved i "Workout saved successfully!"⟩ ∧
        (handle toyBcrypt sampleEnv sampleDb aliceSession ⟨.create .workouts,
          [("type", .str "run"), ("duration", .str "45min"), ("intensity", .str "low"),
            ("calories_burned", .str "abc"), ("date", .str "2024-01-01")]⟩).db.workouts =
          sampleDb.workouts ++ [row] ∧
        row.id = i ∧ row.user_id = 1 ∧
        (∀ v, CoercesTo (.str "45min") v → row.duration = v) ∧
        ((JsVal.str "abc").truthy = false → row.calories_burned = .num ⟨0, 0⟩) ∧
        ∀ v, CoercesTo (.str "abc") v → row.calories_burned = v :=
  ⟨by decide, Or.inr (Or.inl ⟨45, "min", by decide, by decide, by decide, rfl⟩),
    Or.inr (Or.inr ⟨"abc", by decide, rfl, rfl⟩),
    (workout_duration_coerced_not_validated toyBcrypt sampleEnv sampleDb aliceSession
      [("type", .str "run"), ("duration", .str "45min"), ("intensity", .str "low"),
        ("calories_burned", .str "abc"), ("date", .str "2024-01-01")] 1 rfl (by decide)).2
      rfl rfl rfl rfl (by decide) rfl⟩

/-! ## Inputs on which the handlers miss the intended behaviour -/

/-- Claim C18, the code at the failing input: a nutrition insert with calories
the number 0 is answered 400 as if calories were missing and stores nothing,
while the same insert with calories the text `0` is accepted and stored with
calories 0 and protein, carbs and fats 0. -/
theorem nutrition_zero_calories_rejected :
    handle toyBcrypt sampleEnv sampleDb aliceSession ⟨.create .nutrition,
        [("meal_type", .str "snack"), ("food_item", .str "water"), ("calories", .num ⟨0, 0⟩),
          ("date", .str "2024-01-01")]⟩ =
        ⟨⟨400, .error
          "Missing required fields: meal_type, food_item, calories, and date are required"⟩,
          sampleDb, aliceSession⟩ ∧
      (handle toyBcrypt sampleEnv sampleDb aliceSession ⟨.create .nutrition,
        [("meal_type", .str "snack"), ("food_item", .str "water"), ("calories", .str "0"),
          ("date", .str "2024-01-01")]⟩).db.nutrition =
        sampleDb.nutrition ++ [⟨3, 1, .text "snack", .text "water", .num ⟨0, 0⟩, .num ⟨0, 0⟩,
          .num ⟨0, 0⟩, .num ⟨0, 0⟩, .text "2024-01-01", "2024-01-01 10:00:00"⟩] := by
  decide

/-- Claim C19, the code at the failing input: a medication insert that omits
is_active stores is_active 0, and the count of active medications of the
summary stays at 1; the same insert with is_active true raises it to 2. -/
theorem medication_without_is_active_stored_inactive :
    (handle toyBcrypt sampleEnv sampleDb aliceSession ⟨.create .medications,
        [("name", .str "ibuprofen"), ("dosage", .str "200mg"), ("frequency", .str "daily"),
          ("start_date", .str "2024-01-01")]⟩).db.medications =
        sampleDb.medications ++ [⟨4, 1, .text "ibuprofen", .text "200mg", .text "daily", .null,
          .text "2024-01-01", .null, .num ⟨0, 0⟩, "2024-01-01 10:00:00"⟩] ∧
      (handle toyBcrypt sampleEnv
        (handle toyBcrypt sampleEnv sampleDb aliceSession ⟨.create .medications,
          [("name", .str "ibuprofen"), ("dosage", .str "200mg"), ("frequency", .str "daily"),
            ("start_date", .str "2024-01-01")]⟩).db aliceSession ⟨.summary, []⟩).resp =
        ⟨200, .summary 2 ⟨500, 0⟩ ⟨450, 0⟩ 1⟩ ∧
      (handle toyBcrypt sampleEnv
        (handle toyBcrypt sampleEnv sampleDb aliceSession ⟨.create .medications,
          [("name", .str "ibuprofen"), ("dosage", .str "200mg"), ("frequency", .str "daily"),
            ("start_date", .str "2024-01-01"), ("is_active", .bool true)]⟩).db aliceSession
        ⟨.summary, []⟩).resp = ⟨200, .summary 2 ⟨500, 0⟩ ⟨450, 0⟩ 2⟩ := by
  decide

/-- Claim C20, the code at the failing input: a metric insert with a date and
the mood left out as the empty string is answered with status 500 and stores
nothing, the CHECK constraint on mood refusing the empty text; the same insert
with the mood absent is accepted, with the numeric fields stored as 0. -/
theorem metric_with_empty_mood_fails :
    handle toyBcrypt sampleEnv sampleDb aliceSession ⟨.create .metrics,
        [("weight", .str ""), ("height", .str ""), ("blood_pressure", .str ""),
          ("heart_rate", .str ""), ("sleep_hours", .str ""), ("water_intake", .str ""),
          ("mood", .str ""), ("notes", .str ""), ("date", .str "2024-01-01")]⟩ =
        ⟨⟨500, .error ("Failed to save health metrics: " ++
          checkFailed "mood IN ('excellent', 'good', 'fair', 'poor', 'terrible')")⟩,
          sampleDb, aliceSession⟩ ∧
      (handle toyBcrypt sampleEnv sampleDb aliceSession ⟨.create .metrics,
        [("weight", .str ""), ("height", .str ""), ("blood_pressure", .str ""),
          ("heart_rate", .str ""), ("sleep_hours", .str ""), ("water_intake", .str ""),
          ("notes", .str ""), ("date", .str "2024-01-01")]⟩).db.health_metrics =
        sampleDb.health_metrics ++ [⟨3, 1, .num ⟨0, 0⟩, .num ⟨0, 0⟩, .text "", .num ⟨0, 0⟩,
          .num ⟨0, 0⟩, .num ⟨0, 0⟩, .null, .text "", .text "2024-01-01",
          "2024-01-01 10:00:00"⟩] := by
  decide

/-! ## The summary -/

theorem authed_summary (bc : Bcrypt) (env : Env) (db : Db) (sess : Session) (body : Body)
    (U : Nat) (hsess : sess.userId = some U) (hU : U ≠ 0) :
    handle bc env db sess ⟨.summary, body⟩ = ⟨summary env db U, db, sess⟩ := by
  simp [handle, requireAuth, hsess, hU]

theorem dateIs_iff (date : SqlVal) (today : String) (h : sqlNumericOfText today = none) :
    dateIs date today = decide (date = .text today) := by
  simp only [dateIs, affNumeric, h]
  cases date with
  | null => simp [sqlEq]
  | num d => simp [sqlEq]
  | text s => simp [sqlEq]

theorem isActive_iff (v : SqlVal) : sqlEq v (.num (Dec.ofInt 1)) = v.isNumber 1 := by
  cases v with
  | null => rfl
  | text s => rfl
  | num d =>
    rw [Bool.eq_iff_iff, sqlEq_num_iff]
    simp [SqlVal.isNumber, Dec.value_ofInt]

theorem sumInt64_fits (acc : Int) (vals : List Int)
    (h : acc.natAbs + (vals.map Int.natAbs).sum < 2 ^ 63) :
    sumInt64 acc vals = some (acc + vals.sum) := by
  induction vals generalizing acc with
  | nil => simp [sumInt64]
  | cons v rest ih =>
    simp only [List.map_cons, List.sum_cons] at h
    unfold sumInt64
    rw [if_pos (by constructor <;> omega), ih (acc + v) (by omega), List.sum_cons, add_assoc]

/-- The integers `SUM` adds up over values that are NULL or whole numbers. -/
theorem integers_of_whole (vals : List SqlVal) (hw : ∀ v ∈ vals, v.isWhole = true)
    (hfit : (vals.map fun v => v.whole.natAbs).sum < 2 ^ 63) :
    ((sumTerms vals).all fun v => v.integer?.isSome) = true ∧
      ((sumTerms vals).filterMap SqlVal.integer?).sum = (vals.map SqlVal.whole).sum ∧
      (((sumTerms vals).filterMap SqlVal.integer?).map Int.natAbs).sum =
        (vals.map fun v => v.whole.natAbs).sum := by
  induction vals with
  | nil => exact ⟨rfl, rfl, rfl⟩
  | cons v rest ih =>
    rw [List.map_cons, List.sum_cons] at hfit
    obtain ⟨h1, h2, h3⟩ := ih (fun x hx => hw x (List.mem_cons_of_mem _ hx)) (by omega)
    have hv := hw v (List.mem_cons_self _ _)
    cases v with
    | null =>
      have hterms : sumTerms (.null :: rest) = sumTerms rest := rfl
      rw [hterms, List.map_cons, List.sum_cons, List.map_cons, List.sum_cons]
      exact ⟨h1, by rw [h2]; simp [SqlVal.whole], by rw [h3]; simp [SqlVal.whole]⟩
    | text s => simp [SqlVal.isWhole] at hv
    | num d =>
      obtain ⟨m, e⟩ := d
      simp only [SqlVal.isWhole, decide_eq_true_eq] at hv
      subst hv
      have hm : (SqlVal.num ⟨m, 0⟩).whole = m := rfl
      rw [hm] at hfit
      have hint : (SqlVal.num ⟨m, 0⟩).integer? = some m := by
        simp only [SqlVal.integer?, Dec.norm]
        rw [if_pos ⟨trivial, by omega, by omega⟩]
      have hterms : sumTerms (.num ⟨m, 0⟩ :: rest) = .num ⟨m, 0⟩ :: sumTerms rest := rfl
      rw [hterms, List.all_cons, List.filterMap_cons_some hint, List.map_cons, List.sum_cons,
        List.map_cons, List.sum_cons, List.map_cons, List.sum_cons, hm, hint, h1, h2, h3]
      exact ⟨rfl, rfl, rfl⟩

/-- Over values that are NULL or whole numbers whose magnitudes add up to less
than `2 ^ 63`, `COALESCE(SUM(col), 0)` is the exact sum. -/
theorem sumOrZero_whole (vals : List SqlVal) (hw : ∀ v ∈ vals, v.isWhole = true)
    (hfit : (vals.map fun v => v.whole.natAbs).sum < 2 ^ 63) :
    sumOrZero vals = .ok ⟨(vals.map SqlVal.whole).sum, 0⟩ := by
  obtain ⟨h1, h2, h3⟩ := integers_of_whole vals hw hfit
  unfold sumOrZero
  rw [if_pos h1, sumInt64_fits 0 _ (by rw [h3]; simpa using hfit), h2, zero_add]

/-- Counterexample to claim C12 as stated: alice, whose two workouts of today
total 500 kcal, inserts two more workouts of today with calories_burned
`9000000000000000000`; both are stored with that number, whose sum leaves the
64 bits of an integer, and the summary answers 500 with the message of the
store in place of the sum. And when she inserts one workout with
calories_burned `10000000000000000000`, a number beyond the 64 bits, which is
stored as a real, the sum is a real too: the summary gives 10000000000000000000
where the sum is 10000000000000000500. -/
theorem summary_fails_on_overflow :
    (handle toyBcrypt sampleEnv sampleDb aliceSession ⟨.create .workouts, heavyBody⟩).db.workouts =
        sampleDb.workouts ++ [⟨5, 1, .text "run", .num ⟨30, 0⟩, .text "high",
          .num ⟨9000000000000000000, 0⟩, .null, .text "2024-01-01", "2024-01-01 10:00:00"⟩] ∧
      (handle toyBcrypt sampleEnv
        (handle toyBcrypt sampleEnv sampleDb aliceSession ⟨.create .workouts, heavyBody⟩).db
        aliceSession ⟨.summary, []⟩).resp =
        ⟨200, .summary 3 ⟨9000000000000000500, 0⟩ ⟨450, 0⟩ 1⟩ ∧
      (handle toyBcrypt sampleEnv
        (handle toyBcrypt sampleEnv
          (handle toyBcrypt sampleEnv sampleDb aliceSession ⟨.create .workouts, heavyBody⟩).db
          aliceSession ⟨.create .workouts, heavyBody⟩).db
        aliceSession ⟨.summary, []⟩).resp = ⟨500, .error "SQLITE_ERROR: integer overflow"⟩ ∧
      (handle toyBcrypt sampleEnv sampleDb aliceSession ⟨.create .workouts,
        [("type", .str "run"), ("duration", .num ⟨30, 0⟩), ("intensity", .str "high"),
          ("calories_burned", .str "10000000000000000000"),
          ("date", .str "2024-01-01")]⟩).db.workouts =
        sampleDb.workouts ++ [⟨5, 1, .text "run", .num ⟨30, 0⟩, .text "high",
          .num ⟨10000000000000000000, 0⟩, .null, .text "2024-01-01", "2024-01-01 10:00:00"⟩] ∧
      (handle toyBcrypt sampleEnv
        (handle toyBcrypt sampleEnv sampleDb aliceSession ⟨.create .workouts,
          [("type", .str "run"), ("duration", .num ⟨30, 0⟩), ("intensity", .str "high"),
            ("calories_burned", .str "10000000000000000000"),
            ("date", .str "2024-01-01")]⟩).db
        aliceSession ⟨.summary, []⟩).resp =
        ⟨200, .summary 3 ⟨10000000000000000000, 0⟩ ⟨450, 0⟩ 1⟩ := by
  decide

/-- Claim C12, amended: for an authenticated user U, a day `today` written as
a date (a text that is not a numeric literal) and a store that does not fail,
when the calories_burned of U's workouts dated today and the calories of U's
nutrition entries dated today are NULL or whole numbers whose magnitudes add up
to less than `2 ^ 63` each, the summary answers status 200 with: the number of
U's workouts dated today, the sum of their calories_burned, the sum of the
calories of U's nutrition entries dated today, and the number of U's
medications whose is_active is 1, whatever their dates; NULL counts for
nothing, so a sum over no row, or over rows whose value is NULL, is the
number 0. -/
theorem summary_counts_and_sums (bc : Bcrypt) (env : Env) (db : Db) (sess : Session)
    (body : Body) (U : Nat) (hsess : sess.userId = some U) (hU : U ≠ 0)
    (hf : env.fault = none) (hf2 : env.fault2 = none) (hf3 : env.fault3 = none)
    (htoday : sqlNumericOfText env.today = none)
    (hw1 : ∀ r ∈ db.workouts, r.user_id = U → r.date = .text env.today →
      r.calories_burned.isWhole = true)
    (hfit1 : ((db.workouts.filter fun r =>
      decide (r.user_id = U ∧ r.date = .text env.today)).map
        fun r => r.calories_burned.whole.natAbs).sum < 2 ^ 63)
    (hw2 : ∀ r ∈ db.nutrition, r.user_id = U → r.date = .text env.today →
      r.calories.isWhole = true)
    (hfit2 : ((db.nutrition.filter fun r =>
      decide (r.user_id = U ∧ r.date = .text env.today)).map
        fun r => r.calories.whole.natAbs).sum < 2 ^ 63) :
    (handle bc env db sess ⟨.summary, body⟩).resp =
      ⟨200, .summary
        (db.workouts.filter fun r => decide (r.user_id = U ∧ r.date = .text env.today)).length
        ⟨((db.workouts.filter fun r => decide (r.user_id = U ∧ r.date = .text env.today)).map
          fun r => r.calories_burned.whole).sum, 0⟩
        ⟨((db.nutrition.filter fun r => decide (r.user_id = U ∧ r.date = .text env.today)).map
          fun r => r.calories.whole).sum, 0⟩
        (db.medications.filter fun r =>
          decide (r.user_id = U) && r.is_active.isNumber 1).length⟩ := by
  have hw : workoutsToday db U env.today =
      db.workouts.filter fun r => decide (r.user_id = U ∧ r.date = .text env.today) := by
    unfold workoutsToday
    apply List.filter_congr
    intro r _
    rw [dateIs_iff _ _ htoday]
    simp
  have hn : nutritionToday db U env.today =
      db.nutrition.filter fun r => decide (r.user_id = U ∧ r.date = .text env.today) := by
    unfold nutritionToday
    apply List.filter_congr
    intro r _
    rw [dateIs_iff _ _ htoday]
    simp
  have hm : activeMedications db U =
      db.medications.filter fun r => decide (r.user_id = U) && r.is_active.isNumber 1 := by
    unfold activeMedications
    apply List.filter_congr
    intro r _
    rw [isActive_iff]
  have hs1 := sumOrZero_whole
    ((db.workouts.filter fun r => decide (r.user_id = U ∧ r.date = .text env.today)).map
      (·.calories_burned))
    (by
      intro v hv
      rw [List.mem_map] at hv
      obtain ⟨r, hr, rfl⟩ := hv
      rw [List.mem_filter, decide_eq_true_eq] at hr
      exact hw1 r hr.1 hr.2.1 hr.2.2)
    (by simpa [List.map_map, Function.comp] using hfit1)
  have hs2 := sumOrZero_whole
    ((db.nutrition.filter fun r => decide (r.user_id = U ∧ r.date = .text env.today)).map
      (·.calories))
    (by
      intro v hv
      rw [List.mem_map] at hv
      obtain ⟨r, hr, rfl⟩ := hv
      rw [List.mem_filter, decide_eq_true_eq] at hr
      exact hw2 r hr.1 hr.2.1 hr.2.2)
    (by simpa [List.map_map, Function.comp] using hfit2)
  rw [authed_summary bc env db sess body U hsess hU]
  simp only [summary, hf, hf2, hf3, hw, hn, hm, hs1, hs2, List.map_map]
  rfl

theorem summary_counts_and_sums_witness :
    (handle toyBcrypt sampleEnv sampleDb aliceSession ⟨.summary, []⟩).resp =
        ⟨200, .summary 2 ⟨500, 0⟩ ⟨450, 0⟩ 1⟩ ∧
      (handle toyBcrypt sampleEnv Db.empty aliceSession ⟨.summary, []⟩).resp =
        ⟨200, .summary 0 ⟨0, 0⟩ ⟨0, 0⟩ 0⟩ ∧
      (handle toyBcrypt sampleEnv sampleDb aliceSession ⟨.summary, []⟩).resp =
        ⟨200, .summary
          (sampleDb.workouts.filter fun r =>
            decide (r.user_id = 1 ∧ r.date = .text sampleEnv.today)).length
          ⟨((sampleDb.workouts.filter fun r =>
            decide (r.user_id = 1 ∧ r.date = .text sampleEnv.today)).map
              fun r => r.calories_burned.whole).sum, 0⟩
          ⟨((sampleDb.nutrition.filter fun r =>
            decide (r.user_id = 1 ∧ r.date = .text sampleEnv.today)).map
              fun r => r.calories.whole).sum, 0⟩
          (sampleDb.medications.filter fun r =>
            decide (r.user_id = 1) && r.is_active.isNumber 1).length⟩ :=
  ⟨by decide, by decide,
    summary_counts_and_sums toyBcrypt sampleEnv sampleDb aliceSession [] 1 rfl (by decide) rfl
      rfl rfl (by decide) (by decide) (by decide) (by decide) (by decide)⟩

/-! ## The order of the lists -/

theorem char_eq_of_toNat (a b : Char) (h : a.toNat = b.toNat) : a = b := by
  apply Char.ext
  apply UInt32.ext
  exact h

theorem charsLt_cons (a b : Char) (s t : List Char) :
    charsLt (a :: s) (b :: t) = true ↔ a.toNat < b.toNat ∨ (a = b ∧ charsLt s t = true) := by
  simp [charsLt]

theorem charsLt_asymm (s t : List Char) (h : charsLt s t = true) : charsLt t s = false := by
  induction s generalizing t with
  | nil => cases t <;> simp_all [charsLt]
  | cons a s ih =>
    cases t with
    | nil => simp [charsLt] at h
    | cons b t =>
      rw [charsLt_cons] at h
      rw [Bool.eq_false_iff, Ne, charsLt_cons]
      rintro (h2 | ⟨rfl, h2⟩)
      · rcases h with h | ⟨rfl, _⟩ <;> omega
      · rcases h with h | ⟨_, h⟩
        · omega
        · rw [ih t h] at h2
          exact Bool.false_ne_true h2

theorem charsLt_negTrans (s t u : List Char) (h : charsLt s u = true) :
    charsLt s t = true ∨ charsLt t u = true := by
  induction s generalizing t u with
  | nil =>
    cases u with
    | nil => simp [charsLt] at h
    | cons c u => cases t <;> simp [charsLt]
  | cons a s ih =>
    cases u with
    | nil => simp [charsLt] at h
    | cons c u =>
      cases t with
      | nil => simp [charsLt]
      | cons b t =>
        rw [charsLt_cons] at h
        rw [charsLt_cons, charsLt_cons]
        rcases Nat.lt_trichotomy a.toNat b.toNat with hab | hab | hab
        · exact Or.inl (Or.inl hab)
        · have hab2 := char_eq_of_toNat a b hab
          subst hab2
          rcases h with h | ⟨rfl, h⟩
          · exact Or.inr (Or.inl h)
          · rcases ih t u h with h1 | h1
            · exact Or.inl (Or.inr ⟨rfl, h1⟩)
            · exact Or.inr (Or.inr ⟨rfl, h1⟩)
        · rcases h with h | ⟨rfl, _⟩
          · exact Or.inr (Or.inl (by omega))
          · exact Or.inr (Or.inl hab)

theorem sqlLt_asymm (a b : SqlVal) (h : sqlLt a b = true) : sqlLt b a = false := by
  cases a <;> cases b <;> simp only [sqlLt] at h ⊢ <;> try contradiction
  · rw [Bool.eq_false_iff, Ne, Dec.lt_iff]
    rw [Dec.lt_iff] at h
    exact not_lt.mpr h.le
  · exact charsLt_asymm _ _ h

theorem sqlLt_negTrans (a b c : SqlVal) (h : sqlLt a c = true) :
    sqlLt a b = true ∨ sqlLt b c = true := by
  cases a <;> cases c <;> simp only [sqlLt] at h <;> try contradiction
  all_goals cases b <;> simp only [sqlLt] <;> try simp
  · rw [Dec.lt_iff] at h ⊢
    rw [Dec.lt_iff]
    rename_i x z y
    by_cases hxy : x.value < y.value
    · exact Or.inl hxy
    · exact Or.inr (lt_of_le_of_lt (not_lt.mp hxy) h)
  · exact charsLt_negTrans _ _ _ h

theorem descDesc_iff (a1 b1 a2 b2 : SqlVal) :
    descDesc a1 b1 a2 b2 = true ↔
      sqlLt b1 a1 = true ∨ (sqlLt a1 b1 = false ∧ sqlLt b2 a2 = true) := by
  simp [descDesc]

theorem descDesc_asymm (a1 b1 a2 b2 : SqlVal) (h : descDesc a1 b1 a2 b2 = true) :
    descDesc b1 a1 b2 a2 = false := by
  rw [Bool.eq_false_iff, Ne, descDesc_iff]
  rw [descDesc_iff] at h
  rintro (h2 | ⟨h2, h3⟩)
  · rcases h with h | ⟨h, _⟩
    · rw [sqlLt_asymm _ _ h] at h2
      exact Bool.false_ne_true h2
    · rw [h] at h2
      exact Bool.false_ne_true h2
  · rcases h with h | ⟨_, h⟩
    · rw [h] at h2
      exact Bool.false_ne_true h2.symm
    · rw [sqlLt_asymm _ _ h] at h3
      exact Bool.false_ne_true h3

theorem descDesc_negTrans (a1 b1 c1 a2 b2 c2 : SqlVal) (h : descDesc a1 c1 a2 c2 = true) :
    descDesc a1 b1 a2 b2 = true ∨ descDesc b1 c1 b2 c2 = true := by
  rw [descDesc_iff] at h
  rw [descDesc_iff, descDesc_iff]
  by_cases hba : sqlLt b1 a1 = true
  · exact Or.inl (Or.inl hba)
  by_cases hcb : sqlLt c1 b1 = true
  · exact Or.inr (Or.inl hcb)
  rcases h with h | ⟨hac, h⟩
  · rcases sqlLt_negTrans c1 b1 a1 h with h | h
    · exact absurd h hcb
    · exact absurd h hba
  · have hab : sqlLt a1 b1 = false := by
      cases hx : sqlLt a1 b1
      · rfl
      · rcases sqlLt_negTrans a1 c1 b1 hx with h1 | h1
        · rw [hac] at h1
          exact absurd h1 Bool.false_ne_true
        · exact absurd h1 hcb
    have hbc : sqlLt b1 c1 = false := by
      cases hx : sqlLt b1 c1
      · rfl
      · rcases sqlLt_negTrans b1 a1 c1 hx with h1 | h1
        · exact absurd h1 hba
        · rw [hac] at h1
          exact absurd h1 Bool.false_ne_true
    rcases sqlLt_negTrans c2 b2 a2 h with h | h
    · exact Or.inr (Or.inr ⟨hbc, h⟩)
    · exact Or.inl (Or.inr ⟨hab, h⟩)

theorem orderedDesc_of_not_before (a1 b1 a2 b2 : SqlVal) (h : descDesc b1 a1 b2 a2 = false) :
    orderedDesc a1 b1 a2 b2 := by
  rw [Bool.eq_false_iff, Ne, descDesc_iff, not_or, not_and] at h
  unfold orderedDesc
  cases hba : sqlLt b1 a1
  · right
    exact ⟨by simpa using h.1, rfl, by simpa using h.2 hba⟩
  · exact Or.inl rfl

theorem insertSorted_perm {α : Type} (before : α → α → Bool) (a : α) (l : List α) :
    (insertSorted before a l).Perm (a :: l) := by
  induction l with
  | nil => exact List.Perm.refl _
  | cons b l ih =>
    unfold insertSorted
    split
    · exact (List.Perm.cons b ih).trans (List.Perm.swap a b l)
    · exact List.Perm.refl _

theorem sortBy_perm {α : Type} (before : α → α → Bool) (l : List α) :
    (sortBy before l).Perm l := by
  induction l with
  | nil => exact List.Perm.refl _
  | cons a l ih =>
    have h : sortBy before (a :: l) = insertSorted before a (sortBy before l) := rfl
    rw [h]
    exact (insertSorted_perm before a _).trans (List.Perm.cons a ih)

theorem insertSorted_sorted {α : Type} (before : α → α → Bool)
    (hasymm : ∀ a b, before a b = true → before b a = false)
    (hneg : ∀ a b c, before a c = true → before a b = true ∨ before b c = true)
    (a : α) (l : List α) (hl : l.Pairwise fun x y => before y x = false) :
    (insertSorted before a l).Pairwise fun x y => before y x = false := by
  induction l with
  | nil => simp [insertSorted]
  | cons b l ih =>
    rw [List.pairwise_cons] at hl
    unfold insertSorted
    split
    · rename_i hba
      rw [List.pairwise_cons]
      refine ⟨fun x hx => ?_, ih hl.2⟩
      rw [mem_insertSorted] at hx
      rcases hx with rfl | hx
      · exact hasymm _ _ hba
      · exact hl.1 x hx
    · rename_i hba
      rw [List.pairwise_cons]
      refine ⟨fun x hx => ?_, List.pairwise_cons.mpr hl⟩
      rw [List.mem_cons] at hx
      rcases hx with rfl | hx
      · simpa using hba
      · cases hxa : before x a
        · rfl
        · rcases hneg x b a hxa with h1 | h1
          · rw [hl.1 x hx] at h1
            exact absurd h1 Bool.false_ne_true
          · exact absurd h1 hba

theorem sortBy_sorted {α : Type} (before : α → α → Bool)
    (hasymm : ∀ a b, before a b = true → before b a = false)
    (hneg : ∀ a b c, before a c = true → before a b = true ∨ before b c = true)
    (l : List α) : (sortBy before l).Pairwise fun x y => before y x = false := by
  induction l with
  | nil => exact List.Pairwise.nil
  | cons a l ih =>
    have h : sortBy before (a :: l) = insertSorted before a (sortBy before l) := rfl
    rw [h]
    exact insertSorted_sorted before hasymm hneg a _ ih

/-- The list query on a table whose order is `ORDER BY k1 DESC, k2 DESC`
returns the first 50 of the owner's rows in that order. -/
theorem isFirst50_of_listing {α : Type} (k1 k2 : α → SqlVal) (own : List α) :
    IsFirst50 (fun a b => orderedDesc (k1 a) (k1 b) (k2 a) (k2 b)) own
      ((sortBy (fun a b => descDesc (k1 a) (k1 b) (k2 a) (k2 b)) own).take 50) := by
  refine ⟨_, sortBy_perm _ own, ?_, rfl⟩
  have hs := sortBy_sorted (fun a b : α => descDesc (k1 a) (k1 b) (k2 a) (k2 b))
    (fun a b h => descDesc_asymm _ _ _ _ h) (fun a b c h => descDesc_negTrans _ _ _ _ _ _ h) own
  exact hs.imp fun h => orderedDesc_of_not_before _ _ _ _ h

theorem inactive_not_before_active (a b a2 b2 : SqlVal) (h : orderedDesc a b a2 b2) :
    ¬(a.isNumber 0 = true ∧ b.isNumber 1 = true) := by
  rintro ⟨ha, hb⟩
  cases a with
  | null => simp [SqlVal.isNumber] at ha
  | text s => simp [SqlVal.isNumber] at ha
  | num x =>
    cases b with
    | null => simp [SqlVal.isNumber] at hb
    | text s => simp [SqlVal.isNumber] at hb
    | num y =>
      simp only [SqlVal.isNumber, decide_eq_true_eq] at ha hb
      have hlt : sqlLt (.num x) (.num y) = true := by
        simp only [sqlLt]
        rw [Dec.lt_iff, ha, hb]
        norm_num
      rcases h with ho | ⟨ho, _⟩
      · rw [sqlLt_asymm _ _ hlt] at ho
        exact Bool.false_ne_true ho
      · rw [hlt] at ho
        exact Bool.false_ne_true ho.symm

/-- Claim C13: for an authenticated user U and a store that does not fail, the
list of a kind is the first 50, at most, of U's records of that kind put in the
kind's order: date descending, then created_at descending, for workouts,
nutrition and metrics; is_active descending, then start_date descending, for
medications, so that no inactive medication stands in front of an active one. -/
theorem list_is_first_50_in_order (bc : Bcrypt) (env : Env) (db : Db) (sess : Session)
    (body : Body) (U : Nat) (hsess : sess.userId = some U) (hU : U ≠ 0)
    (hf : env.fault = none) :
    (∃ rows, (handle bc env db sess ⟨.list .workouts, body⟩).resp = ⟨200, .workouts rows⟩ ∧
        IsFirst50 (fun a b : WorkoutRow =>
            orderedDesc a.date b.date (.text a.created_at) (.text b.created_at))
          (db.workouts.filter fun r => r.user_id = U) rows) ∧
      (∃ rows, (handle bc env db sess ⟨.list .nutrition, body⟩).resp = ⟨200, .nutrition rows⟩ ∧
        IsFirst50 (fun a b : NutritionRow =>
            orderedDesc a.date b.date (.text a.created_at) (.text b.created_at))
          (db.nutrition.filter fun r => r.user_id = U) rows) ∧
      (∃ rows, (handle bc env db sess ⟨.list .metrics, body⟩).resp = ⟨200, .metrics rows⟩ ∧
        IsFirst50 (fun a b : MetricRow =>
            orderedDesc a.date b.date (.text a.created_at) (.text b.created_at))
          (db.health_metrics.filter fun r => r.user_id = U) rows) ∧
      ∃ rows, (handle bc env db sess ⟨.list .medications, body⟩).resp =
          ⟨200, .medications rows⟩ ∧
        IsFirst50 (fun a b : MedicationRow =>
            orderedDesc a.is_active b.is_active a.start_date b.start_date)
          (db.medications.filter fun r => r.user_id = U) rows ∧
        rows.Pairwise fun a b =>
          ¬(a.is_active.isNumber 0 = true ∧ b.is_active.isNumber 1 = true) := by
  simp only [handle, requireAuth, hsess, hU, ne_eq, not_false_eq_true, if_true, listOf,
    listWorkouts, listNutrition, listMetrics, listMedications, hf]
  refine ⟨⟨_, rfl, isFirst50_of_listing _ _ _⟩, ⟨_, rfl, isFirst50_of_listing _ _ _⟩,
    ⟨_, rfl, isFirst50_of_listing _ _ _⟩, ⟨_, rfl, isFirst50_of_listing _ _ _, ?_⟩⟩
  have hs := sortBy_sorted MedicationRow.before
    (fun a b h => descDesc_asymm _ _ _ _ h) (fun a b c h => descDesc_negTrans _ _ _ _ _ _ h)
    (db.medications.filter fun r => r.user_id = U)
  refine (hs.sublist (List.take_sublist 50 _)).imp fun {a b} h => ?_
  exact inactive_not_before_active _ _ _ _ (orderedDesc_of_not_before _ _ _ _ h)

theorem list_is_first_50_in_order_witness :
    (handle toyBcrypt sampleEnv sampleDb aliceSession ⟨.list .workouts, []⟩).resp =
        ⟨200, .workouts [sampleWorkout 1 1 200 "2024-01-01", sampleWorkout 3 1 300 "2024-01-01",
          sampleWorkout 4 1 50 "2023-12-31"]⟩ ∧
      ∃ rows, (handle toyBcrypt sampleEnv sampleDb aliceSession ⟨.list .medications, []⟩).resp =
          ⟨200, .medications rows⟩ ∧
        IsFirst50 (fun a b : MedicationRow =>
            orderedDesc a.is_active b.is_active a.start_date b.start_date)
          (sampleDb.medications.filter fun r => r.user_id = 1) rows ∧
        rows.Pairwise fun a b =>
          ¬(a.is_active.isNumber 0 = true ∧ b.is_active.isNumber 1 = true) :=
  ⟨by decide, (list_is_first_50_in_order toyBcrypt sampleEnv sampleDb aliceSession [] 1 rfl
    (by decide) rfl).2.2.2⟩

/-! ## Round trip of a workout -/

set_option maxRecDepth 100000 in
/-- Counterexample to claim C14 as stated, in three ways. User 1 has 50
workouts dated 2024-02-01 and inserts a valid workout dated 2024-01-01: the
insert answers with id 51, and the list that follows, capped at 50 rows, has
no entry with id 51. A workout whose date is written `20240101` is listed
with the number 20240101 as date, not the text given. A workout whose notes
are the number 5 is listed with the text `5` as notes. -/
theorem workout_roundtrip_beyond_cap :
    (handle toyBcrypt sampleEnv crowdedDb aliceSession ⟨.create .workouts, runBody⟩).resp =
        ⟨200, .saved 51 "Workout saved successfully!"⟩ ∧
      ((handle toyBcrypt sampleEnv
        (handle toyBcrypt sampleEnv crowdedDb aliceSession ⟨.create .workouts, runBody⟩).db
        aliceSession ⟨.list .workouts, []⟩).resp.body.workoutRows.filter
          fun r => r.id = 51) = [] ∧
      (handle toyBcrypt sampleEnv
        (handle toyBcrypt sampleEnv crowdedDb aliceSession ⟨.create .workouts, runBody⟩).db
        aliceSession ⟨.list .workouts, []⟩).resp.body.workoutRows.length = 50 ∧
      ((handle toyBcrypt sampleEnv
        (handle toyBcrypt sampleEnv sampleDb aliceSession ⟨.create .workouts,
          [("type", .str "run"), ("duration", .num ⟨30, 0⟩), ("intensity", .str "high"),
            ("date", .str "20240101")]⟩).db
        aliceSession ⟨.list .workouts, []⟩).resp.body.workoutRows.filter fun r => r.id = 5) =
        [⟨5, 1, .text "run", .num ⟨30, 0⟩, .text "high", .num ⟨0, 0⟩, .null,
          .num ⟨20240101, 0⟩, "2024-01-01 10:00:00"⟩] ∧
      ((handle toyBcrypt sampleEnv
        (handle toyBcrypt sampleEnv sampleDb aliceSession ⟨.create .workouts,
          [("type", .str "run"), ("duration", .num ⟨30, 0⟩), ("intensity", .str "high"),
            ("notes", .num ⟨5, 0⟩), ("date", .str "2024-01-01")]⟩).db
        aliceSession ⟨.list .workouts, []⟩).resp.body.workoutRows.filter fun r => r.id = 5) =
        [⟨5, 1, .text "run", .num ⟨30, 0⟩, .text "high", .num ⟨0, 0⟩, .text "5",
          .text "2024-01-01", "2024-01-01 10:00:00"⟩] := by
  decide

theorem le_foldl_max (ids : List Nat) (z : Nat) :
    z ≤ ids.foldl max z ∧ ∀ x ∈ ids, x ≤ ids.foldl max z := by
  induction ids generalizing z with
  | nil => simp
  | cons a l ih =>
    simp only [List.foldl_cons, List.mem_cons]
    refine ⟨le_trans (le_max_left z a) (ih (max z a)).1, ?_⟩
    rintro x (rfl | hx)
    · exact le_trans (le_max_right z x) (ih (max z x)).1
    · exact (ih (max z a)).2 x hx

theorem lt_nextId (ids : List Nat) (seq x : Nat) (hx : x ∈ ids) : x < nextId ids seq := by
  unfold nextId
  have := (le_foldl_max ids 0).2 x hx
  omega

theorem listWorkouts_rows_mem (env : Env) (db : Db) (U : Nat) (r : WorkoutRow)
    (h : r ∈ (listWorkouts env db U).body.workoutRows) : r ∈ db.workouts ∧ r.user_id = U := by
  unfold listWorkouts at h
  cases hf : env.fault with
  | some msg => simp [hf, Reply.workoutRows] at h
  | none =>
    simp only [hf, Reply.workoutRows] at h
    have := mem_listed _ _ _ _ _ h
    simpa using this

theorem authed_list (bc : Bcrypt) (env : Env) (db : Db) (sess : Session) (body : Body)
    (k : Kind) (U : Nat) (hsess : sess.userId = some U) (hU : U ≠ 0) :
    handle bc env db sess ⟨.list k, body⟩ = ⟨listOf k env db U, db, sess⟩ := by
  simp [handle, requireAuth, hsess, hU]

theorem authed_delete (bc : Bcrypt) (env : Env) (db : Db) (sess : Session) (body : Body)
    (k : Kind) (id : String) (U : Nat) (hsess : sess.userId = some U) (hU : U ≠ 0) :
    handle bc env db sess ⟨.delete k id, body⟩ =
      ⟨(deleteOf k env db U id).1, (deleteOf k env db U id).2, sess⟩ := by
  simp [handle, requireAuth, hsess, hU]

/-- When the user owns fewer than 50 workouts, the list after appending an own
row with a fresh key has exactly one entry with that key, the row itself. -/
theorem list_after_append (env : Env) (db : Db) (U seq : Nat) (row : WorkoutRow)
    (hf : env.fault = none) (hown : row.user_id = U)
    (hfresh : ∀ r ∈ db.workouts, r.id ≠ row.id)
    (hcap : (db.workouts.filter fun r => r.user_id = U).length < 50) :
    ((listWorkouts env { db with workouts := db.workouts ++ [row], workoutsSeq := seq }
      U).body.workoutRows.filter fun r => r.id = row.id) = [row] := by
  simp only [listWorkouts, hf, Reply.workoutRows]
  have hfilter : ((db.workouts ++ [row]).filter fun r => decide (r.user_id = U)) =
      (db.workouts.filter fun r => decide (r.user_id = U)) ++ [row] := by
    simp [List.filter_append, hown]
  rw [hfilter]
  have hperm := sortBy_perm WorkoutRow.before
    ((db.workouts.filter fun r => decide (r.user_id = U)) ++ [row])
  rw [List.take_of_length_le (by rw [hperm.length_eq]; simp; omega)]
  have hp2 := hperm.filter fun r => decide (r.id = row.id)
  have hrhs : (((db.workouts.filter fun r => decide (r.user_id = U)) ++ [row]).filter
      fun r => decide (r.id = row.id)) = [row] := by
    rw [List.filter_append]
    have hnil : ((db.workouts.filter fun r => decide (r.user_id = U)).filter
        fun r => decide (r.id = row.id)) = [] := by
      rw [List.filter_eq_nil_iff]
      intro r hr
      have := hfresh r (List.mem_filter.mp hr).1
      simpa using this
    rw [hnil]
    simp
  rw [hrhs] at hp2
  exact List.perm_singleton.mp hp2

/-- Claim C14, amended: when user U owns fewer than 50 workouts and inserts
valid workout fields on a store that does not fail, the insert returns an id
`i`; U's workout list then has exactly one entry with id `i`, whose type,
intensity, notes and date are those of the input and whose duration and
calories_burned are the numbers of the input; and after U deletes `i`, or any
id text that names `i`, U's workout list has no entry with id `i`. Valid fields
are: type and date non-empty texts, the date not a numeric literal, intensity
one of low, medium, high, notes a text or absent, duration a positive whole
number `n` below `2 ^ 53`, given as a number or as its numeral, and
calories_burned absent, which counts as 0, or a whole number `c` below
`2 ^ 53`, given as a number or as its numeral. -/
theorem workout_roundtrip_within_cap (bc : Bcrypt) (env env2 env3 env4 : Env) (db : Db)
    (sess : Session) (body body2 body3 body4 : Body) (U n c : Nat) (t s d : String)
    (hsess : sess.userId = some U) (hU : U ≠ 0)
    (hf : env.fault = none) (hf2 : env2.fault = none) (hf3 : env3.fault = none)
    (ht : body.get "type" = .str t) (htne : t ≠ "")
    (hdur : body.get "duration" = .num ⟨(n : Int), 0⟩ ∨ body.get "duration" = .str (natText n))
    (hn0 : 0 < n) (hn : n < 2 ^ 53)
    (hcal : (body.get "calories_burned" = .undefined ∧ c = 0) ∨
      body.get "calories_burned" = .num ⟨(c : Int), 0⟩ ∨
      body.get "calories_burned" = .str (natText c))
    (hc : c < 2 ^ 53)
    (hi : body.get "intensity" = .str s) (hs : s ∈ ["low", "medium", "high"])
    (hdate : body.get "date" = .str d) (hdne : d ≠ "") (hdnum : sqlNumericOfText d = none)
    (hnotes : body.get "notes" = .undefined ∨ ∃ m, body.get "notes" = .str m)
    (hcap : (db.workouts.filter fun r => r.user_id = U).length < 50) :
    ∃ i row, (handle bc env db sess ⟨.create .workouts, body⟩).resp =
        ⟨200, .saved i "Workout saved successfully!"⟩ ∧
      ((handle bc env2 (handle bc env db sess ⟨.create .workouts, body⟩).db sess
        ⟨.list .workouts, body2⟩).resp.body.workoutRows.filter fun r => r.id = i) = [row] ∧
      row.user_id = U ∧ row.type = .text t ∧ row.intensity = .text s ∧ row.date = .text d ∧
      (body.get "notes" = .undefined ∧ row.notes = .null ∨
        ∃ m, body.get "notes" = .str m ∧ row.notes = .text m) ∧
      row.duration = .num ⟨(n : Int), 0⟩ ∧
      row.calories_burned = .num ⟨(c : Int), 0⟩ ∧
      ∀ idText, idNames idText i ∨ (idText = natText i ∧ i < 2 ^ 63) →
        ∀ r ∈ (handle bc env4
          (handle bc env3 (handle bc env db sess ⟨.create .workouts, body⟩).db sess
            ⟨.delete .workouts idText, body3⟩).db sess
          ⟨.list .workouts, body4⟩).resp.body.workoutRows, r.id ≠ i := by
  have htt : (body.get "type").truthy = true := by simp [ht, JsVal.truthy, htne]
  have hit : (body.get "intensity").truthy = true := by
    rw [hi]
    simp only [List.mem_cons, List.mem_singleton, List.not_mem_nil, or_false] at hs
    rcases hs with rfl | rfl | rfl <;> decide
  have hdt : (body.get "date").truthy = true := by simp [hdate, JsVal.truthy, hdne]
  have hchk : checkIn (bindText (body.get "intensity")) ["low", "medium", "high"] = true := by
    rw [hi]
    simp only [List.mem_cons, List.mem_singleton, List.not_mem_nil, or_false] at hs
    rcases hs with rfl | rfl | rfl <;> decide
  have hdco : CoercesTo (body.get "duration") (.num ⟨(n : Int), 0⟩) := by
    rcases hdur with h | h
    · exact Or.inl ⟨n, by simpa using hn, h, rfl⟩
    · exact Or.inr (Or.inl ⟨n, "", hn, by decide, by rw [h, String.append_empty], rfl⟩)
  have hdur2 : (body.get "duration").truthy = true :=
    truthy_of_coerces _ _ hdco (by
      intro h0
      have := congrArg (fun v => match v with | SqlVal.num x => x.m | _ => 0) h0
      simp only [Nat.cast_eq_zero] at this
      omega)
  have hcalv : bindNum (parseInt (body.get "calories_burned").orZero) = .num ⟨(c : Int), 0⟩ := by
    rcases hcal with ⟨h, h0⟩ | h | h
    · rw [h, h0]
      rfl
    · exact (bindNum_parseInt_orZero _).2 _ (Or.inl ⟨c, by simpa using hc, h, rfl⟩)
    · exact (bindNum_parseInt_orZero _).2 _
        (Or.inr (Or.inl ⟨c, "", hc, by decide, by rw [h, String.append_empty], rfl⟩))
  rw [authed_create bc env db sess body .workouts U hsess hU]
  simp only [createOf]
  rw [createWorkout_ok env db U body hf htt hdur2 hit hdt hchk]
  refine ⟨nextId (db.workouts.map (·.id)) db.workoutsSeq,
    ⟨nextId (db.workouts.map (·.id)) db.workoutsSeq, U, bindText (body.get "type"),
      bindNum (parseInt (body.get "duration")), bindText (body.get "intensity"),
      bindNum (parseInt (body.get "calories_burned").orZero), bindText (body.get "notes"),
      affNumeric (bind (body.get "date")), env.now⟩, rfl, ?_, rfl, ?_, ?_, ?_, ?_,
      bindNum_parseInt_of_coerces _ _ hdco, hcalv, ?_⟩
  · rw [authed_list bc env2 _ sess body2 .workouts U hsess hU]
    simp only [listOf]
    exact list_after_append env2 db U _
      ⟨nextId (db.workouts.map (·.id)) db.workoutsSeq, U, bindText (body.get "type"),
        bindNum (parseInt (body.get "duration")), bindText (body.get "intensity"),
        bindNum (parseInt (body.get "calories_burned").orZero), bindText (body.get "notes"),
        affNumeric (bind (body.get "date")), env.now⟩ hf2 rfl
      (fun r hr => Nat.ne_of_lt (lt_nextId _ _ _ (List.mem_map_of_mem _ hr))) hcap
  · simp [ht, bindText, bind]
  · simp [hi, bindText, bind]
  · simp [hdate, bind, affNumeric, hdnum]
  · rcases hnotes with h | ⟨m, h⟩
    · exact Or.inl ⟨h, by simp [h, bindText, bind]⟩
    · exact Or.inr ⟨m, h, by simp [h, bindText, bind]⟩
  · intro idText hid r hr
    have hmatch : idMatches idText (nextId (db.workouts.map (·.id)) db.workoutsSeq) = true := by
      rw [idMatches_iff]
      rcases hid with h | ⟨h, hlt⟩
      · exact h
      · rw [h]
        exact (idNames_natText _ _ hlt).mpr rfl
    rw [authed_list bc env4 _ sess body4 .workouts U hsess hU] at hr
    rw [authed_delete bc env3 _ sess body3 .workouts idText U hsess hU] at hr
    simp only [listOf, deleteOf] at hr
    obtain ⟨hmem, hown⟩ := listWorkouts_rows_mem env4 _ U r hr
    intro hri
    unfold deleteWorkout at hmem
    simp only [hf3, List.mem_filter] at hmem
    rw [hri, hmatch, hown] at hmem
    simp at hmem

/-- Alice posts the run of the example, 30 minutes with no calories given:
the list that follows has one entry with the id 5 of the insert, the row with
duration 30 and calories_burned 0, and after the delete of the id `5` the list
has the entries 1, 3 and 4 only. -/
theorem workout_roundtrip_within_cap_witness :
    ((handle toyBcrypt sampleEnv
        (handle toyBcrypt sampleEnv sampleDb aliceSession ⟨.create .workouts, runBody⟩).db
        aliceSession ⟨.list .workouts, []⟩).resp.body.workoutRows.filter fun r => r.id = 5) =
        [⟨5, 1, .text "run", .num ⟨30, 0⟩, .text "high", .num ⟨0, 0⟩, .null, .text "2024-01-01",
          "2024-01-01 10:00:00"⟩] ∧
      (handle toyBcrypt sampleEnv
        (handle toyBcrypt sampleEnv
          (handle toyBcrypt sampleEnv sampleDb aliceSession ⟨.create .workouts, runBody⟩).db
          aliceSession ⟨.delete .workouts "5", []⟩).db aliceSession
        ⟨.list .workouts, []⟩).resp.body.workoutRows.map (·.id) = [1, 3, 4] ∧
      ∃ i row, (handle toyBcrypt sampleEnv sampleDb aliceSession
          ⟨.create .workouts, runBody⟩).resp = ⟨200, .saved i "Workout saved successfully!"⟩ ∧
        ((handle toyBcrypt sampleEnv
          (handle toyBcrypt sampleEnv sampleDb aliceSession ⟨.create .workouts, runBody⟩).db
          aliceSession ⟨.list .workouts, []⟩).resp.body.workoutRows.filter
            fun r => r.id = i) = [row] ∧
        row.user_id = 1 ∧ row.type = .text "run" ∧ row.intensity = .text "high" ∧
        row.date = .text "2024-01-01" ∧
        (runBody.get "notes" = .undefined ∧ row.notes = .null ∨
          ∃ m, runBody.get "notes" = .str m ∧ row.notes = .text m) ∧
        row.duration = .num ⟨((30 : Nat) : Int), 0⟩ ∧
        row.calories_burned = .num ⟨((0 : Nat) : Int), 0⟩ ∧
        ∀ idText, idNames idText i ∨ (idText = natText i ∧ i < 2 ^ 63) →
          ∀ r ∈ (handle toyBcrypt sampleEnv
            (handle toyBcrypt sampleEnv
              (handle toyBcrypt sampleEnv sampleDb aliceSession ⟨.create .workouts, runBody⟩).db
              aliceSession ⟨.delete .workouts idText, []⟩).db aliceSession
            ⟨.list .workouts, []⟩).resp.body.workoutRows, r.id ≠ i :=
  ⟨by decide, by decide,
    workout_roundtrip_within_cap toyBcrypt sampleEnv sampleEnv sampleEnv sampleEnv
      sampleDb aliceSession runBody [] [] [] 1 30 0 "run" "high" "2024-01-01" rfl (by decide)
      rfl rfl rfl rfl (by decide) (Or.inl rfl) (by decide) (by decide) (Or.inl ⟨rfl, rfl⟩)
      (by decide) rfl (by decide) rfl (by decide) (by decide) (Or.inl rfl) (by decide)⟩

/-! ## Failed login, profile, store failures -/

/-- Claim C25: a login that does not succeed (missing username or password,
unknown username, wrong password, or a failure of the store or of the
comparison) leaves the session and the database exactly as they were; a caller
authenticated as A stays authenticated as A. -/
theorem failed_login_leaves_session (bc : Bcrypt) (env : Env) (db : Db) (sess : Session)
    (body : Body) (hfail : (handle bc env db sess ⟨.login, body⟩).resp.status ≠ 200) :
    (handle bc env db sess ⟨.login, body⟩).sess = sess ∧
      (handle bc env db sess ⟨.login, body⟩).db = db := by
  simp only [handle, login] at hfail ⊢
  by_cases hv : (!(body.get "username").truthy || !(body.get "password").truthy) = true
  · rw [if_pos hv]
    exact ⟨rfl, rfl⟩
  · rw [if_neg hv] at hfail ⊢
    cases hf : env.fault with
    | some msg => exact ⟨rfl, rfl⟩
    | none =>
      simp only [hf] at hfail ⊢
      cases hfind : findUser db (body.get "username") with
      | none => exact ⟨rfl, rfl⟩
      | some user =>
        simp only [hfind] at hfail ⊢
        cases hc : bcryptCompare bc (body.get "password") user.password.toJs with
        | none => exact ⟨rfl, rfl⟩
        | some b =>
          cases b
          · exact ⟨rfl, rfl⟩
          · rw [hc] at hfail
            exact absurd rfl hfail

theorem failed_login_leaves_session_witness :
    (handle toyBcrypt sampleEnv sampleDb aliceSession
        ⟨.login, [("username", .str "bob"), ("password", .str "wrong")]⟩).resp =
        ⟨400, .error "Invalid username or password"⟩ ∧
      (handle toyBcrypt sampleEnv sampleDb aliceSession
        ⟨.login, [("username", .str "bob"), ("password", .str "wrong")]⟩).sess = aliceSession ∧
      (handle toyBcrypt sampleEnv sampleDb aliceSession
        ⟨.login, [("username", .str "bob"), ("password", .str "wrong")]⟩).db = sampleDb :=
  ⟨by decide, failed_login_leaves_session toyBcrypt sampleEnv sampleDb aliceSession
    [("username", .str "bob"), ("password", .str "wrong")] (by decide)⟩

theorem authed_profile (bc : Bcrypt) (env : Env) (db : Db) (sess : Session) (body : Body)
    (U : Nat) (hsess : sess.userId = some U) (hU : U ≠ 0) :
    handle bc env db sess ⟨.profile, body⟩ = ⟨profile env db U, db, sess⟩ := by
  simp [handle, requireAuth, hsess, hU]

/-- Claim C24: for an authenticated user U and a store that does not fail, the
profile response carries exactly the username, email, age and gender of the
row of `users` whose id is U (an empty object when there is none); it is the
same whatever the password column holds and whatever the rows of other users
hold. -/
theorem profile_shows_own_four_fields (bc : Bcrypt) (env : Env) (db : Db) (sess : Session)
    (body : Body) (U : Nat) (hsess : sess.userId = some U) (hU : U ≠ 0)
    (hf : env.fault = none) :
    (∃ row : Option UserRow, (∀ u, row = some u → u ∈ db.users ∧ u.id = U) ∧
        (row = none → ∀ u ∈ db.users, u.id ≠ U) ∧
        (handle bc env db sess ⟨.profile, body⟩).resp = ⟨200, .profile (row.map UserRow.shown)⟩) ∧
      ∀ f : UserRow → UserRow, (∀ u, (f u).id = u.id) →
        (∀ u, u.id = U → (f u).shown = u.shown) →
        (handle bc env { db with users := db.users.map f } sess ⟨.profile, body⟩).resp =
          (handle bc env db sess ⟨.profile, body⟩).resp := by
  constructor
  · refine ⟨db.users.find? fun u => u.id = U, ?_, ?_, ?_⟩
    · intro u hu
      have := List.find?_some hu
      exact ⟨List.mem_of_find?_eq_some hu, by simpa using this⟩
    · intro hnone u hu
      rw [List.find?_eq_none] at hnone
      simpa using hnone u hu
    · rw [authed_profile bc env db sess body U hsess hU]
      simp only [profile, hf]
      rfl
  · intro f hid hshown
    rw [authed_profile bc env db sess body U hsess hU,
      authed_profile bc env _ sess body U hsess hU]
    simp only [profile, hf, List.find?_map]
    have hp : ((fun u : UserRow => decide (u.id = U)) ∘ f) = fun u => decide (u.id = U) := by
      funext u
      simp [hid u]
    rw [hp]
    cases hfind : db.users.find? fun u => decide (u.id = U) with
    | none => rfl
    | some u =>
      have hu : u.id = U := by simpa using List.find?_some hfind
      have := hshown u hu
      simp only [Option.map_some', Response.mk.injEq, Reply.profile.injEq, Option.some.injEq,
        true_and]
      exact this

theorem profile_shows_own_four_fields_witness :
    (handle toyBcrypt sampleEnv sampleDb aliceSession ⟨.profile, []⟩).resp =
        ⟨200, .profile (some ⟨.text "alice", .text "a@example.com", .null, .null⟩)⟩ ∧
      ∀ f : UserRow → UserRow, (∀ u, (f u).id = u.id) →
        (∀ u, u.id = 1 → (f u).shown = u.shown) →
        (handle toyBcrypt sampleEnv { sampleDb with users := sampleDb.users.map f } aliceSession
          ⟨.profile, []⟩).resp =
          (handle toyBcrypt sampleEnv sampleDb aliceSession ⟨.profile, []⟩).resp :=
  ⟨by decide, (profile_shows_own_four_fields toyBcrypt sampleEnv sampleDb aliceSession [] 1 rfl
    (by decide) rfl).2⟩

/-- Claim C23, the code at the failing input: two failures of the store on the
list of workouts, with different messages, give different responses, each
carrying the store's own message, which names a table of the schema; a workout
insert whose intensity the CHECK constraint refuses carries the expression of
the constraint to the client; the same two failures of the store on login give
one response, with the fixed text `Database error`. -/
theorem store_message_reaches_client :
    (handle toyBcrypt (failingEnv "SQLITE_ERROR: no such table: workouts") sampleDb aliceSession
        ⟨.list .workouts, []⟩).resp = ⟨500, .error "SQLITE_ERROR: no such table: workouts"⟩ ∧
      (handle toyBcrypt (failingEnv "SQLITE_BUSY: database is locked") sampleDb aliceSession
        ⟨.list .workouts, []⟩).resp = ⟨500, .error "SQLITE_BUSY: database is locked"⟩ ∧
      (handle toyBcrypt (failingEnv "SQLITE_ERROR: no such table: workouts") sampleDb aliceSession
        ⟨.list .workouts, []⟩).resp ≠
        (handle toyBcrypt (failingEnv "SQLITE_BUSY: database is locked") sampleDb aliceSession
          ⟨.list .workouts, []⟩).resp ∧
      (handle toyBcrypt sampleEnv sampleDb aliceSession ⟨.create .workouts,
        [("type", .str "run"), ("duration", .num ⟨30, 0⟩), ("intensity", .str "extreme"),
          ("date", .str "2024-01-01")]⟩).resp =
        ⟨500, .error ("Failed to save workout: SQLITE_CONSTRAINT: CHECK constraint failed: " ++
          "intensity IN ('low', 'medium', 'high')")⟩ ∧
      (handle toyBcrypt (failingEnv "SQLITE_ERROR: no such table: users") sampleDb Session.empty
        aliceLogin).resp = ⟨500, .error "Database error"⟩ ∧
      (handle toyBcrypt (failingEnv "SQLITE_BUSY: database is locked") sampleDb Session.empty
        aliceLogin).resp = ⟨500, .error "Database error"⟩ := by
  decide

/-- The response to a failure of the store, route by route: when the store
fails with message `msg` on the statement of a request by an authenticated
user, list, delete, summary and profile answer status 500 with `msg` itself as
error, and an insert whose required fields are present answers 500 with a fixed
text followed by `msg`; only the routes of authentication answer with a text
that does not depend on `msg`: login with `Database error`, logout with
`Could not log out`, and register, when it answers 500, with `Database error`
or `Internal server error`. -/
theorem store_failure_responses (bc : Bcrypt) (env : Env) (db : Db) (sess : Session)
    (body : Body) (U : Nat) (msg : String) (hsess : sess.userId = some U) (hU : U ≠ 0)
    (hf : env.fault = some msg) :
    (∀ k, (handle bc env db sess ⟨.list k, body⟩).resp = ⟨500, .error msg⟩) ∧
      (∀ k id, (handle bc env db sess ⟨.delete k id, body⟩).resp = ⟨500, .error msg⟩) ∧
      (handle bc env db sess ⟨.summary, body⟩).resp = ⟨500, .error msg⟩ ∧
      (handle bc env db sess ⟨.profile, body⟩).resp = ⟨500, .error msg⟩ ∧
      (∀ k, (∀ f ∈ requiredFields k, (body.get f).truthy = true) →
        (handle bc env db sess ⟨.create k, body⟩).resp = ⟨500, .error (savePrefix k ++ msg)⟩) ∧
      ((body.get "username").truthy = true → (body.get "password").truthy = true →
        (handle bc env db sess ⟨.login, body⟩).resp = ⟨500, .error "Database error"⟩) ∧
      (handle bc env db sess ⟨.logout, body⟩).resp = ⟨500, .error "Could not log out"⟩ ∧
      ((handle bc env db sess ⟨.register, body⟩).resp.status = 500 →
        (handle bc env db sess ⟨.register, body⟩).resp = ⟨500, .error "Database error"⟩ ∨
          (handle bc env db sess ⟨.register, body⟩).resp =
            ⟨500, .error "Internal server error"⟩) := by
  refine ⟨?_, ?_, ?_, ?_, ?_, ?_, ?_, ?_⟩
  · intro k
    rw [authed_list bc env db sess body k U hsess hU]
    cases k <;> simp [listOf, listWorkouts, listNutrition, listMetrics, listMedications, hf]
  · intro k id
    rw [authed_delete bc env db sess body k id U hsess hU]
    cases k <;>
      simp [deleteOf, deleteWorkout, deleteNutrition, deleteMetric, deleteMedication, hf]
  · simp [handle, requireAuth, hsess, hU, summary, hf]
  · rw [authed_profile bc env db sess body U hsess hU]
    simp [profile, hf]
  · intro k hreq
    rw [authed_create bc env db sess body k U hsess hU]
    cases k
    · have h1 := hreq "type" (by decide)
      have h2 := hreq "duration" (by decide)
      have h3 := hreq "intensity" (by decide)
      have h4 := hreq "date" (by decide)
      simp [createOf, createWorkout, insertWorkout, h1, h2, h3, h4, hf, savePrefix]
    · have h1 := hreq "meal_type" (by decide)
      have h2 := hreq "food_item" (by decide)
      have h3 := hreq "calories" (by decide)
      have h4 := hreq "date" (by decide)
      simp [createOf, createNutrition, insertNutrition, h1, h2, h3, h4, hf, savePrefix]
    · have h1 := hreq "date" (by decide)
      simp [createOf, createMetric, insertMetric, h1, hf, savePrefix]
    · have h1 := hreq "name" (by decide)
      have h2 := hreq "dosage" (by decide)
      have h3 := hreq "frequency" (by decide)
      have h4 := hreq "start_date" (by decide)
      simp [createOf, createMedication, insertMedication, h1, h2, h3, h4, hf, savePrefix]
  · intro hu hp
    simp [handle, login, hu, hp, hf]
  · simp [handle, logout, hf]
  · intro h500
    simp only [handle, register] at h500 ⊢
    split at h500
    · simp at h500
    · split at h500
      · simp at h500
      · rename_i h1 h2
        rw [if_neg h1, if_neg h2]
        cases hb : bcryptHash bc (body.get "password") 12 env.salt with
        | none => exact Or.inr rfl
        | some hashed =>
          simp only [hb, insertUser, hf] at h500 ⊢
          split
          · rename_i hinc
            simp [hinc] at h500
          · exact Or.inl rfl

theorem store_failure_responses_witness :
    (∀ k, (handle toyBcrypt (failingEnv "disk I/O error") sampleDb aliceSession
        ⟨.list k, runBody⟩).resp = ⟨500, .error "disk I/O error"⟩) ∧
      (handle toyBcrypt (failingEnv "disk I/O error") sampleDb aliceSession
        ⟨.create .workouts, runBody⟩).resp =
        ⟨500, .error "Failed to save workout: disk I/O error"⟩ :=
  ⟨(store_failure_responses toyBcrypt (failingEnv "disk I/O error") sampleDb aliceSession runBody
    1 "disk I/O error" rfl (by decide) rfl).1, by decide⟩

/-! ## The session store -/

theorem find_set_self (st : SessionStore) (sid : String) (v : StoredSession) :
    (st.set sid v).find sid = some v := by
  simp [SessionStore.set, SessionStore.find]

theorem find_erase_self (st : SessionStore) (sid : String) : (st.erase sid).find sid = none := by
  simp only [SessionStore.erase, SessionStore.find, Option.map_eq_none', List.find?_eq_none]
  intro p hp
  have := (List.mem_filter.mp hp).2
  simpa using this

theorem get_of_find_none (st : SessionStore) (sid : String) (now : Nat)
    (h : st.find sid = none) : st.get sid now = none := by
  simp [SessionStore.get, h]

theorem afterGet_of_find_none (st : SessionStore) (sid : String) (now : Nat)
    (h : st.find sid = none) : afterGet st (some sid) now = st := by
  simp [afterGet, h]

theorem find_afterGet_of_not_live (st : SessionStore) (sid : String) (now : Nat)
    (h : st.get sid now = none) : (afterGet st (some sid) now).find sid = none := by
  cases hfind : st.find sid with
  | none => simp [afterGet, hfind]
  | some v =>
    by_cases hexp : v.expires ≤ now
    · simp only [afterGet, hfind, hexp, if_true]
      exact find_erase_self st sid
    · simp [SessionStore.get, hfind, hexp] at h

theorem handle_empty_stays_empty (bc : Bcrypt) (env : Env) (db : Db) (req : Request)
    (h1 : req.route ≠ .login) (h2 : req.route ≠ .register) :
    (handle bc env db Session.empty req).sess = Session.empty := by
  obtain ⟨route, body⟩ := req
  cases route with
  | register => exact absurd rfl h2
  | login => exact absurd rfl h1
  | logout =>
    simp only [handle, logout]
    split <;> rfl
  | status => rfl
  | list k => rfl
  | create k => rfl
  | delete k id => rfl
  | summary => rfl
  | profile => rfl

theorem handle_empty_protected (bc : Bcrypt) (env : Env) (db : Db) (req : Request)
    (h : req.route.protected = true) :
    (handle bc env db Session.empty req).resp = ⟨401, .error "Authentication required"⟩ := by
  obtain ⟨route, body⟩ := req
  cases route <;> first
    | rfl
    | simp [Route.protected] at h

theorem loadSession_none (srv : Server) (cookie : Option String) (now : Nat)
    (hno : ∀ sid, cookie = some sid → srv.sessions.get sid now = none) :
    loadSession srv cookie now = none := by
  cases cookie with
  | none => rfl
  | some sid => simp [loadSession, hno sid rfl]

/-- A request whose cookie names no stored session, on a route other than
login and register, runs on an empty session and leaves the session store as it
was. -/
theorem serve_anonymous (bc : Bcrypt) (env : Env) (now : Nat) (fresh : String) (srv : Server)
    (cookie : Option String) (req : Request)
    (hno : ∀ sid, cookie = some sid → srv.sessions.find sid = none)
    (h1 : req.route ≠ .login) (h2 : req.route ≠ .register) :
    (serve bc env now fresh srv cookie req).resp =
        (handle bc env srv.db Session.empty req).resp ∧
      (serve bc env now fresh srv cookie req).srv.sessions = srv.sessions := by
  have hload := loadSession_none srv cookie now
    fun sid h => get_of_find_none _ _ _ (hno sid h)
  have hafter : afterGet srv.sessions cookie now = srv.sessions := by
    cases cookie with
    | none => rfl
    | some sid => exact afterGet_of_find_none _ _ _ (hno sid rfl)
  unfold serve
  rw [hload]
  dsimp only
  rw [if_neg (not_not.mpr (handle_empty_stays_empty bc env srv.db req h1 h2))]
  exact ⟨rfl, hafter⟩

theorem find_erase_other (st : SessionStore) (sid other : String) (h : other ≠ sid) :
    (st.erase other).find sid = st.find sid := by
  induction st with
  | nil => rfl
  | cons p st ih =>
    simp only [SessionStore.erase, SessionStore.find] at ih ⊢
    by_cases hp : p.1 = other
    · have hps : ¬p.1 = sid := fun e => h (hp.symm.trans e)
      rw [List.filter_cons_of_neg (by simp [hp]), List.find?_cons_of_neg _ (by simp [hps])]
      exact ih
    · rw [List.filter_cons_of_pos (by simp [hp])]
      by_cases hps : p.1 = sid
      · rw [List.find?_cons_of_pos _ (by simp [hps]), List.find?_cons_of_pos _ (by simp [hps])]
      · rw [List.find?_cons_of_neg _ (by simp [hps]), List.find?_cons_of_neg _ (by simp [hps])]
        exact ih

theorem find_set_other (st : SessionStore) (sid other : String) (v : StoredSession)
    (h : other ≠ sid) : (st.set other v).find sid = st.find sid := by
  have := find_erase_other st sid other h
  simp only [SessionStore.set, SessionStore.find, List.find?_cons, h, decide_False] at this ⊢
  exact this

theorem find_afterGet_other (st : SessionStore) (sid : String) (cookie : Option String)
    (now : Nat) (h : cookie ≠ some sid) : (afterGet st cookie now).find sid = st.find sid := by
  cases cookie with
  | none => rfl
  | some other =>
    have hne : other ≠ sid := fun e => h (by rw [e])
    simp only [afterGet]
    cases st.find other with
    | none => rfl
    | some v =>
      dsimp only
      split
      · exact find_erase_other st sid other hne
      · rfl

/-- A request that presents another cookie, or none, and for which the
middleware draws another id, leaves the store without a session under the id
`sid` if it had none. -/
theorem serve_other (bc : Bcrypt) (env : Env) (now : Nat) (fresh : String) (srv : Server)
    (cookie : Option String) (req : Request) (sid : String) (hc : cookie ≠ some sid)
    (hfresh : fresh ≠ sid) :
    (serve bc env now fresh srv cookie req).srv.sessions.find sid = srv.sessions.find sid := by
  unfold serve
  cases hload : loadSession srv cookie now with
  | none =>
    dsimp only
    split
    · exact (find_set_other _ sid fresh _ hfresh).trans (find_afterGet_other _ sid cookie now hc)
    · exact find_afterGet_other _ sid cookie now hc
  | some p =>
    obtain ⟨other, sess⟩ := p
    have hother : cookie = some other := by
      cases cookie with
      | none => simp [loadSession] at hload
      | some c =>
        simp only [loadSession, Option.map_eq_some'] at hload
        obtain ⟨_, _, h⟩ := hload
        rw [(Prod.mk.inj h).1]
    have hne : other ≠ sid := fun e => hc (by rw [hother, e])
    dsimp only
    split
    · dsimp only
      split
      · exact find_erase_other _ sid other hne
      · rfl
    · split
      · exact find_set_other _ sid other _ hne
      · exact find_set_other _ sid other _ hne

/-- Once the store holds no session under the id of the caller's cookie, it
holds none after any requests, of the caller or of others, as long as the
caller neither logs in nor registers and no new session is given that id. -/
theorem serveAll_keeps_gone (bc : Bcrypt) (srv : Server) (sid : String) (visits : List Visit)
    (hno : srv.sessions.find sid = none)
    (hv : ∀ v ∈ visits,
      (v.cookie = some sid → v.req.route ≠ .login ∧ v.req.route ≠ .register) ∧
        (v.cookie ≠ some sid → v.freshSid ≠ sid)) :
    (serveAll bc srv visits).sessions.find sid = none := by
  induction visits generalizing srv with
  | nil => exact hno
  | cons v visits ih =>
    obtain ⟨hown, hother⟩ := hv v (List.mem_cons_self _ _)
    have hstep : (serve bc v.env v.now v.freshSid srv v.cookie v.req).srv.sessions.find sid =
        none := by
      by_cases hc : v.cookie = some sid
      · rw [(serve_anonymous bc v.env v.now v.freshSid srv v.cookie v.req
          (fun s hs => by rw [hc] at hs; cases hs; exact hno) (hown hc).1 (hown hc).2).2]
        exact hno
      · rw [serve_other bc v.env v.now v.freshSid srv v.cookie v.req sid hc (hother hc)]
        exact hno
    have hrest := ih (serve bc v.env v.now v.freshSid srv v.cookie v.req).srv hstep
      (fun w hw => hv w (List.mem_cons_of_mem _ hw))
    simp only [serveAll, List.foldl_cons] at hrest ⊢
    exact hrest

/-- The session store after a logout that the store carries out holds no
session under the id of the cookie. -/
theorem logout_erases (bc : Bcrypt) (env : Env) (now : Nat) (fresh : String) (srv : Server)
    (cookie : Option String) (body : Body) (hf : env.fault = none) :
    (serve bc env now fresh srv cookie ⟨.logout, body⟩).resp =
        ⟨200, .message "Logout successful"⟩ ∧
      ∀ sid, cookie = some sid →
        (serve bc env now fresh srv cookie ⟨.logout, body⟩).srv.sessions.find sid = none := by
  have hout : ∀ sess, handle bc env srv.db sess ⟨.logout, body⟩ =
      ⟨⟨200, .message "Logout successful"⟩, srv.db, Session.empty⟩ := by
    intro sess
    simp [handle, logout, hf]
  unfold serve
  cases hload : loadSession srv cookie now with
  | none =>
    dsimp only
    rw [hout, if_neg (not_not.mpr rfl)]
    refine ⟨rfl, fun sid hc => ?_⟩
    subst hc
    apply find_afterGet_of_not_live
    simpa [loadSession] using hload
  | some p =>
    obtain ⟨sid0, sess⟩ := p
    dsimp only
    rw [hout, if_pos rfl, if_pos rfl]
    refine ⟨rfl, fun sid hc => ?_⟩
    subst hc
    have : sid0 = sid := by
      simp only [loadSession, Option.map_eq_some'] at hload
      obtain ⟨_, _, h⟩ := hload
      exact (Prod.mk.inj h).1.symm
    subst this
    exact find_erase_self _ _

/-- Claim C21: with a session store that carries out `destroy`, as the
in-memory store always does, logout answers with success from any state of the
session, authenticated or anonymous, and so does a second logout; afterwards,
through any further requests, of the caller or of other callers, among which
the caller neither logs in nor registers and no new session is given the id of
the caller's cookie, the status probe answers `authenticated: false` and every
protected route answers 401. -/
theorem logout_ends_session (bc : Bcrypt) (env : Env) (now : Nat) (fresh : String)
    (srv : Server) (cookie : Option String) (body : Body) (hf : env.fault = none) :
    (serve bc env now fresh srv cookie ⟨.logout, body⟩).resp =
        ⟨200, .message "Logout successful"⟩ ∧
      (∀ env2 now2 fresh2 body2, env2.fault = none →
        (serve bc env2 now2 fresh2 (serve bc env now fresh srv cookie ⟨.logout, body⟩).srv cookie
          ⟨.logout, body2⟩).resp = ⟨200, .message "Logout successful"⟩) ∧
      ∀ visits : List Visit,
        (∀ v ∈ visits, ∀ sid, cookie = some sid →
          (v.cookie = some sid → v.req.route ≠ .login ∧ v.req.route ≠ .register) ∧
            (v.cookie ≠ some sid → v.freshSid ≠ sid)) →
        ∀ env3 now3 fresh3,
          (∀ body3, (serve bc env3 now3 fresh3
            (serveAll bc (serve bc env now fresh srv cookie ⟨.logout, body⟩).srv visits) cookie
            ⟨.status, body3⟩).resp = ⟨200, .status false none⟩) ∧
          ∀ req, req.route.protected = true →
            (serve bc env3 now3 fresh3
              (serveAll bc (serve bc env now fresh srv cookie ⟨.logout, body⟩).srv visits) cookie
              req).resp = ⟨401, .error "Authentication required"⟩ := by
  obtain ⟨hresp, hgone⟩ := logout_erases bc env now fresh srv cookie body hf
  refine ⟨hresp, fun env2 now2 fresh2 body2 hf2 =>
    (logout_erases bc env2 now2 fresh2 _ cookie body2 hf2).1, ?_⟩
  intro visits hv env3 now3 fresh3
  have hno : ∀ sid, cookie = some sid →
      (serveAll bc (serve bc env now fresh srv cookie ⟨.logout, body⟩).srv
        visits).sessions.find sid = none := by
    intro sid h
    exact serveAll_keeps_gone bc _ sid visits (hgone sid h) fun v hvm => hv v hvm sid h
  constructor
  · intro body3
    rw [(serve_anonymous bc env3 now3 fresh3 _ cookie ⟨.status, body3⟩ hno
      (fun h => Route.noConfusion h) (fun h => Route.noConfusion h)).1]
    rfl
  · intro req hreq
    have h1 : req.route ≠ .login := by
      intro h
      rw [h] at hreq
      exact absurd hreq (by decide)
    have h2 : req.route ≠ .register := by
      intro h
      rw [h] at hreq
      exact absurd hreq (by decide)
    rw [(serve_anonymous bc env3 now3 fresh3 _ cookie req hno h1 h2).1]
    exact handle_empty_protected bc env3 _ req hreq

/-- Alice, whose session is stored under `sid1`, is authenticated one hour in;
her logout answers with success and leaves the store without the session; a
second logout answers with success; bob then logs in and gets the session
`sid9`, and alice, still presenting `sid1`, is reported as not authenticated
and is refused the list of her workouts. -/
theorem logout_ends_session_witness :
    (serve toyBcrypt sampleEnv (hours 1) "sid2" aliceServer (some "sid1") ⟨.status, []⟩).resp =
        ⟨200, .status true (some (1, .str "alice"))⟩ ∧
      (serve toyBcrypt sampleEnv (hours 1) "sid2" aliceServer (some "sid1") ⟨.logout, []⟩) =
        ⟨⟨200, .message "Logout successful"⟩, ⟨sampleDb, []⟩, none⟩ ∧
      (serve toyBcrypt sampleEnv (hours 2) "sid3"
        (serve toyBcrypt sampleEnv (hours 1) "sid2" aliceServer (some "sid1") ⟨.logout, []⟩).srv
        (some "sid1") ⟨.logout, []⟩).resp = ⟨200, .message "Logout successful"⟩ ∧
      (serveAll toyBcrypt
        (serve toyBcrypt sampleEnv (hours 1) "sid2" aliceServer (some "sid1") ⟨.logout, []⟩).srv
        [bobLoginVisit]).sessions = [("sid9", ⟨bobSession, hours 2 + maxAge⟩)] ∧
      (serve toyBcrypt sampleEnv (hours 3) "sid4"
        (serveAll toyBcrypt
          (serve toyBcrypt sampleEnv (hours 1) "sid2" aliceServer (some "sid1")
            ⟨.logout, []⟩).srv [bobLoginVisit])
        (some "sid1") ⟨.status, []⟩).resp = ⟨200, .status false none⟩ ∧
      (serve toyBcrypt sampleEnv (hours 3) "sid4"
        (serveAll toyBcrypt
          (serve toyBcrypt sampleEnv (hours 1) "sid2" aliceServer (some "sid1")
            ⟨.logout, []⟩).srv [bobLoginVisit])
        (some "sid1") ⟨.list .workouts, []⟩).resp = ⟨401, .error "Authentication required"⟩ :=
  ⟨by decide, by decide,
    (logout_ends_session toyBcrypt sampleEnv (hours 1) "sid2" aliceServer (some "sid1") []
      rfl).2.1 sampleEnv (hours 2) "sid3" [] rfl,
    by decide,
    ((logout_ends_session toyBcrypt sampleEnv (hours 1) "sid2" aliceServer (some "sid1") []
      rfl).2.2 [bobLoginVisit]
      (fun v hv sid hs => by
        rw [List.mem_singleton] at hv
        subst hv
        cases hs
        exact ⟨fun h => absurd h (by decide), fun _ => by decide⟩)
      sampleEnv (hours 3) "sid4").1 [],
    by decide⟩

/-! ## Lifetime of a session -/

/-- Counterexample to claim C22 as stated: alice logs in at time 0 and gets
the session id `sid1`; the session is used for a status probe 12 hours later;
presented to the list of workouts 25 hours after the login, it is accepted. -/
theorem session_outlives_24_hours :
    (serve toyBcrypt sampleEnv 0 "sid1" ⟨sampleDb, []⟩ none aliceLogin).setCookie = some "sid1" ∧
      (serve toyBcrypt sampleEnv 0 "sid1" ⟨sampleDb, []⟩ none aliceLogin).srv.sessions =
        [("sid1", ⟨aliceSession, hours 24⟩)] ∧
      (serve toyBcrypt sampleEnv (hours 25) "sid3"
        (serve toyBcrypt sampleEnv (hours 12) "sid2"
          (serve toyBcrypt sampleEnv 0 "sid1" ⟨sampleDb, []⟩ none aliceLogin).srv
          (some "sid1") ⟨.status, []⟩).srv
        (some "sid1") ⟨.list .workouts, []⟩).resp =
        ⟨200, .workouts [sampleWorkout 1 1 200 "2024-01-01", sampleWorkout 3 1 300 "2024-01-01",
          sampleWorkout 4 1 50 "2023-12-31"]⟩ := by
  decide

theorem serve_resp_of_not_loaded (bc : Bcrypt) (env : Env) (now : Nat) (fresh : String)
    (srv : Server) (cookie : Option String) (req : Request)
    (h : loadSession srv cookie now = none) :
    (serve bc env now fresh srv cookie req).resp =
      (handle bc env srv.db Session.empty req).resp := by
  unfold serve
  rw [h]
  dsimp only
  split <;> rfl

theorem login_ok_session (bc : Bcrypt) (env : Env) (db : Db) (sess : Session) (body : Body)
    (h : (handle bc env db sess ⟨.login, body⟩).resp.status = 200) :
    (handle bc env db sess ⟨.login, body⟩).sess.userId ≠ none := by
  simp only [handle, login] at h ⊢
  by_cases hv : (!(body.get "username").truthy || !(body.get "password").truthy) = true
  · rw [if_pos hv] at h
    simp at h
  · rw [if_neg hv] at h ⊢
    cases hf : env.fault with
    | some msg => simp [hf] at h
    | none =>
      simp only [hf] at h ⊢
      cases hfind : findUser db (body.get "username") with
      | none => simp [hfind] at h
      | some user =>
        simp only [hfind] at h ⊢
        cases hc : bcryptCompare bc (body.get "password") user.password.toJs with
        | none => simp [hc] at h
        | some b =>
          cases b
          · simp [hc] at h
          · simp

/-- Claim C22, amended: the lifetime of a session is 24 hours from the last
request that presented it, not from its issuance. A successful login without a
cookie at time `now` stores a session that expires at `now + 24h` and sets its
cookie; a request other than logout that presents a live session is served on
that session and moves its expiry to 24 hours after the request; a request
that presents a session at or after its expiry is handled as unauthenticated,
so a protected route answers 401. Hence a session created by login at T and not
presented in between is rejected at T + 25 hours. -/
theorem session_lifetime_from_last_request (bc : Bcrypt) (env : Env) (now : Nat)
    (fresh : String) (srv : Server) :
    (∀ body, (handle bc env srv.db Session.empty ⟨.login, body⟩).resp.status = 200 →
        (serve bc env now fresh srv none ⟨.login, body⟩).setCookie = some fresh ∧
        (serve bc env now fresh srv none ⟨.login, body⟩).srv.sessions.find fresh =
          some ⟨(handle bc env srv.db Session.empty ⟨.login, body⟩).sess, now + maxAge⟩) ∧
      (∀ sid sess req, srv.sessions.get sid now = some sess → req.route ≠ .logout →
        (serve bc env now fresh srv (some sid) req).resp = (handle bc env srv.db sess req).resp ∧
        (serve bc env now fresh srv (some sid) req).srv.sessions.find sid =
          some ⟨(handle bc env srv.db sess req).sess, now + maxAge⟩) ∧
      (∀ sid v req, srv.sessions.find sid = some v → v.expires ≤ now →
        req.route.protected = true →
        (serve bc env now fresh srv (some sid) req).resp =
          ⟨401, .error "Authentication required"⟩) ∧
      ∀ body env2 now2 fresh2 req2,
        (handle bc env srv.db Session.empty ⟨.login, body⟩).resp.status = 200 →
        now + maxAge ≤ now2 → req2.route.protected = true →
        (serve bc env2 now2 fresh2 (serve bc env now fresh srv none ⟨.login, body⟩).srv
          (some fresh) req2).resp = ⟨401, .error "Authentication required"⟩ := by
  have hA : ∀ body, (handle bc env srv.db Session.empty ⟨.login, body⟩).resp.status = 200 →
      (serve bc env now fresh srv none ⟨.login, body⟩).setCookie = some fresh ∧
      (serve bc env now fresh srv none ⟨.login, body⟩).srv.sessions.find fresh =
        some ⟨(handle bc env srv.db Session.empty ⟨.login, body⟩).sess, now + maxAge⟩ := by
    intro body hok
    have hne : (handle bc env srv.db Session.empty ⟨.login, body⟩).sess ≠ Session.empty := by
      intro h
      exact login_ok_session bc env srv.db Session.empty body hok (by rw [h]; rfl)
    unfold serve
    simp only [loadSession]
    rw [if_pos hne]
    exact ⟨rfl, find_set_self _ _ _⟩
  have hC : ∀ (env : Env) (now : Nat) (fresh : String) (srv : Server) sid v req,
      srv.sessions.find sid = some v → v.expires ≤ now → req.route.protected = true →
      (serve bc env now fresh srv (some sid) req).resp =
        ⟨401, .error "Authentication required"⟩ := by
    intro env now fresh srv sid v req hfind hexp hreq
    rw [serve_resp_of_not_loaded bc env now fresh srv (some sid) req
      (by simp [loadSession, SessionStore.get, hfind, hexp])]
    exact handle_empty_protected bc env srv.db req hreq
  refine ⟨hA, ?_, hC env now fresh srv, ?_⟩
  · intro sid sess req hget hroute
    unfold serve
    simp only [loadSession, hget, Option.map_some']
    rw [if_neg hroute]
    by_cases hmod : (handle bc env srv.db sess req).sess ≠ sess
    · rw [if_pos hmod]
      exact ⟨rfl, find_set_self _ _ _⟩
    · rw [if_neg hmod]
      refine ⟨rfl, ?_⟩
      rw [find_set_self, not_not.mp hmod]
  · intro body env2 now2 fresh2 req2 hok hlate hreq
    exact hC env2 now2 fresh2 _ fresh _ req2 (hA body hok).2 hlate hreq

/-- Alice logs in at time 0; her session, not presented in between, is
refused by the list of workouts 25 hours later, and accepted 23 hours later. -/
theorem session_lifetime_from_last_request_witness :
    (serve toyBcrypt sampleEnv (hours 25) "sid2"
        (serve toyBcrypt sampleEnv 0 "sid1" ⟨sampleDb, []⟩ none aliceLogin).srv
        (some "sid1") ⟨.list .workouts, []⟩).resp = ⟨401, .error "Authentication required"⟩ ∧
      (serve toyBcrypt sampleEnv (hours 23) "sid2"
        (serve toyBcrypt sampleEnv 0 "sid1" ⟨sampleDb, []⟩ none aliceLogin).srv
        (some "sid1") ⟨.list .workouts, []⟩).resp.status = 200 :=
  ⟨(session_lifetime_from_last_request toyBcrypt sampleEnv 0 "sid1" ⟨sampleDb, []⟩).2.2.2
    aliceLogin.body sampleEnv (hours 25) "sid2" ⟨.list .workouts, []⟩ (by decide) (by decide) rfl,
    by decide⟩

/-! ## The is_active flag of medications -/

/-- The two ways a medication insert ends: refused, with the database as it
was, or a row appended with a fresh key, the caller as owner and is_active 1
or 0 as the request's `is_active` is truthy or not. -/
theorem createMedication_result (env : Env) (db : Db) (U : Nat) (body : Body) :
    ((createMedication env db U body).2 = db ∧ (createMedication env db U body).1.status ≠ 200) ∨
      ∃ row : MedicationRow,
        row.id = nextId (db.medications.map (·.id)) db.medicationsSeq ∧ row.user_id = U ∧
        row.is_active = .num ⟨if (body.get "is_active").truthy then 1 else 0, 0⟩ ∧
        (createMedication env db U body).1 = ⟨200, .saved row.id "Medication added successfully!"⟩ ∧
        (createMedication env db U body).2 =
          { db with medications := db.medications ++ [row], medicationsSeq := row.id } := by
  unfold createMedication insertMedication
  dsimp only
  split
  · exact Or.inl ⟨rfl, by simp⟩
  · cases env.fault with
    | some msg => exact Or.inl ⟨rfl, by simp⟩
    | none =>
      refine Or.inr ⟨⟨nextId (db.medications.map (·.id)) db.medicationsSeq, U,
        bindText (body.get "name"), bindText (body.get "dosage"),
        bindText (body.get "frequency"), bindText (body.get "purpose"),
        affNumeric (bind (body.get "start_date")), affNumeric (bind (body.get "end_date")),
        .num (Dec.ofInt ((if (body.get "is_active").truthy then 1 else 0 : Nat) : Int)),
        env.now⟩, rfl, rfl, ?_, rfl, rfl⟩
      cases (body.get "is_active").truthy <;> rfl

theorem medInv_congr (db db1 : Db) (log : List MedInsert)
    (h1 : db1.medications = db.medications) (h2 : db1.medicationsSeq = db.medicationsSeq)
    (h : MedInv db log) : MedInv db1 log := by
  unfold MedInv at h ⊢
  rw [h1, h2]
  exact h

theorem lt_nextId_seq (ids : List Nat) (seq : Nat) : seq < nextId ids seq := by
  unfold nextId
  omega

theorem medInv_insert (db : Db) (log : List MedInsert) (row : MedicationRow) (t : Bool)
    (hid : row.id = nextId (db.medications.map (·.id)) db.medicationsSeq)
    (hact : row.is_active = .num ⟨if t then 1 else 0, 0⟩) (h : MedInv db log) :
    MedInv { db with medications := db.medications ++ [row], medicationsSeq := row.id }
      (log ++ [⟨row.id, row.user_id, t⟩]) := by
  obtain ⟨h1, h2, h3, h4⟩ := h
  have hfresh : ∀ e ∈ log, e.id ≠ row.id := by
    intro e he
    have := h2 e he
    have := lt_nextId_seq (db.medications.map (·.id)) db.medicationsSeq
    omega
  have hkey : medKey row = ⟨row.id, row.user_id, t⟩ := by
    unfold medKey
    rw [hact]
    cases t <;> simp
  refine ⟨?_, ?_, ?_, ?_⟩
  · simp only [List.map_append, List.map_cons, List.map_nil, List.filter_append, hkey]
    congr 1
    · rw [h1]
      apply List.filter_congr
      intro e he
      simp [hfresh e he]
    · simp
  · intro e he
    rw [List.mem_append, List.mem_singleton] at he
    rcases he with he | rfl
    · have := h2 e he
      have := lt_nextId_seq (db.medications.map (·.id)) db.medicationsSeq
      simp only
      omega
    · exact le_refl _
  · rw [List.map_append, List.nodup_append]
    refine ⟨h3, by simp, ?_⟩
    intro a ha hb
    simp only [List.map_cons, List.map_nil, List.mem_singleton] at hb
    rw [List.mem_map] at ha
    obtain ⟨e, he, rfl⟩ := ha
    exact hfresh e he hb
  · intro r hr
    rw [List.mem_append, List.mem_singleton] at hr
    rcases hr with hr | rfl
    · exact h4 r hr
    · rw [hact]
      cases t
      · exact Or.inr rfl
      · exact Or.inl rfl

theorem medInv_delete (db : Db) (log : List MedInsert) (idText : String) (U : Nat)
    (h : MedInv db log) :
    MedInv { db with medications :=
      db.medications.filter fun r => !(idMatches idText r.id && r.user_id = U) } log := by
  obtain ⟨h1, h2, h3, h4⟩ := h
  refine ⟨?_, h2, h3, fun r hr => h4 r (List.mem_filter.mp hr).1⟩
  have hmem : ∀ r ∈ db.medications, medKey r ∈ log := by
    intro r hr
    have : medKey r ∈ db.medications.map medKey := List.mem_map_of_mem _ hr
    rw [h1] at this
    exact (List.mem_filter.mp this).1
  have hsame : ∀ e ∈ log, ∀ r ∈ db.medications, r.id = e.id → medKey r = e := by
    intro e he r hr hid
    exact List.inj_on_of_nodup_map h3 (hmem r hr) he hid
  have hmap : (db.medications.filter fun r => !(idMatches idText r.id && r.user_id = U)).map
      medKey = (db.medications.map medKey).filter
        fun e => !(idMatches idText e.id && e.owner = U) := by
    rw [List.filter_map]
    rfl
  simp only
  rw [hmap, h1, List.filter_filter]
  apply List.filter_congr
  intro e he
  rw [Bool.eq_iff_iff]
  simp only [Bool.and_eq_true, decide_eq_true_eq, List.mem_map, List.mem_filter]
  constructor
  · rintro ⟨hkeep, r, hr, hid⟩
    refine ⟨r, ⟨hr, ?_⟩, hid⟩
    have := hsame e he r hr hid
    rw [← this] at hkeep
    exact hkeep
  · rintro ⟨r, ⟨hr, hkeep⟩, hid⟩
    have := hsame e he r hr hid
    refine ⟨?_, r, hr, hid⟩
    rw [← this]
    exact hkeep

theorem requireAuth_db (P : Db → Prop) (db : Db) (sess : Session) (next : Nat → Outcome)
    (h0 : P db) (h : ∀ v, v ≠ 0 → sess.userId = some v → P (next v).db) :
    P (requireAuth db sess next).db := by
  unfold requireAuth
  cases hs : sess.userId with
  | none => exact h0
  | some v =>
    dsimp only
    split
    · rename_i hv
      exact h v hv hs
    · exact h0

theorem login_db (bc : Bcrypt) (env : Env) (db : Db) (sess : Session) (body : Body) :
    (login bc env db sess body).db = db := by
  unfold login
  dsimp only
  split
  · rfl
  · cases env.fault with
    | some msg => rfl
    | none =>
      dsimp only
      cases findUser db (body.get "username") with
      | none => rfl
      | some user =>
        dsimp only
        cases bcryptCompare bc (body.get "password") user.password.toJs with
        | none => rfl
        | some b => cases b <;> rfl

/-- Requests other than the insert and the delete of medications leave the
table of medications and its counter as they were. -/
theorem handle_medications_other (bc : Bcrypt) (env : Env) (db : Db) (sess : Session)
    (req : Request) (h1 : req.route ≠ .create .medications)
    (h2 : ∀ id, req.route ≠ .delete .medications id) :
    (handle bc env db sess req).db.medications = db.medications ∧
      (handle bc env db sess req).db.medicationsSeq = db.medicationsSeq := by
  obtain ⟨route, body⟩ := req
  cases route with
  | register =>
    simp only [handle]
    rcases register_cases bc env db sess body with ⟨h, _, _⟩ | ⟨_, _, _, _, _, _, _, _, h⟩
    · rw [h]
      exact ⟨rfl, rfl⟩
    · rw [h]
      exact ⟨rfl, rfl⟩
  | login =>
    simp only [handle, login_db]
    trivial
  | logout =>
    simp only [handle, logout]
    split <;> exact ⟨rfl, rfl⟩
  | status =>
    simp only [handle, status]
    split <;> exact ⟨rfl, rfl⟩
  | list k =>
    exact requireAuth_db (fun d => d.medications = db.medications ∧
      d.medicationsSeq = db.medicationsSeq) db sess _ ⟨rfl, rfl⟩ fun _ _ _ => ⟨rfl, rfl⟩
  | summary =>
    exact requireAuth_db (fun d => d.medications = db.medications ∧
      d.medicationsSeq = db.medicationsSeq) db sess _ ⟨rfl, rfl⟩ fun _ _ _ => ⟨rfl, rfl⟩
  | profile =>
    exact requireAuth_db (fun d => d.medications = db.medications ∧
      d.medicationsSeq = db.medicationsSeq) db sess _ ⟨rfl, rfl⟩ fun _ _ _ => ⟨rfl, rfl⟩
  | create k =>
    apply requireAuth_db (fun d => d.medications = db.medications ∧
      d.medicationsSeq = db.medicationsSeq) db sess _ ⟨rfl, rfl⟩
    intro v _ _
    cases k with
    | workouts =>
      rcases createWorkout_cases env db v body with ⟨h, _⟩ | ⟨_, _, _, h⟩
      · simp only [createOf, h, and_self]
      · simp only [createOf, h, and_self]
    | nutrition =>
      rcases createNutrition_cases env db v body with ⟨h, _⟩ | ⟨_, _, _, h⟩
      · simp only [createOf, h, and_self]
      · simp only [createOf, h, and_self]
    | metrics =>
      rcases createMetric_cases env db v body with ⟨h, _⟩ | ⟨_, _, _, h⟩
      · simp only [createOf, h, and_self]
      · simp only [createOf, h, and_self]
    | medications => exact absurd rfl h1
  | delete k id =>
    apply requireAuth_db (fun d => d.medications = db.medications ∧
      d.medicationsSeq = db.medicationsSeq) db sess _ ⟨rfl, rfl⟩
    intro v _ _
    cases k with
    | workouts =>
      simp only [deleteOf, deleteWorkout]
      split <;> exact ⟨rfl, rfl⟩
    | nutrition =>
      simp only [deleteOf, deleteNutrition]
      split <;> exact ⟨rfl, rfl⟩
    | metrics =>
      simp only [deleteOf, deleteMetric]
      split <;> exact ⟨rfl, rfl⟩
    | medications => exact absurd rfl (h2 id)

theorem medInsertOf_other (bc : Bcrypt) (env : Env) (db : Db) (sess : Session) (req : Request)
    (h : req.route ≠ .create .medications) : medInsertOf bc env db sess req = none := by
  unfold medInsertOf
  split
  · rename_i hr _
    exact absurd hr h
  · rfl

theorem medInsertOf_status (bc : Bcrypt) (env : Env) (db : Db) (sess : Session) (req : Request)
    (h : (handle bc env db sess req).resp.status ≠ 200) :
    medInsertOf bc env db sess req = none := by
  unfold medInsertOf
  split
  · rename_i hr
    rw [hr] at h
    exact absurd rfl h
  · rfl

/-- Each request keeps the invariant, the record of its medication insert, if
it is one that succeeds, added to the records. -/
theorem medInv_step (bc : Bcrypt) (env : Env) (db : Db) (sess : Session) (req : Request)
    (log : List MedInsert) (h : MedInv db log) :
    MedInv (handle bc env db sess req).db
      (log ++ (medInsertOf bc env db sess req).toList) := by
  by_cases hc : req.route = .create .medications
  · obtain ⟨route, body⟩ := req
    simp only at hc
    subst hc
    by_cases hauth : ∃ U, sess.userId = some U ∧ U ≠ 0
    · obtain ⟨U, hs, hU⟩ := hauth
      rcases createMedication_result env db U body with ⟨hdb, hst⟩ | ⟨row, hid, hown, hact, hr, hdb⟩
      · have hout : (handle bc env db sess ⟨.create .medications, body⟩).resp.status ≠ 200 := by
          rw [authed_create bc env db sess body .medications U hs hU]
          exact hst
        rw [medInsertOf_status bc env db sess _ hout,
          authed_create bc env db sess body .medications U hs hU]
        simp only [createOf, hdb, Option.toList, List.append_nil]
        exact h
      · have hrec : medInsertOf bc env db sess ⟨.create .medications, body⟩ =
            some ⟨row.id, row.user_id, (body.get "is_active").truthy⟩ := by
          unfold medInsertOf
          rw [authed_create bc env db sess body .medications U hs hU]
          simp only [createOf, hr, hs, Option.getD_some, hown]
        rw [hrec, authed_create bc env db sess body .medications U hs hU]
        simp only [createOf, hdb, Option.toList]
        exact medInv_insert db log row _ hid hact h
    · have hout : handle bc env db sess ⟨.create .medications, body⟩ =
          ⟨⟨401, .error "Authentication required"⟩, db, sess⟩ := by
        simp only [handle, requireAuth]
        cases hs : sess.userId with
        | none => rfl
        | some U =>
          have : U = 0 := by
            by_contra hne
            exact hauth ⟨U, hs, hne⟩
          simp [this]
      rw [medInsertOf_status bc env db sess _ (by rw [hout]; simp), hout]
      simpa using h
  · rw [medInsertOf_other bc env db sess req hc]
    simp only [Option.toList, List.append_nil]
    by_cases hd : ∃ id, req.route = .delete .medications id
    · obtain ⟨id, hd⟩ := hd
      obtain ⟨route, body⟩ := req
      simp only at hd
      subst hd
      apply requireAuth_db (fun d => MedInv d log) db sess _ h
      intro v _ _
      simp only [deleteOf, deleteMedication]
      split
      · exact h
      · exact medInv_delete db log id v h
    · have := handle_medications_other bc env db sess req hc (fun id hid => hd ⟨id, hid⟩)
      exact medInv_congr db _ log this.1 this.2 h

theorem medInv_run (bc : Bcrypt) (db : Db) (steps : List Step) (log : List MedInsert)
    (h : MedInv db log) : MedInv (runSteps bc db steps).1 (log ++ (runSteps bc db steps).2) := by
  induction steps generalizing db log with
  | nil => simpa [runSteps] using h
  | cons s rest ih =>
    have hstep := medInv_step bc s.env db s.sess s.req log h
    have := ih _ _ hstep
    simp only [runSteps]
    rw [← List.append_assoc]
    exact this

theorem medInv_empty (db : Db) (h : db.medications = []) : MedInv db [] := by
  simp [MedInv, h]

theorem active_count_of_medInv (db : Db) (log : List MedInsert) (U : Nat) (h : MedInv db log) :
    (activeMedications db U).length =
      (log.filter fun e => decide (e.owner = U) && e.truthy &&
        decide (e.id ∈ db.medications.map (·.id))).length := by
  obtain ⟨h1, _, _, h4⟩ := h
  have hact : activeMedications db U =
      db.medications.filter ((fun e : MedInsert => decide (e.owner = U) && e.truthy) ∘ medKey) := by
    unfold activeMedications
    apply List.filter_congr
    intro r hr
    simp only [Function.comp, medKey]
    rcases h4 r hr with h | h <;> rw [h] <;> simp [sqlEq, Dec.ofInt]
  rw [hact, ← List.length_map (f := medKey), ← List.filter_map, h1, List.filter_filter]

theorem summary_active_count (bc : Bcrypt) (env : Env) (db : Db) (sess : Session) (body : Body)
    (n : Nat) (c1 c2 : Dec) (a U : Nat) (hs : sess.userId = some U)
    (h : (handle bc env db sess ⟨.summary, body⟩).resp = ⟨200, .summary n c1 c2 a⟩) :
    a = (activeMedications db U).length := by
  simp only [handle, requireAuth, hs] at h
  split at h
  · unfold summary at h
    repeat' split at h
    all_goals first
      | (have h2 := congrArg Response.status h
         simp at h2
         done)
      | (simp only [Response.mk.injEq, Reply.summary.injEq, true_and] at h
         exact h.2.2.2.symm)
  · simp at h

/-- Claim C26: a medication insert that succeeds appends a row whose is_active
is 1 when the `is_active` of the request is truthy and 0 otherwise; so, after
any sequence of requests on a store that began without medications, every
medication row has is_active 1 or 0, and the count of active medications that
the summary gives a user is the number of medication inserts of that user that
succeeded with a truthy `is_active` and whose row is still in the table. -/
theorem medication_flag_follows_truthiness (bc : Bcrypt) :
    (∀ env db sess body,
        (handle bc env db sess ⟨.create .medications, body⟩).resp.status = 200 →
        ∃ row, (handle bc env db sess ⟨.create .medications, body⟩).db.medications =
            db.medications ++ [row] ∧
          row.is_active = .num ⟨if (body.get "is_active").truthy then 1 else 0, 0⟩) ∧
      ∀ db steps, db.medications = [] →
        (∀ r ∈ (runSteps bc db steps).1.medications,
          r.is_active = .num ⟨1, 0⟩ ∨ r.is_active = .num ⟨0, 0⟩) ∧
        ∀ env sess body U n c1 c2 a, sess.userId = some U →
          (handle bc env (runSteps bc db steps).1 sess ⟨.summary, body⟩).resp =
            ⟨200, .summary n c1 c2 a⟩ →
          a = ((runSteps bc db steps).2.filter fun e => decide (e.owner = U) && e.truthy &&
            decide (e.id ∈ (runSteps bc db steps).1.medications.map (·.id))).length := by
  constructor
  · intro env db sess body hok
    by_cases hauth : ∃ U, sess.userId = some U ∧ U ≠ 0
    · obtain ⟨U, hs, hU⟩ := hauth
      rw [authed_create bc env db sess body .medications U hs hU] at hok ⊢
      simp only [createOf] at hok ⊢
      rcases createMedication_result env db U body with ⟨_, hst⟩ | ⟨row, _, _, hact, _, hdb⟩
      · exact absurd hok hst
      · exact ⟨row, by rw [hdb], hact⟩
    · exfalso
      simp only [handle, requireAuth] at hok
      cases hs : sess.userId with
      | none => simp [hs] at hok
      | some U =>
        have : U = 0 := by
          by_contra hne
          exact hauth ⟨U, hs, hne⟩
        simp [hs, this] at hok
  · intro db steps hempty
    have hinv := medInv_run bc db steps [] (medInv_empty db hempty)
    rw [List.nil_append] at hinv
    refine ⟨hinv.2.2.2, ?_⟩
    intro env sess body U n c1 c2 a hs hresp
    rw [summary_active_count bc env _ sess body n c1 c2 a U hs hresp]
    exact active_count_of_medInv _ _ U hinv

set_option maxRecDepth 100000 in
theorem medication_flag_follows_truthiness_witness :
    (runSteps toyBcrypt Db.empty medSteps).2 = [⟨1, 1, true⟩, ⟨2, 1, false⟩, ⟨3, 1, true⟩] ∧
      (runSteps toyBcrypt Db.empty medSteps).1.medications.map
        (fun r => (r.id, r.is_active)) = [(2, .num ⟨0, 0⟩), (3, .num ⟨1, 0⟩)] ∧
      (handle toyBcrypt sampleEnv (runSteps toyBcrypt Db.empty medSteps).1 aliceSession
        ⟨.summary, []⟩).resp = ⟨200, .summary 0 ⟨0, 0⟩ ⟨0, 0⟩ 1⟩ ∧
      1 = ((runSteps toyBcrypt Db.empty medSteps).2.filter fun e =>
        decide (e.owner = 1) && e.truthy &&
          decide (e.id ∈ (runSteps toyBcrypt Db.empty medSteps).1.medications.map (·.id))).length :=
  ⟨by decide, by decide, by decide,
    ((medication_flag_follows_truthiness toyBcrypt).2 Db.empty medSteps rfl).2 sampleEnv
      aliceSession [] 1 0 ⟨0, 0⟩ ⟨0, 0⟩ 1 rfl (by decide)⟩

end HealthTracker
